import Mathlib

/-!
# go-mod-core-contracts: partial updates, request helpers and event unmarshalling

A shallow embedding of the request DTO helpers (`v2/dtos/requests`), of the
provision watcher conversions (`v2/dtos`), of the response constructors
(`v2/dtos/responses`, `v2/dtos/common`) and of the HTTP request helper
(`v2/clients/http/utils`), followed by the properties proved about them. Code the sources call and do not hold is a parameter of its caller;
where a property is about such code, a definition marked as modelled from the
spec stands for it.

Conventions of the embedding:

* a Go slice is `Slice α = Option (List α)`: `none` is the nil slice, `some []`
  a non-nil slice of length zero;
* a Go pointer field (`*string`, `*int`) is an `Option`, `none` being nil;
* a Go `error` is a value of `errors.Err`, whose constructor `nil` is the nil error;
* a function that updates its receiver through a pointer takes the old value and
  returns the new one;
* calls into other libraries (`encoding/json`, `net/http`, `uuid`, the struct
  validator) are parameters of the function that makes the call.
-/

set_option autoImplicit false

namespace CoreContracts

/-- A Go slice: `none` is nil, `some l` is a non-nil slice holding `l`. -/
abbrev Slice (α : Type) := Option (List α)

/-- Go's `len` on a slice: zero for the nil slice. -/
def Slice.len {α : Type} : Slice α → Nat
  | none => 0
  | some l => l.length

/-- A Go byte slice. -/
abbrev Bytes := Slice UInt8

namespace errors

/-- The error kinds of package `errors` that the embedded functions use. -/
inductive ErrKind
  | KindContractInvalid
  | KindServerError
  | KindIOError
  | KindClientError
  deriving DecidableEq, Repr

/-- Go error values. `nil` is the nil error, `foreign` an error made by another
library, `common k m e` the value of `NewCommonEdgeX(k, m, e)` and `wrapper e` the
value of `NewCommonEdgeXWrapper(e)`. -/
inductive Err
  | nil
  | foreign (msg : String)
  | common (kind : ErrKind) (message : String) (wrapped : Err)
  | wrapper (wrapped : Err)
  deriving DecidableEq, Repr

/-- The constructor `errors.NewCommonEdgeX(kind, message, wrappedError)`. -/
def NewCommonEdgeX (kind : ErrKind) (message : String) (wrappedError : Err) : Err :=
  Err.common kind message wrappedError

/-- The constructor `errors.NewCommonEdgeXWrapper(wrappedError)`. -/
def NewCommonEdgeXWrapper (wrappedError : Err) : Err :=
  Err.wrapper wrappedError

end errors

namespace json

open errors

/-- A parsed JSON document. -/
inductive Value
  | null
  | bool (b : Bool)
  | int (n : Int)
  | float (literal : String)
  | string (s : String)
  | array (items : List Value)
  | object (members : List (String × Value))

/-- The members of a JSON object, in document order. -/
abbrev Members := List (String × Value)

/-- The value an object gives for a struct field with the JSON name `tag`: that of
the last member whose key is the name up to the case folding `fold`, `none` when
no member has such a key. -/
def member (fold : String → String) (ms : Members) (tag : String) : Option Value :=
  ((ms.filter (fun m => decide (fold m.1 = fold tag))).getLast?).map Prod.snd

/-- The key of the field `tag` is absent from the object: no member's key is the
name, up to the case folding. -/
def absent (fold : String → String) (ms : Members) (tag : String) : Prop :=
  ∀ m ∈ ms, fold m.1 ≠ fold tag

instance (fold : String → String) (ms : Members) (tag : String) :
    Decidable (absent fold ms tag) := by
  unfold absent
  infer_instance

/-- The error of a JSON value that does not fit the Go type of its field. -/
def typeError (goType : String) : Err :=
  Err.foreign ("json: cannot unmarshal value into Go value of type " ++ goType)

/-- Modelled from the spec: decoding into a `string` field (`encoding/json` is not
among the sources). Absent and `null` leave the zero value. -/
def intoString : Option Value → Except Err String
  | none => Except.ok ""
  | some Value.null => Except.ok ""
  | some (Value.string s) => Except.ok s
  | some _ => Except.error (typeError "string")

/-- Modelled from the spec: decoding into a `*string` field of a patch
(`encoding/json` is not among the sources): an absent key leaves the nil pointer. -/
def intoStringPtr : Option Value → Except Err (Option String)
  | none => Except.ok none
  | some Value.null => Except.ok none
  | some (Value.string s) => Except.ok (some s)
  | some _ => Except.error (typeError "string")

/-- Modelled from the spec: decoding into a `*int` field of a patch
(`encoding/json` is not among the sources): an absent key leaves the nil pointer. -/
def intoIntPtr : Option Value → Except Err (Option Int)
  | none => Except.ok none
  | some Value.null => Except.ok none
  | some (Value.int n) => Except.ok (some n)
  | some _ => Except.error (typeError "int")

/-- Modelled from the spec: decoding into a slice field of a patch
(`encoding/json` is not among the sources): an absent key leaves the nil slice,
an array gives a non-nil slice of its decoded items, so `[]` gives the non-nil
empty slice. `item` decodes one element. -/
def intoSlice {α : Type} (item : Value → Except Err α) :
    Option Value → Except Err (Slice α)
  | none => Except.ok none
  | some Value.null => Except.ok none
  | some (Value.array items) => (items.mapM item).map some
  | some _ => Except.error (typeError "slice")

/-- Decoding one element of a `[]string`. -/
def stringItem : Value → Except Err String
  | Value.null => Except.ok ""
  | Value.string s => Except.ok s
  | _ => Except.error (typeError "string")

/-- Decoding a struct-typed field from the members of its object, by `fields`:
absent and `null` leave the zero value `zero`. -/
def intoStruct {α : Type} (zero : α) (fields : Members → Except Err α) :
    Option Value → Except Err α
  | none => Except.ok zero
  | some Value.null => Except.ok zero
  | some (Value.object ms) => fields ms
  | some _ => Except.error (typeError "struct")

/-- Modelled from the spec: `json.Unmarshal` into a fresh struct
(`encoding/json` is not among the sources). `parse` reads the bytes as a JSON
document, failing on text that is not JSON, and `fields` decodes the struct from
the members of the top-level object. -/
def Unmarshal {α : Type} (parse : Bytes → Except Err Value) (zero : α)
    (fields : Members → Except Err α) (b : Bytes) : Except Err α :=
  match parse b with
  | Except.error err => Except.error err
  | Except.ok v => intoStruct zero fields (some v)

end json

namespace models

/-- The embedded struct `models.Timestamps`. -/
structure Timestamps where
  Created : Int
  Modified : Int
  deriving DecidableEq, Repr

/-- The model `models.Subscription`, over the type `MA` of `models.Address`. Its
declaration is not among the sources: the fields are the ones
`ReplaceSubscriptionModelFieldsWithDTO` assigns, with the identifying fields and
the timestamps. `AdminState` is the string type `models.AdminState`. -/
structure Subscription (MA : Type) where
  Timestamps : Timestamps
  Id : String
  Name : String
  Channels : Slice MA
  Categories : Slice String
  Labels : Slice String
  Description : String
  Receiver : String
  ResendLimit : Int
  ResendInterval : String
  AdminState : String
  deriving DecidableEq, Repr

/-- The model `models.DeviceService`, with the fields that
`TestReplaceDeviceServiceModelFieldsWithDTO` sets and reads. -/
structure DeviceService where
  Id : String
  Name : String
  BaseAddress : String
  AdminState : String
  Labels : Slice String
  deriving DecidableEq, Repr

end models

namespace dtos

/-- The patch DTO `dtos.UpdateSubscription`, over the type `DA` of `dtos.Address`.
Its declaration is not among the sources: the fields are the ones the source
reads, pointers for scalars and slices for collections. -/
structure UpdateSubscription (DA : Type) where
  Id : Option String
  Name : Option String
  Channels : Slice DA
  Categories : Slice String
  Labels : Slice String
  Description : Option String
  Receiver : Option String
  ResendLimit : Option Int
  ResendInterval : Option String
  AdminState : Option String
  deriving DecidableEq, Repr

/-- The patch DTO `dtos.UpdateDeviceService`, with the fields that
`mockDeviceServiceDTO` sets. -/
structure UpdateDeviceService where
  Id : Option String
  Name : Option String
  BaseAddress : Option String
  AdminState : Option String
  Labels : Slice String
  deriving DecidableEq, Repr

end dtos

namespace common

/-- The request envelope `common.BaseRequest`, with the field the tests set. -/
structure BaseRequest where
  RequestId : String
  deriving DecidableEq, Repr

end common

namespace dtos

/-- The embedded struct `dtos.BinaryReading`. -/
structure BinaryReading where
  BinaryValue : Bytes
  MediaType : String
  deriving DecidableEq, Repr

/-- The embedded struct `dtos.SimpleReading`. -/
structure SimpleReading where
  Value : String
  deriving DecidableEq, Repr

/-- The DTO `dtos.BaseReading`, with the fields the tests set. `ApiVersion` is the
field of the embedded `common.Versionable`. -/
structure BaseReading where
  ApiVersion : String
  Id : String
  Created : Int
  Origin : Int
  DeviceName : String
  ResourceName : String
  ProfileName : String
  ValueType : String
  BinaryReading : BinaryReading
  SimpleReading : SimpleReading
  deriving DecidableEq, Repr

/-- The DTO `dtos.Subscription`, over the type `DA` of `dtos.Address`. Its
declaration is not among the sources: the fields are those of the patch
`UpdateSubscription`, held by value. The source reads `Channels` only. -/
structure Subscription (DA : Type) where
  Id : String
  Name : String
  Channels : Slice DA
  Receiver : String
  Categories : Slice String
  Labels : Slice String
  Description : String
  ResendLimit : Int
  ResendInterval : String
  AdminState : String
  deriving DecidableEq, Repr

/-- Modelled from the spec: the method `BaseReading.Validate` is missing from the
sources. It validates the nested struct that the struct-level validator skips: a
binary reading, one whose value type is the Binary value type (compared as
`Encode` compares it in `event.go`), needs a non-empty binary value and a
non-empty media type; any other reading is a simple reading and needs a non-empty
value. `ValueTypeBinary` is the constant `v2.ValueTypeBinary`. -/
def BaseReading.Validate (ValueTypeBinary : String) (b : BaseReading) : errors.Err :=
  if b.ValueType = ValueTypeBinary then
    if Slice.len b.BinaryReading.BinaryValue = 0 then
      errors.Err.foreign "BinaryReading.BinaryValue field should be greater than 0"
    else if b.BinaryReading.MediaType = "" then
      errors.Err.foreign "BinaryReading.MediaType field is required"
    else errors.Err.nil
  else if b.SimpleReading.Value = "" then
    errors.Err.foreign "SimpleReading.Value field is required"
  else errors.Err.nil

/-- The DTO `dtos.DeviceService`, with the fields that `testAddDeviceService`
sets. -/
structure DeviceService where
  Name : String
  BaseAddress : String
  Labels : Slice String
  AdminState : String
  deriving DecidableEq, Repr

/-- A Go `map[string]string`: `none` is the nil map. -/
abbrev StringMap := Option (Finmap (fun _ : String => String))

/-- The DTO `dtos.Event`, with the fields `AddEventReqToEventModel` reads. -/
structure Event where
  Id : String
  DeviceName : String
  ProfileName : String
  SourceName : String
  Origin : Int
  Readings : Slice BaseReading
  Tags : StringMap
  deriving DecidableEq

end dtos

namespace common

/-- The embedded struct `common.Versionable`. -/
structure Versionable where
  ApiVersion : String
  deriving DecidableEq, Repr

end common

namespace models

/-- The model `models.ProvisionWatcher`, over the type `MAE` of
`models.AutoEvent`: the fields `ToProvisionWatcherModel` sets. `AdminState` is the
string type `models.AdminState`. -/
structure ProvisionWatcher (MAE : Type) where
  Timestamps : Timestamps
  Id : String
  Name : String
  Labels : Slice String
  Identifiers : Option (Finmap (fun _ : String => String))
  BlockingIdentifiers : Option (Finmap (fun _ : String => Slice String))
  ProfileName : String
  ServiceName : String
  AdminState : String
  AutoEvents : Slice MAE

end models

namespace dtos

/-- The DTO `dtos.ProvisionWatcher` of `provisionwatcher.go`, over the type `DAE`
of `dtos.AutoEvent`. -/
structure ProvisionWatcher (DAE : Type) where
  Versionable : common.Versionable
  Id : String
  Name : String
  Labels : Slice String
  Identifiers : Option (Finmap (fun _ : String => String))
  BlockingIdentifiers : Option (Finmap (fun _ : String => Slice String))
  ProfileName : String
  ServiceName : String
  AdminState : String
  AutoEvents : Slice DAE

/-- The function `ToProvisionWatcherModel` of `provisionwatcher.go`.
`ToAutoEventModels` is called by the source and not defined there. -/
def ToProvisionWatcherModel {DAE MAE : Type} (ToAutoEventModels : Slice DAE → Slice MAE)
    (dto : ProvisionWatcher DAE) : models.ProvisionWatcher MAE :=
  { Timestamps := { Created := 0, Modified := 0 },
    Id := dto.Id,
    Name := dto.Name,
    Labels := dto.Labels,
    Identifiers := dto.Identifiers,
    BlockingIdentifiers := dto.BlockingIdentifiers,
    ProfileName := dto.ProfileName,
    ServiceName := dto.ServiceName,
    AdminState := dto.AdminState,
    AutoEvents := ToAutoEventModels dto.AutoEvents }

/-- The function `FromProvisionWatcherModelToDTO` of `provisionwatcher.go`.
`FromAutoEventModelsToDTOs` is called by the source and not defined there. The
composite literal names no `Versionable`, which so keeps its zero value. -/
def FromProvisionWatcherModelToDTO {DAE MAE : Type}
    (FromAutoEventModelsToDTOs : Slice MAE → Slice DAE)
    (pw : models.ProvisionWatcher MAE) : ProvisionWatcher DAE :=
  { Versionable := { ApiVersion := "" },
    Id := pw.Id,
    Name := pw.Name,
    Labels := pw.Labels,
    Identifiers := pw.Identifiers,
    BlockingIdentifiers := pw.BlockingIdentifiers,
    ProfileName := pw.ProfileName,
    ServiceName := pw.ServiceName,
    AdminState := pw.AdminState,
    AutoEvents := FromAutoEventModelsToDTOs pw.AutoEvents }

/-- A sample provision watcher model, without auto events. -/
def exampleProvisionWatcher : models.ProvisionWatcher Unit :=
  { Timestamps := { Created := 1600666185705, Modified := 1600666185705 },
    Id := "7a1707f0-166f-4c4b-bc9d-1d54c74e0137",
    Name := "TestProvisionWatcher",
    Labels := some ["MODBUS"],
    Identifiers := some (Finmap.singleton "address" "localhost"),
    BlockingIdentifiers := none,
    ProfileName := "TestProfile",
    ServiceName := "TestDeviceService",
    AdminState := "LOCKED",
    AutoEvents := none }

end dtos

namespace models

/-- The model `models.Event`, over the type `MR` of the interface
`models.Reading`: the fields `AddEventReqToEventModel` sets. -/
structure Event (MR : Type) where
  Id : String
  DeviceName : String
  ProfileName : String
  SourceName : String
  Origin : Int
  Readings : Slice MR
  Tags : dtos.StringMap

end models

namespace requests

/-- The function `ReplaceSubscriptionModelFieldsWithDTO` of `subscription.go`: each
guarded assignment in source order. `ToAddressModels` is `dtos.ToAddressModels`,
which the source calls and does not define. -/
def ReplaceSubscriptionModelFieldsWithDTO {DA MA : Type}
    (ToAddressModels : Slice DA → Slice MA)
    (s : models.Subscription MA) (patch : dtos.UpdateSubscription DA) :
    models.Subscription MA :=
  let s := if patch.Channels.isSome then { s with Channels := ToAddressModels patch.Channels } else s
  let s := if patch.Categories.isSome then { s with Categories := patch.Categories } else s
  let s := if patch.Labels.isSome then { s with Labels := patch.Labels } else s
  let s := match patch.Description with
    | some v => { s with Description := v }
    | none => s
  let s := match patch.Receiver with
    | some v => { s with Receiver := v }
    | none => s
  let s := match patch.ResendLimit with
    | some v => { s with ResendLimit := v }
    | none => s
  let s := match patch.ResendInterval with
    | some v => { s with ResendInterval := v }
    | none => s
  let s := match patch.AdminState with
    | some v => { s with AdminState := v }
    | none => s
  s

/-- The request `AddEventRequest` of `event.go`. -/
structure AddEventRequest where
  BaseRequest : common.BaseRequest
  Event : dtos.Event
  deriving DecidableEq

/-- The validators `AddEventRequest.Validate` calls and the normalizer
`Unmarshal` calls, none of them among the sources: `Validate` is the struct-tag
validator `v2.Validate` at this request type, `ReadingValidate` the method
`BaseReading.Validate`, and `NormalizeValueType` is `v2.NormalizeValueType`,
returning the canonical spelling or an error. -/
structure EventDeps where
  Validate : AddEventRequest → errors.Err
  ReadingValidate : dtos.BaseReading → errors.Err
  NormalizeValueType : String → Except errors.Err String

/-- The loop of `AddEventRequest.Validate` over the readings: the first error. -/
def validateReadings (ReadingValidate : dtos.BaseReading → errors.Err) :
    List dtos.BaseReading → errors.Err
  | [] => errors.Err.nil
  | r :: rest =>
    if ReadingValidate r ≠ errors.Err.nil then ReadingValidate r
    else validateReadings ReadingValidate rest

/-- The method `AddEventRequest.Validate`. -/
def AddEventRequest.Validate (deps : EventDeps) (a : AddEventRequest) : errors.Err :=
  if deps.Validate a ≠ errors.Err.nil then deps.Validate a
  else validateReadings deps.ReadingValidate (a.Event.Readings.getD [])

/-- The normalizing loop of `AddEventRequest.Unmarshal`: the readings as the loop
leaves them, and the error it returns. A reading whose value type does not
normalize stops the loop, the readings before it already rewritten. -/
def normalizeReadings (NormalizeValueType : String → Except errors.Err String) :
    List dtos.BaseReading → List dtos.BaseReading × errors.Err
  | [] => ([], errors.Err.nil)
  | r :: rest =>
    match NormalizeValueType r.ValueType with
    | Except.error err => (r :: rest, errors.NewCommonEdgeXWrapper err)
    | Except.ok valueType =>
      let (rest', err) := normalizeReadings NormalizeValueType rest
      ({ r with ValueType := valueType } :: rest', err)

/-- The method `AddEventRequest.Unmarshal`: the receiver after the call and the
error returned. `a` is the receiver before the call and `f` the decoder, which
fills a fresh struct from the bytes or fails. -/
def AddEventRequest.Unmarshal (deps : EventDeps) (a : AddEventRequest) (b : Bytes)
    (f : Bytes → Except errors.Err AddEventRequest) : AddEventRequest × errors.Err :=
  match f b with
  | Except.error err =>
    (a, errors.NewCommonEdgeX errors.ErrKind.KindContractInvalid
      "Failed to unmarshal the byte array." err)
  | Except.ok addEvent =>
    let a := addEvent
    if AddEventRequest.Validate deps a ≠ errors.Err.nil then
      (a, AddEventRequest.Validate deps a)
    else
      match a.Event.Readings with
      | none => (a, errors.Err.nil)
      | some readings =>
        let (readings', err) := normalizeReadings deps.NormalizeValueType readings
        ({ a with Event := { a.Event with Readings := some readings' } }, err)

/-- The method `AddEventRequest.UnmarshalJSON`; `jsonUnmarshal` is
`json.Unmarshal`. -/
def AddEventRequest.UnmarshalJSON (deps : EventDeps)
    (jsonUnmarshal : Bytes → Except errors.Err AddEventRequest)
    (a : AddEventRequest) (b : Bytes) : AddEventRequest × errors.Err :=
  AddEventRequest.Unmarshal deps a b jsonUnmarshal

/-- The method `AddEventRequest.UnmarshalCBOR`; `cborUnmarshal` is
`cbor.Unmarshal`. -/
def AddEventRequest.UnmarshalCBOR (deps : EventDeps)
    (cborUnmarshal : Bytes → Except errors.Err AddEventRequest)
    (a : AddEventRequest) (b : Bytes) : AddEventRequest × errors.Err :=
  AddEventRequest.Unmarshal deps a b cborUnmarshal

/-- Two readings that differ at most in the letter case of their value type:
`lower` is the case folding, and every other field is the same. -/
def sameUpToCase (lower : String → String) (r₁ r₂ : dtos.BaseReading) : Prop :=
  { r₁ with ValueType := "" } = { r₂ with ValueType := "" }
    ∧ lower r₁.ValueType = lower r₂.ValueType

instance (lower : String → String) (r₁ r₂ : dtos.BaseReading) :
    Decidable (sameUpToCase lower r₁ r₂) := by
  unfold sameUpToCase
  infer_instance

/-- Two decoded requests that differ at most in the letter case of their readings'
value types. -/
def differOnlyInCase (lower : String → String) (d₁ d₂ : AddEventRequest) : Prop :=
  d₁.BaseRequest = d₂.BaseRequest
    ∧ { d₁.Event with Readings := none } = { d₂.Event with Readings := none }
    ∧ d₁.Event.Readings.isSome = d₂.Event.Readings.isSome
    ∧ List.Forall₂ (sameUpToCase lower) (d₁.Event.Readings.getD []) (d₂.Event.Readings.getD [])

instance (lower : String → String) (d₁ d₂ : AddEventRequest) :
    Decidable (differOnlyInCase lower d₁ d₂) := by
  unfold differOnlyInCase
  infer_instance

/-- A sample case folding: the three spellings of `Uint8` fold to one. -/
def exampleLower (s : String) : String :=
  if s = "Uint8" ∨ s = "UINT8" ∨ s = "uint8" then "uint8" else s

/-- Sample dependencies: validators that accept everything and a normalizer that
knows the value type `Uint8` in any of the three spellings. -/
def exampleEventDeps : EventDeps :=
  { Validate := fun _ => errors.Err.nil
    ReadingValidate := fun _ => errors.Err.nil
    NormalizeValueType := fun s =>
      if exampleLower s = "uint8" then Except.ok "Uint8"
      else Except.error (errors.Err.foreign "unable to normalize the unknown value type") }

/-- A sample request with one simple reading of the given value type. -/
def exampleAddEventRequest (valueType : String) : AddEventRequest :=
  { BaseRequest := { RequestId := "7a1707f0-166f-4c4b-bc9d-1d54c74e0137" }
    Event :=
      { Id := "7a1707f0-166f-4c4b-bc9d-1d54c74e0137", DeviceName := "TestDevice",
        ProfileName := "TestProfile", SourceName := "", Origin := 1600666185705354000,
        Readings := some [
          { ApiVersion := "", Id := "", Created := 0, Origin := 1600666185705354000,
            DeviceName := "TestDevice", ResourceName := "TestResource",
            ProfileName := "TestProfile", ValueType := valueType,
            BinaryReading := { BinaryValue := none, MediaType := "" },
            SimpleReading := { Value := "45" } }],
        Tags := none } }

/-- A sample decoder: the one-byte inputs 1 and 2 decode to the sample request
with the value type spelled `uint8` and `UINT8`; nothing else decodes. -/
def exampleDecode (b : Bytes) : Except errors.Err AddEventRequest :=
  if b = some [1] then Except.ok (exampleAddEventRequest "uint8")
  else if b = some [2] then Except.ok (exampleAddEventRequest "UINT8")
  else Except.error (errors.Err.foreign "unexpected end of JSON input")

/-- Sample dependencies with the reading validation as modelled, `Binary` being the
Binary value type: a struct-level validator that accepts everything, and a
normalizer that knows `Binary` and `Uint8` in three spellings each. -/
def binaryEventDeps : EventDeps :=
  { Validate := fun _ => errors.Err.nil
    ReadingValidate := dtos.BaseReading.Validate "Binary"
    NormalizeValueType := fun s =>
      if s = "Binary" ∨ s = "BINARY" ∨ s = "binary" then Except.ok "Binary"
      else if exampleLower s = "uint8" then Except.ok "Uint8"
      else Except.error (errors.Err.foreign "unable to normalize the unknown value type") }

/-- A sample decoder: every input decodes to the sample request whose reading has
the value type spelled `binary`, a value and no binary value. -/
def decodeLowerBinary (_ : Bytes) : Except errors.Err AddEventRequest :=
  Except.ok (exampleAddEventRequest "binary")

/-- One step of the loop that copies the tags: `tags[tag] = value`, for the key
`tag` of the map `src` being ranged over and its value there. -/
def putTag (src : Finmap (fun _ : String => String))
    (tags : Finmap (fun _ : String => String)) (tag : String) :
    Finmap (fun _ : String => String) :=
  match src.lookup tag with
  | some value => tags.insert tag value
  | none => tags

instance (src : Finmap (fun _ : String => String)) : RightCommutative (putTag src) where
  right_comm := by
    intro tags k₁ k₂
    unfold putTag
    cases h₁ : src.lookup k₁ <;> cases h₂ : src.lookup k₂ <;> simp only []
    rename_i v₁ v₂
    by_cases hk : k₁ = k₂
    · subst hk
      rw [h₁] at h₂
      injection h₂ with hv
      subst hv
      rfl
    · exact Finmap.insert_insert_of_ne tags hk

/-- The loop of `AddEventReqToEventModel` over a non-nil map of tags: starting from
the empty map, every key of the map is visited once, in any order, and stored
with its value. -/
def copyTags (src : Finmap (fun _ : String => String)) :
    Finmap (fun _ : String => String) :=
  Multiset.foldl (putTag src) ∅ src.keys.val

/-- The function `AddEventReqToEventModel` of `event.go`. `ToReadingModel` is
`dtos.ToReadingModel`. The readings are a fresh slice of the same length, the tags
a fresh map, neither of them nil. -/
def AddEventReqToEventModel {MR : Type} (ToReadingModel : dtos.BaseReading → MR)
    (addEventReq : AddEventRequest) : models.Event MR :=
  let readings := (addEventReq.Event.Readings.getD []).map ToReadingModel
  let tags := match addEventReq.Event.Tags with
    | none => ∅
    | some src => copyTags src
  { Id := addEventReq.Event.Id,
    DeviceName := addEventReq.Event.DeviceName,
    ProfileName := addEventReq.Event.ProfileName,
    SourceName := addEventReq.Event.SourceName,
    Origin := addEventReq.Event.Origin,
    Readings := some readings,
    Tags := some tags }

/-- The request `UpdateSubscriptionRequest` of `subscription.go`. -/
structure UpdateSubscriptionRequest (DA : Type) where
  BaseRequest : common.BaseRequest
  Subscription : dtos.UpdateSubscription DA
  deriving DecidableEq, Repr

/-- What `UpdateSubscriptionRequest.Validate` uses and the sources do not hold:
the channel type constants `v2.EMAIL` and `v2.REST`, the struct-tag validator
`v2.Validate` at this request type, and of `dtos.Address` the field `Type` and
the method `Validate`. -/
structure SubscriptionDeps (DA : Type) where
  EMAIL : String
  REST : String
  Validate : UpdateSubscriptionRequest DA → errors.Err
  AddressType : DA → String
  AddressValidate : DA → errors.Err

/-- The package variable `supportedChannelTypes`. -/
def supportedChannelTypes {DA : Type} (deps : SubscriptionDeps DA) : List String :=
  [deps.EMAIL, deps.REST]

/-- The function `contains` of `subscription.go`. -/
def contains : List String → String → Bool
  | [], _ => false
  | v :: rest, str => if v = str then true else contains rest str

/-- The loop of `Validate` over the channels: the error of the first channel that
fails its own validation or has an unsupported type. -/
def validateChannels {DA : Type} (deps : SubscriptionDeps DA) : List DA → errors.Err
  | [] => errors.Err.nil
  | c :: rest =>
    if deps.AddressValidate c ≠ errors.Err.nil then
      errors.NewCommonEdgeXWrapper (deps.AddressValidate c)
    else if !contains (supportedChannelTypes deps) (deps.AddressType c) then
      errors.NewCommonEdgeX errors.ErrKind.KindContractInvalid
        "MQTT is not valid type for Channel" errors.Err.nil
    else validateChannels deps rest

/-- The method `UpdateSubscriptionRequest.Validate`. -/
def UpdateSubscriptionRequest.Validate {DA : Type} (deps : SubscriptionDeps DA)
    (request : UpdateSubscriptionRequest DA) : errors.Err :=
  if deps.Validate request ≠ errors.Err.nil then
    errors.NewCommonEdgeXWrapper (deps.Validate request)
  else if validateChannels deps (request.Subscription.Channels.getD []) ≠ errors.Err.nil then
    validateChannels deps (request.Subscription.Channels.getD [])
  else if request.Subscription.Categories.isSome && request.Subscription.Labels.isSome
      && Slice.len request.Subscription.Categories == 0
      && Slice.len request.Subscription.Labels == 0 then
    errors.NewCommonEdgeX errors.ErrKind.KindContractInvalid
      "categories and labels can not be both empty" errors.Err.nil
  else errors.Err.nil

/-- The method `UpdateSubscriptionRequest.UnmarshalJSON`: the receiver after the
call and the error returned. `jsonUnmarshal` is `json.Unmarshal` into the fresh
alias struct. -/
def UpdateSubscriptionRequest.UnmarshalJSON {DA : Type} (deps : SubscriptionDeps DA)
    (jsonUnmarshal : Bytes → Except errors.Err (UpdateSubscriptionRequest DA))
    (request : UpdateSubscriptionRequest DA) (b : Bytes) :
    UpdateSubscriptionRequest DA × errors.Err :=
  match jsonUnmarshal b with
  | Except.error err =>
    (request, errors.NewCommonEdgeX errors.ErrKind.KindContractInvalid
      "Failed to unmarshal request body as JSON." err)
  | Except.ok decoded =>
    let request := decoded
    if UpdateSubscriptionRequest.Validate deps request ≠ errors.Err.nil then
      (request, errors.NewCommonEdgeXWrapper (UpdateSubscriptionRequest.Validate deps request))
    else
      (request, errors.Err.nil)

/-- The request `AddSubscriptionRequest` of `subscription.go`. -/
structure AddSubscriptionRequest (DA : Type) where
  BaseRequest : common.BaseRequest
  Subscription : dtos.Subscription DA
  deriving DecidableEq, Repr

/-- The method `AddSubscriptionRequest.Validate`. `Validate` is the struct-tag
validator `v2.Validate` at this request type; the loop over the channels is the
one of the update request. -/
def AddSubscriptionRequest.Validate {DA : Type} (deps : SubscriptionDeps DA)
    (Validate : AddSubscriptionRequest DA → errors.Err)
    (request : AddSubscriptionRequest DA) : errors.Err :=
  if Validate request ≠ errors.Err.nil then
    errors.NewCommonEdgeXWrapper (Validate request)
  else validateChannels deps (request.Subscription.Channels.getD [])

/-- The method `AddSubscriptionRequest.UnmarshalJSON`: the receiver after the call
and the error returned. `jsonUnmarshal` is `json.Unmarshal` into the fresh alias
struct. -/
def AddSubscriptionRequest.UnmarshalJSON {DA : Type} (deps : SubscriptionDeps DA)
    (Validate : AddSubscriptionRequest DA → errors.Err)
    (jsonUnmarshal : Bytes → Except errors.Err (AddSubscriptionRequest DA))
    (request : AddSubscriptionRequest DA) (b : Bytes) :
    AddSubscriptionRequest DA × errors.Err :=
  match jsonUnmarshal b with
  | Except.error err =>
    (request, errors.NewCommonEdgeX errors.ErrKind.KindContractInvalid
      "Failed to unmarshal request body as JSON." err)
  | Except.ok decoded =>
    let request := decoded
    if AddSubscriptionRequest.Validate deps Validate request ≠ errors.Err.nil then
      (request,
        errors.NewCommonEdgeXWrapper (AddSubscriptionRequest.Validate deps Validate request))
    else
      (request, errors.Err.nil)

/-- The request `UpdateDeviceServiceRequest`, as the tests build it. -/
structure UpdateDeviceServiceRequest where
  BaseRequest : common.BaseRequest
  Service : dtos.UpdateDeviceService
  deriving DecidableEq, Repr

/-- Modelled from the spec: `UpdateDeviceServiceRequest.UnmarshalJSON` is missing
from the sources (only its tests are there). As a hand-written `UnmarshalJSON` of
an update request it decodes into a fresh struct, stores it in the receiver and
validates it, like the one of `UpdateSubscriptionRequest`; `Validate` is the
request's validation. -/
def UpdateDeviceServiceRequest.UnmarshalJSON
    (Validate : UpdateDeviceServiceRequest → errors.Err)
    (jsonUnmarshal : Bytes → Except errors.Err UpdateDeviceServiceRequest)
    (request : UpdateDeviceServiceRequest) (b : Bytes) :
    UpdateDeviceServiceRequest × errors.Err :=
  match jsonUnmarshal b with
  | Except.error err =>
    (request, errors.NewCommonEdgeX errors.ErrKind.KindContractInvalid
      "Failed to unmarshal request body as JSON." err)
  | Except.ok decoded =>
    let request := decoded
    if Validate request ≠ errors.Err.nil then
      (request, errors.NewCommonEdgeXWrapper (Validate request))
    else
      (request, errors.Err.nil)

/-- The request `AddDeviceServiceRequest`, as the tests build it. -/
structure AddDeviceServiceRequest where
  BaseRequest : common.BaseRequest
  Service : dtos.DeviceService
  deriving DecidableEq, Repr

/-- Modelled from the spec: `AddDeviceServiceRequest.UnmarshalJSON` is missing from
the sources (only its tests are there). As a hand-written `UnmarshalJSON` of a
request it decodes into a fresh struct, stores it in the receiver and validates
it, like the one of `AddSubscriptionRequest`; `Validate` is the request's
validation. -/
def AddDeviceServiceRequest.UnmarshalJSON
    (Validate : AddDeviceServiceRequest → errors.Err)
    (jsonUnmarshal : Bytes → Except errors.Err AddDeviceServiceRequest)
    (request : AddDeviceServiceRequest) (b : Bytes) :
    AddDeviceServiceRequest × errors.Err :=
  match jsonUnmarshal b with
  | Except.error err =>
    (request, errors.NewCommonEdgeX errors.ErrKind.KindContractInvalid
      "Failed to unmarshal request body as JSON." err)
  | Except.ok decoded =>
    let request := decoded
    if Validate request ≠ errors.Err.nil then
      (request, errors.NewCommonEdgeXWrapper (Validate request))
    else
      (request, errors.Err.nil)

/-- The zero value of `dtos.UpdateSubscription`. -/
def zeroUpdateSubscription (DA : Type) : dtos.UpdateSubscription DA :=
  { Id := none, Name := none, Channels := none, Categories := none, Labels := none,
    Description := none, Receiver := none, ResendLimit := none, ResendInterval := none,
    AdminState := none }

/-- Modelled from the spec: the decoding of a `dtos.UpdateSubscription` from the
members of its JSON object (the struct declaration with its JSON names is not
among the sources). Each field is decoded by its own key; `address` decodes one
channel. -/
def decodeUpdateSubscription {DA : Type} (fold : String → String)
    (address : json.Value → Except errors.Err DA) (ms : json.Members) :
    Except errors.Err (dtos.UpdateSubscription DA) := do
  let id ← json.intoStringPtr (json.member fold ms "id")
  let name ← json.intoStringPtr (json.member fold ms "name")
  let channels ← json.intoSlice address (json.member fold ms "channels")
  let categories ← json.intoSlice json.stringItem (json.member fold ms "categories")
  let labels ← json.intoSlice json.stringItem (json.member fold ms "labels")
  let description ← json.intoStringPtr (json.member fold ms "description")
  let receiver ← json.intoStringPtr (json.member fold ms "receiver")
  let resendLimit ← json.intoIntPtr (json.member fold ms "resendLimit")
  let resendInterval ← json.intoStringPtr (json.member fold ms "resendInterval")
  let adminState ← json.intoStringPtr (json.member fold ms "adminState")
  pure { Id := id, Name := name, Channels := channels, Categories := categories,
         Labels := labels, Description := description, Receiver := receiver,
         ResendLimit := resendLimit, ResendInterval := resendInterval,
         AdminState := adminState }

/-- Modelled from the spec: the decoding of the alias struct of
`UpdateSubscriptionRequest.UnmarshalJSON` from the members of the top-level JSON
object (`encoding/json` is not among the sources). -/
def decodeUpdateSubscriptionRequest {DA : Type} (fold : String → String)
    (address : json.Value → Except errors.Err DA) (ms : json.Members) :
    Except errors.Err (UpdateSubscriptionRequest DA) := do
  let requestId ← json.intoString (json.member fold ms "requestId")
  let subscription ← json.intoStruct (zeroUpdateSubscription DA)
    (decodeUpdateSubscription fold address) (json.member fold ms "subscription")
  pure { BaseRequest := { RequestId := requestId }, Subscription := subscription }

/-- The zero value of `dtos.UpdateDeviceService`. -/
def zeroUpdateDeviceService : dtos.UpdateDeviceService :=
  { Id := none, Name := none, BaseAddress := none, AdminState := none, Labels := none }

/-- Modelled from the spec: the decoding of a `dtos.UpdateDeviceService` from the
members of its JSON object (the struct declaration is not among the sources; the
keys are those of the test documents). -/
def decodeUpdateDeviceService (fold : String → String) (ms : json.Members) :
    Except errors.Err dtos.UpdateDeviceService := do
  let id ← json.intoStringPtr (json.member fold ms "id")
  let name ← json.intoStringPtr (json.member fold ms "name")
  let baseAddress ← json.intoStringPtr (json.member fold ms "baseAddress")
  let adminState ← json.intoStringPtr (json.member fold ms "adminState")
  let labels ← json.intoSlice json.stringItem (json.member fold ms "labels")
  pure { Id := id, Name := name, BaseAddress := baseAddress, AdminState := adminState,
         Labels := labels }

/-- Modelled from the spec: the decoding of an `UpdateDeviceServiceRequest` from
the members of the top-level JSON object (`encoding/json` is not among the
sources). -/
def decodeUpdateDeviceServiceRequest (fold : String → String) (ms : json.Members) :
    Except errors.Err UpdateDeviceServiceRequest := do
  let requestId ← json.intoString (json.member fold ms "requestId")
  let service ← json.intoStruct zeroUpdateDeviceService
    (decodeUpdateDeviceService fold) (json.member fold ms "service")
  pure { BaseRequest := { RequestId := requestId }, Service := service }

/-- The zero value of `UpdateSubscriptionRequest`. -/
def zeroUpdateSubscriptionRequest (DA : Type) : UpdateSubscriptionRequest DA :=
  { BaseRequest := { RequestId := "" }, Subscription := zeroUpdateSubscription DA }

/-- The zero value of `UpdateDeviceServiceRequest`. -/
def zeroUpdateDeviceServiceRequest : UpdateDeviceServiceRequest :=
  { BaseRequest := { RequestId := "" }, Service := zeroUpdateDeviceService }

/-- The members of the document of
`TestUpdateDeviceServiceRequest_UnmarshalJSON_EmptySlice`. -/
def emptySliceDocument : json.Members :=
  [("requestId", json.Value.string "7a1707f0-166f-4c4b-bc9d-1d54c74e0137"),
   ("service", json.Value.object
      [("name", json.Value.string "TestDevice"), ("labels", json.Value.array [])])]

/-- Sample dependencies of the subscription requests, over channels without
content: the two supported channel types, and validators that accept everything. -/
def exampleSubscriptionDeps : SubscriptionDeps Unit :=
  { EMAIL := "EMAIL", REST := "REST", Validate := fun _ => errors.Err.nil,
    AddressType := fun _ => "REST", AddressValidate := fun _ => errors.Err.nil }

/-- A sample subscription model with two labels, a category and a channel. -/
def exampleSubscription : models.Subscription String :=
  { Timestamps := { Created := 1600666185705, Modified := 1600666185705 },
    Id := "7a1707f0-166f-4c4b-bc9d-1d54c74e0137", Name := "subscription-1",
    Channels := some ["rest-channel"], Categories := some ["health-check"],
    Labels := some ["MODBUS", "TEMP"], Description := "sample", Receiver := "admin",
    ResendLimit := 2, ResendInterval := "10s", AdminState := "UNLOCKED" }

/-- A sample patch that names its target and gives every collection as the
non-nil empty list. -/
def exampleClearingPatch : dtos.UpdateSubscription String :=
  { Id := none, Name := some "subscription-1", Channels := some [],
    Categories := some [], Labels := some [], Description := none, Receiver := none,
    ResendLimit := none, ResendInterval := none, AdminState := none }

/-- A sample update request over channels without content, naming its target and
giving Categories and Labels both as the non-nil empty list. -/
def exampleBothEmptyRequest : UpdateSubscriptionRequest Unit :=
  { BaseRequest := { RequestId := "7a1707f0-166f-4c4b-bc9d-1d54c74e0137" },
    Subscription :=
      { Id := none, Name := some "subscription-1", Channels := none,
        Categories := some [], Labels := some [], Description := none, Receiver := none,
        ResendLimit := none, ResendInterval := none, AdminState := none } }

/-- Modelled from the spec: `ReplaceDeviceServiceModelFieldsWithDTO` is missing from
the sources (only its test is there). By the partial-update rule a nil patch field
leaves the model field unchanged and a non-nil one replaces it; the fields are the
three the test checks. -/
def ReplaceDeviceServiceModelFieldsWithDTO
    (ds : models.DeviceService) (patch : dtos.UpdateDeviceService) :
    models.DeviceService :=
  let ds := match patch.BaseAddress with
    | some v => { ds with BaseAddress := v }
    | none => ds
  let ds := match patch.AdminState with
    | some v => { ds with AdminState := v }
    | none => ds
  let ds := if patch.Labels.isSome then { ds with Labels := patch.Labels } else ds
  ds

end requests

namespace common

/-- The response envelope `common.BaseResponse`: the version stamp of
`Versionable` and the three fields `NewBaseResponse` is given. -/
structure BaseResponse where
  ApiVersion : String
  RequestId : String
  Message : String
  StatusCode : Int
  deriving DecidableEq, Repr

end common

namespace clients

/-- The string constants of package `clients` that the request helpers read. The
package is not among the sources, so their values are left open. -/
structure Constants where
  CorrelationHeader : String
  ContentType : String
  ContentTypeJSON : String
  ContentTypeCBOR : String
  deriving DecidableEq, Repr

end clients

namespace utils

open errors

/-- A dynamic Go value (`interface{}`), as far as context keys and values go:
the nil interface, a plain `string`, a value of a named string type, an integer. -/
inductive GoValue
  | nil
  | str (s : String)
  | named (typeName : String) (s : String)
  | int (n : Int)
  deriving DecidableEq, Repr

/-- A `context.Context` as its chain of `WithValue` pairs, innermost first. -/
abbrev Context := List (GoValue × GoValue)

/-- The method `ctx.Value(key)`: the value of the innermost pair with an equal key,
the nil interface when there is none. -/
def Context.Value : Context → GoValue → GoValue
  | [], _ => GoValue.nil
  | (k, v) :: parent, key => if k = key then v else Context.Value parent key

/-- The function `FromContext`: the type assertion `ctx.Value(key).(string)`, with
the empty string when it fails. -/
def FromContext (ctx : Context) (key : String) : String :=
  match Context.Value ctx (GoValue.str key) with
  | GoValue.str hdr => hdr
  | _ => ""

/-- The function `correlatedId`. `newUUID` is the string `uuid.New().String()`
would return at this call. -/
def correlatedId (c : clients.Constants) (newUUID : String) (ctx : Context) : String :=
  let correlation := FromContext ctx c.CorrelationHeader
  if correlation.length = 0 then newUUID else correlation

/-- An `http.Header`, keyed by header name. -/
abbrev Header := List (String × List String)

/-- The method `Header.Set`: the key now holds the single value. (Go brings the key
to canonical form here and in `Get` alike; names are taken in that form.) -/
def Header.Set (h : Header) (key value : String) : Header :=
  (key, [value]) :: h.filter (fun e => decide (e.1 ≠ key))

/-- The method `Header.Get`: the first value stored under the key, else `""`. -/
def Header.Get (h : Header) (key : String) : String :=
  match h.lookup key with
  | some (v :: _) => v
  | _ => ""

/-- An `*http.Request`: what `http.NewRequest` was called with, and the header. -/
structure Request where
  Method : String
  URL : String
  Body : Bytes
  Header : Header
  deriving DecidableEq, Repr

/-- An `*http.Response`: the status code, and what `ioutil.ReadAll(resp.Body)`
returns, bytes and error. -/
structure Response where
  StatusCode : Int
  ReadAll : Bytes × Err
  deriving DecidableEq, Repr

/-- A parsed `*url.URL`: the two fields `createRequest` assigns, and the rest. -/
structure URL where
  Base : String
  Path : String
  RawQuery : String
  deriving DecidableEq, Repr

/-- The constant `http.StatusMultiStatus`. -/
def StatusMultiStatus : Int := 207

/-- The constant `http.StatusBadRequest`. -/
def StatusBadRequest : Int := 400

/-- The helper `getBody`. -/
def getBody (resp : Response) : Bytes × Err :=
  let (body, err) := resp.ReadAll
  if err ≠ Err.nil then
    (body, NewCommonEdgeX ErrKind.KindIOError "failed to get the body from the response" err)
  else
    (body, Err.nil)

/-- The helper `makeRequest`. `Do` is `(&http.Client{}).Do`. -/
def makeRequest (Do : Request → Option Response × Err) (req : Request) :
    Option Response × Err :=
  let (resp, err) := Do req
  if err ≠ Err.nil then
    (resp, NewCommonEdgeX ErrKind.KindClientError "failed to send a http request" err)
  else
    (resp, Err.nil)

/-- The function `createRequest`. `Parse` is `url.Parse`, `UrlString` the method
`u.String()`, `Encode` the method `requestParams.Encode()` and `NewRequest` is
`http.NewRequest`; a nil `requestParams` is `none`. -/
def createRequest {Values : Type} (c : clients.Constants) (newUUID : String)
    (Parse : String → Except Err URL) (UrlString : URL → String)
    (Encode : Values → String)
    (NewRequest : String → String → Bytes → Except Err Request)
    (ctx : Context) (httpMethod baseUrl requestPath : String)
    (requestParams : Option Values) : Option Request × Err :=
  match Parse baseUrl with
  | Except.error err =>
    (none, NewCommonEdgeX ErrKind.KindClientError "fail to parse baseUrl" err)
  | Except.ok u =>
    let u := { u with Path := requestPath }
    let u := match requestParams with
      | some params => { u with RawQuery := Encode params }
      | none => u
    match NewRequest httpMethod (UrlString u) none with
    | Except.error err =>
      (none, NewCommonEdgeX ErrKind.KindClientError "failed to create a http request" err)
    | Except.ok req =>
      (some { req with Header := Header.Set req.Header c.CorrelationHeader (correlatedId c newUUID ctx) },
        Err.nil)

/-- The function `createRequestWithRawData`. `Marshal` is `json.Marshal` and
`NewRequest` is `http.NewRequest`, given the encoded bytes as body. -/
def createRequestWithRawData {Data : Type} (c : clients.Constants) (newUUID : String)
    (Marshal : Data → Except Err (List UInt8))
    (NewRequest : String → String → Bytes → Except Err Request)
    (ctx : Context) (httpMethod url : String) (data : Data) : Option Request × Err :=
  match Marshal data with
  | Except.error err =>
    (none, NewCommonEdgeX ErrKind.KindContractInvalid "failed to encode input data to JSON" err)
  | Except.ok jsonEncodedData =>
    let content := FromContext ctx c.ContentType
    let content := if content = "" then c.ContentTypeJSON else content
    match NewRequest httpMethod url (some jsonEncodedData) with
    | Except.error err =>
      (none, NewCommonEdgeX ErrKind.KindClientError "failed to create a http request" err)
    | Except.ok req =>
      let header := Header.Set req.Header c.ContentType content
      let header := Header.Set header c.CorrelationHeader (correlatedId c newUUID ctx)
      (some { req with Header := header }, Err.nil)

/-- The message `sendRequest` formats for an error response. -/
def failureMessage (res : common.BaseResponse) : String :=
  "request failed, status code: " ++ toString res.StatusCode ++ ", err: " ++ res.Message

/-- The function `sendRequest`: the returned bytes and error. `Do` is the HTTP
client and `Unmarshal` is `json.Unmarshal` into a `common.BaseResponse`. -/
def sendRequest (Do : Request → Option Response × Err)
    (Unmarshal : Bytes → Except Err common.BaseResponse) (req : Request) : Bytes × Err :=
  let (resp, err) := makeRequest Do req
  if err ≠ Err.nil then
    (none, NewCommonEdgeXWrapper err)
  else
    match resp with
    | none =>
      (none, NewCommonEdgeX ErrKind.KindServerError "the response should not be a nil" Err.nil)
    | some resp =>
      let (bodyBytes, err) := getBody resp
      if err ≠ Err.nil then
        (none, NewCommonEdgeXWrapper err)
      else if resp.StatusCode ≤ StatusMultiStatus then
        (bodyBytes, Err.nil)
      else
        match Unmarshal bodyBytes with
        | Except.error err => (none, NewCommonEdgeXWrapper err)
        | Except.ok res =>
          let msg := failureMessage res
          if resp.StatusCode = StatusBadRequest then
            (none, NewCommonEdgeX ErrKind.KindContractInvalid msg Err.nil)
          else
            (none, NewCommonEdgeX ErrKind.KindServerError msg Err.nil)

end utils

namespace utils

open errors

/-- Sample values for the constants of package `clients`. -/
def exampleConstants : clients.Constants :=
  { CorrelationHeader := "X-Correlation-ID", ContentType := "Content-Type",
    ContentTypeJSON := "application/json", ContentTypeCBOR := "application/cbor" }

/-- A sample request, without body or header. -/
def exampleRequest : Request :=
  { Method := "GET", URL := "http://localhost:48080/api/v2/ping", Body := none, Header := [] }

/-- An HTTP client that answers every request with the given status code and body,
the body being readable. -/
def respondWith (status : Int) (body : List UInt8) : Request → Option Response × Err :=
  fun _ => (some { StatusCode := status, ReadAll := (some body, Err.nil) }, Err.nil)

/-- A decoder that accepts every body as the zero `BaseResponse`. -/
def decodeZero : Bytes → Except Err common.BaseResponse :=
  fun _ => Except.ok { ApiVersion := "", RequestId := "", Message := "", StatusCode := 0 }

/-- A request constructor that never fails and records its arguments. -/
def plainNewRequest : String → String → Bytes → Except Err Request :=
  fun method url body => Except.ok { Method := method, URL := url, Body := body, Header := [] }

end utils

namespace operating

/-- Go error values of the version 1 package `models`, as far as the tests of the
operating-state request tell them apart: the nil error, an error of type
`models.ErrContractInvalid`, any other error. -/
inductive V1Err
  | nil
  | ErrContractInvalid (msg : String)
  | other (msg : String)
  deriving DecidableEq, Repr

/-- The request `operating.UpdateRequest`, as `TestUpdateValidation` builds it;
`OperatingState` is the string type `models.OperatingState`. -/
structure UpdateRequest where
  OperatingState : String
  deriving DecidableEq, Repr

/-- Modelled from the spec: the method `UpdateRequest.Validate` is missing from the
sources (only its test is there). It returns a verdict and an error: no error
when the operating state is `ENABLED` or `DISABLED`, an error of type
`ErrContractInvalid` for the blank state and any other string. -/
def UpdateRequest.Validate (u : UpdateRequest) : Bool × V1Err :=
  if u.OperatingState = "ENABLED" ∨ u.OperatingState = "DISABLED" then
    (true, V1Err.nil)
  else
    (false, V1Err.ErrContractInvalid ("invalid operating state: " ++ u.OperatingState))

end operating

namespace validation

/-- The validation rules that the struct tags of the update DTOs name for the
fields `Id` and `Name`. -/
inductive Rule
  | required_without (field : String)
  | edgex_dto_uuid
  | edgex_dto_none_empty_string
  | edgex_dto_rfc3986_unreserved_chars
  deriving DecidableEq, Repr

/-- Modelled from the spec: a blank string, made of white space only (the custom
validators of package `v2` are not among the sources). -/
def blank (s : String) : Bool :=
  s.data.all Char.isWhitespace

/-- Modelled from the spec: the unreserved characters of RFC 3986, letters, digits
and the four marks (the custom validators of package `v2` are not among the
sources). -/
def unreservedChar (c : Char) : Bool :=
  c.isAlphanum || c = '-' || c = '.' || c = '_' || c = '~'

/-- Modelled from the spec: a non-empty string of unreserved characters only. -/
def unreserved (s : String) : Bool :=
  !s.data.isEmpty && s.data.all unreservedChar

/-- Modelled from the spec: the verdict of one rule on a `*string` field (the
validator library and the custom validators of package `v2` are not among the
sources). `present` tells which fields of the struct are non-nil and `isUUID` is
the UUID parser. `required_without` asks for a non-nil field when the other field
is nil; the other rules pass a nil field and judge the string of a non-nil one. -/
def Rule.passes (isUUID : String → Bool) (present : String → Bool)
    (value : Option String) : Rule → Bool
  | Rule.required_without field => value.isSome || present field
  | Rule.edgex_dto_uuid =>
    match value with
    | none => true
    | some v => isUUID v
  | Rule.edgex_dto_none_empty_string =>
    match value with
    | none => true
    | some v => !blank v
  | Rule.edgex_dto_rfc3986_unreserved_chars =>
    match value with
    | none => true
    | some v => unreserved v

/-- The tag of the field `Id` of `UpdateProvisionWatcher`:
`required_without=Name,edgex-dto-uuid`. -/
def idRules : List Rule :=
  [Rule.required_without "Name", Rule.edgex_dto_uuid]

/-- The tag of the field `Name` of `UpdateProvisionWatcher`:
`required_without=Id,edgex-dto-none-empty-string,edgex-dto-rfc3986-unreserved-chars`. -/
def nameRules : List Rule :=
  [Rule.required_without "Id", Rule.edgex_dto_none_empty_string,
    Rule.edgex_dto_rfc3986_unreserved_chars]

/-- Modelled from the spec: the validation of an update DTO whose `Id` and `Name`
carry the tags above: every rule of both fields passes, and so does the
validation of the other fields, `others`. -/
def validateUpdate (isUUID : String → Bool) (Id Name : Option String) (others : Bool) :
    Bool :=
  let present := fun field =>
    if field = "Id" then Id.isSome else if field = "Name" then Name.isSome else false
  idRules.all (Rule.passes isUUID present Id)
    && nameRules.all (Rule.passes isUUID present Name)
    && others

/-- A sample UUID test: 36 characters with hyphens at the four usual places. -/
def exampleIsUUID (s : String) : Bool :=
  s.length = 36 && s.data.get? 8 = some '-' && s.data.get? 13 = some '-'
    && s.data.get? 18 = some '-' && s.data.get? 23 = some '-'

end validation

namespace dtos

/-- The patch DTO `dtos.UpdateProvisionWatcher` of `provisionwatcher.go`, over the
type `DAE` of `dtos.AutoEvent`. -/
structure UpdateProvisionWatcher (DAE : Type) where
  Versionable : common.Versionable
  Id : Option String
  Name : Option String
  Labels : Slice String
  Identifiers : Option (Finmap (fun _ : String => String))
  BlockingIdentifiers : Option (Finmap (fun _ : String => Slice String))
  ProfileName : Option String
  ServiceName : Option String
  AdminState : Option String
  AutoEvents : Slice DAE

end dtos

namespace common

/-- The response `common.MultiMetricsResponse` of `metrics.go`, over the type `M`
of the map `map[string]interface{}`. -/
structure MultiMetricsResponse (M : Type) where
  BaseResponse : BaseResponse
  Metrics : M

/-- The constructor `NewMultiMetricsResponse` of `metrics.go`. `NewBaseResponse`
is the constructor of the envelope, which the sources call and do not hold. -/
def NewMultiMetricsResponse {M : Type} (NewBaseResponse : String → String → Int → BaseResponse)
    (requestId message : String) (statusCode : Int) (metrics : M) :
    MultiMetricsResponse M :=
  { BaseResponse := NewBaseResponse requestId message statusCode,
    Metrics := metrics }

end common

namespace responses

/-- The response `ReadingResponse` of `responses/reading.go`. -/
structure ReadingResponse where
  BaseResponse : common.BaseResponse
  Reading : dtos.BaseReading

/-- The response `MultiReadingsResponse` of `responses/reading.go`. -/
structure MultiReadingsResponse where
  BaseResponse : common.BaseResponse
  Readings : Slice dtos.BaseReading

/-- The constructor `NewReadingResponse`. -/
def NewReadingResponse (NewBaseResponse : String → String → Int → common.BaseResponse)
    (requestId message : String) (statusCode : Int) (reading : dtos.BaseReading) :
    ReadingResponse :=
  { BaseResponse := NewBaseResponse requestId message statusCode,
    Reading := reading }

/-- The constructor `NewMultiReadingsResponse`. -/
def NewMultiReadingsResponse (NewBaseResponse : String → String → Int → common.BaseResponse)
    (requestId message : String) (statusCode : Int) (readings : Slice dtos.BaseReading) :
    MultiReadingsResponse :=
  { BaseResponse := NewBaseResponse requestId message statusCode,
    Readings := readings }

/-- The response `DeviceProfileResponse` of `responses/deviceprofile.go`, over the
type `DP` of `dtos.DeviceProfile`. -/
structure DeviceProfileResponse (DP : Type) where
  BaseResponse : common.BaseResponse
  Profile : DP

/-- The response `MultiDeviceProfilesResponse` of `responses/deviceprofile.go`. -/
structure MultiDeviceProfilesResponse (DP : Type) where
  BaseResponse : common.BaseResponse
  Profiles : Slice DP

/-- The constructor `NewDeviceProfileResponse`. -/
def NewDeviceProfileResponse {DP : Type}
    (NewBaseResponse : String → String → Int → common.BaseResponse)
    (requestId message : String) (statusCode : Int) (deviceProfile : DP) :
    DeviceProfileResponse DP :=
  { BaseResponse := NewBaseResponse requestId message statusCode,
    Profile := deviceProfile }

/-- The constructor `NewMultiDeviceProfilesResponse`. -/
def NewMultiDeviceProfilesResponse {DP : Type}
    (NewBaseResponse : String → String → Int → common.BaseResponse)
    (requestId message : String) (statusCode : Int) (deviceProfiles : Slice DP) :
    MultiDeviceProfilesResponse DP :=
  { BaseResponse := NewBaseResponse requestId message statusCode,
    Profiles := deviceProfiles }

/-- The response `ProvisionWatcherResponse` of `responses/provisionwatcher.go`. -/
structure ProvisionWatcherResponse (DAE : Type) where
  BaseResponse : common.BaseResponse
  ProvisionWatcher : dtos.ProvisionWatcher DAE

/-- The response `MultiProvisionWatchersResponse` of
`responses/provisionwatcher.go`. -/
structure MultiProvisionWatchersResponse (DAE : Type) where
  BaseResponse : common.BaseResponse
  ProvisionWatchers : Slice (dtos.ProvisionWatcher DAE)

/-- The constructor `NewProvisionWatcherResponse`. -/
def NewProvisionWatcherResponse {DAE : Type}
    (NewBaseResponse : String → String → Int → common.BaseResponse)
    (requestId message : String) (statusCode : Int) (pw : dtos.ProvisionWatcher DAE) :
    ProvisionWatcherResponse DAE :=
  { BaseResponse := NewBaseResponse requestId message statusCode,
    ProvisionWatcher := pw }

/-- The constructor `NewMultiProvisionWatchersResponse`. -/
def NewMultiProvisionWatchersResponse {DAE : Type}
    (NewBaseResponse : String → String → Int → common.BaseResponse)
    (requestId message : String) (statusCode : Int)
    (pws : Slice (dtos.ProvisionWatcher DAE)) : MultiProvisionWatchersResponse DAE :=
  { BaseResponse := NewBaseResponse requestId message statusCode,
    ProvisionWatchers := pws }

end responses

namespace requests

/-- A sample update request over channels without content that names its target
and gives Categories as the non-nil empty list, Labels not at all. -/
def exampleClearCategoriesRequest : UpdateSubscriptionRequest Unit :=
  { BaseRequest := { RequestId := "7a1707f0-166f-4c4b-bc9d-1d54c74e0137" },
    Subscription :=
      { Id := none, Name := some "subscription-1", Channels := none,
        Categories := some [], Labels := none, Description := none, Receiver := none,
        ResendLimit := none, ResendInterval := none, AdminState := none } }

/-- A sample subscription model with one category and no labels. -/
def exampleCategoriesOnly : models.Subscription String :=
  { exampleSubscription with Labels := none }

/-- A sample address conversion for patches without channels. -/
def noChannels : Slice Unit → Slice String :=
  fun _ => some []

end requests

namespace utils

open errors

/-- A decoder that rejects every body, as `json.Unmarshal` rejects the empty
body. -/
def decodeNothing : Bytes → Except Err common.BaseResponse :=
  fun _ => Except.error (Err.foreign "unexpected end of JSON input")

/-- A sample context asking for the JSON content type. -/
def jsonContext : Context :=
  [(GoValue.str "Content-Type", GoValue.str "application/json")]

/-- A sample context asking for the CBOR content type. -/
def cborContext : Context :=
  [(GoValue.str "Content-Type", GoValue.str "application/cbor")]

end utils

namespace requests

open errors

/-- What `AddEventRequest.Encode` uses and the sources do not hold: the constants
`v2.ValueTypeBinary` and `v2.ValueTrue`, and the two encoders `cbor.Marshal` and
`json.Marshal` at this request type. -/
structure EncodeDeps where
  ValueTypeBinary : String
  ValueTrue : String
  cborMarshal : AddEventRequest → Except Err (List UInt8)
  jsonMarshal : AddEventRequest → Except Err (List UInt8)

/-- The loop of `Encode` over the readings: the encoding becomes the CBOR content
type at the first reading whose value type is the Binary one, and the loop stops
there. -/
def chooseEncoding (binary cbor : String) : List dtos.BaseReading → String → String
  | [], encoding => encoding
  | r :: rest, encoding =>
    if r.ValueType = binary then cbor else chooseEncoding binary cbor rest encoding

/-- The method `AddEventRequest.Encode` of `event.go`: the bytes, the content type
and the error returned. `env` is what `os.Getenv(v2.EnvEncodeAllEvents)`
returns. -/
def AddEventRequest.Encode (c : clients.Constants) (deps : EncodeDeps) (env : String)
    (a : AddEventRequest) : Bytes × String × Err :=
  let encoding := c.ContentTypeJSON
  let encoding := chooseEncoding deps.ValueTypeBinary c.ContentTypeCBOR
    (a.Event.Readings.getD []) encoding
  let encoding := if env = deps.ValueTrue then c.ContentTypeCBOR else encoding
  if encoding = c.ContentTypeCBOR then
    match deps.cborMarshal a with
    | Except.error err =>
      (none, "", NewCommonEdgeX ErrKind.KindContractInvalid
        "failed to encode AddEventRequest to CBOR" err)
    | Except.ok encodedData => (some encodedData, encoding, Err.nil)
  else if encoding = c.ContentTypeJSON then
    match deps.jsonMarshal a with
    | Except.error err =>
      (none, "", NewCommonEdgeX ErrKind.KindContractInvalid
        "failed to encode AddEventRequest to JSON" err)
    | Except.ok encodedData => (some encodedData, encoding, Err.nil)
  else
    (none, encoding, Err.nil)

/-- Sample dependencies of `Encode`: `Binary` and `true` as constants, and encoders
that return the one byte 1 for CBOR and 2 for JSON. -/
def exampleEncodeDeps : EncodeDeps :=
  { ValueTypeBinary := "Binary", ValueTrue := "true",
    cborMarshal := fun _ => Except.ok [1],
    jsonMarshal := fun _ => Except.ok [2] }

end requests

namespace requests

open errors

/-- Modelled from the spec: the struct-tag validation `v2.Validate` of a request,
as far as its envelope goes (the validator and the declaration of
`common.BaseRequest` with its tags are not among the sources). An empty RequestId
is accepted and a non-empty one must be a UUID, by the test `isUUID`; `others` is
the error of the validation of the rest of the request, nil when it passes. -/
def validateEnvelope (isUUID : String → Bool) (base : common.BaseRequest)
    (others : Err) : Err :=
  if base.RequestId ≠ "" ∧ isUUID base.RequestId = false then
    NewCommonEdgeX ErrKind.KindContractInvalid
      "BaseRequest.RequestId field needs a uuid" Err.nil
  else others

end requests

namespace requests

open errors

/-- Modelled from the spec: what `json.Unmarshal` reads back from the JSON
encoding of an event request whose tags carry the option `omitempty` (the
declaration of `dtos.Event` with its JSON tags is not among the sources;
`provisionwatcher.go` declares the option for the optional collections of its
DTO). A map without entries is left out of the encoding and so is read back as
the nil map; every other field is read back as it was. -/
def readBack (x : AddEventRequest) : AddEventRequest :=
  match x.Event.Tags with
  | some tags =>
    if tags.keys.card = 0 then { x with Event := { x.Event with Tags := none } } else x
  | none => x

/-- The sample request with the canonical spelling `Uint8` and a non-nil map of
tags without entries. -/
def emptyTagsRequest : AddEventRequest :=
  { BaseRequest := (exampleAddEventRequest "Uint8").BaseRequest,
    Event := { (exampleAddEventRequest "Uint8").Event with Tags := some ∅ } }

/-- A sample encoder, standing for `json.Marshal` on the sample request with the
canonical spelling `Uint8` and no tags, whether the map of tags is nil or
non-nil without entries: two requests get the same text only when they are read
back as the same request. The text itself is a placeholder, and no other request
is encoded. -/
def sampleMarshal (x : AddEventRequest) : Except Err (List UInt8) :=
  if readBack x = exampleAddEventRequest "Uint8" then Except.ok [123, 125]
  else Except.error (Err.foreign "json: unsupported value")

/-- A sample decoder, standing for `json.Unmarshal` on the text `sampleMarshal`
gives: the sample request with nil tags. -/
def sampleUnmarshal (b : Bytes) : Except Err AddEventRequest :=
  if b = some [123, 125] then Except.ok (exampleAddEventRequest "Uint8")
  else Except.error (Err.foreign "unexpected end of JSON input")

end requests

/-! ## Theorems -/

namespace requests

/-- C1: `ReplaceSubscriptionModelFieldsWithDTO` is a field-by-field partial update.
Each of Channels, Categories, Labels, Description, Receiver, ResendLimit,
ResendInterval and AdminState takes the patch's value (for Channels its conversion
by `ToAddressModels`) when the patch field is non-nil and keeps its old value when
it is nil; Id, Name and the timestamps never change; a patch whose eight fields are
all nil returns the model as it was. The device-service function does the same on
BaseAddress, AdminState and Labels. -/
theorem ReplaceSubscriptionModelFieldsWithDTO_partial_update {DA MA : Type}
    (conv : Slice DA → Slice MA) (s : models.Subscription MA)
    (p : dtos.UpdateSubscription DA)
    (ds : models.DeviceService) (q : dtos.UpdateDeviceService) :
    ((ReplaceSubscriptionModelFieldsWithDTO conv s p).Channels
        = (if p.Channels.isSome then conv p.Channels else s.Channels)
      ∧ (ReplaceSubscriptionModelFieldsWithDTO conv s p).Categories
        = (if p.Categories.isSome then p.Categories else s.Categories)
      ∧ (ReplaceSubscriptionModelFieldsWithDTO conv s p).Labels
        = (if p.Labels.isSome then p.Labels else s.Labels)
      ∧ (ReplaceSubscriptionModelFieldsWithDTO conv s p).Description
        = p.Description.getD s.Description
      ∧ (ReplaceSubscriptionModelFieldsWithDTO conv s p).Receiver
        = p.Receiver.getD s.Receiver
      ∧ (ReplaceSubscriptionModelFieldsWithDTO conv s p).ResendLimit
        = p.ResendLimit.getD s.ResendLimit
      ∧ (ReplaceSubscriptionModelFieldsWithDTO conv s p).ResendInterval
        = p.ResendInterval.getD s.ResendInterval
      ∧ (ReplaceSubscriptionModelFieldsWithDTO conv s p).AdminState
        = p.AdminState.getD s.AdminState)
    ∧ ((ReplaceSubscriptionModelFieldsWithDTO conv s p).Id = s.Id
      ∧ (ReplaceSubscriptionModelFieldsWithDTO conv s p).Name = s.Name
      ∧ (ReplaceSubscriptionModelFieldsWithDTO conv s p).Timestamps = s.Timestamps)
    ∧ ReplaceSubscriptionModelFieldsWithDTO conv s
        { Id := p.Id, Name := p.Name, Channels := none, Categories := none,
          Labels := none, Description := none, Receiver := none,
          ResendLimit := none, ResendInterval := none, AdminState := none } = s
    ∧ ((ReplaceDeviceServiceModelFieldsWithDTO ds q).BaseAddress
        = q.BaseAddress.getD ds.BaseAddress
      ∧ (ReplaceDeviceServiceModelFieldsWithDTO ds q).AdminState
        = q.AdminState.getD ds.AdminState
      ∧ (ReplaceDeviceServiceModelFieldsWithDTO ds q).Labels
        = (if q.Labels.isSome then q.Labels else ds.Labels)
      ∧ (ReplaceDeviceServiceModelFieldsWithDTO ds q).Id = ds.Id
      ∧ (ReplaceDeviceServiceModelFieldsWithDTO ds q).Name = ds.Name) := by
  obtain ⟨pid, pname, pch, pcat, plab, pdesc, prec, plim, pint, padm⟩ := p
  obtain ⟨qid, qname, qba, qadm, qlab⟩ := q
  refine ⟨?_, ?_, ?_, ?_⟩
  · cases pch <;> cases pcat <;> cases plab <;> cases pdesc <;> cases prec <;>
      cases plim <;> cases pint <;> cases padm <;>
      simp [ReplaceSubscriptionModelFieldsWithDTO]
  · cases pch <;> cases pcat <;> cases plab <;> cases pdesc <;> cases prec <;>
      cases plim <;> cases pint <;> cases padm <;>
      simp [ReplaceSubscriptionModelFieldsWithDTO]
  · simp [ReplaceSubscriptionModelFieldsWithDTO]
  · cases qba <;> cases qadm <;> cases qlab <;>
      simp [ReplaceDeviceServiceModelFieldsWithDTO]

/-- C2: an explicitly empty collection in the patch clears the field. A patch whose
Labels (Categories) is the non-nil empty list leaves the model's Labels
(Categories) the non-nil empty list, and one whose Channels is the non-nil empty
list leaves Channels of length zero, whatever the model held, for every address
conversion that sends the empty list to a list of length zero. -/
theorem ReplaceSubscriptionModelFieldsWithDTO_empty_clears {DA MA : Type}
    (conv : Slice DA → Slice MA) (hconv : Slice.len (conv (some [])) = 0)
    (s : models.Subscription MA) (p : dtos.UpdateSubscription DA) :
    (p.Labels = some [] →
        (ReplaceSubscriptionModelFieldsWithDTO conv s p).Labels = some [])
    ∧ (p.Categories = some [] →
        (ReplaceSubscriptionModelFieldsWithDTO conv s p).Categories = some [])
    ∧ (p.Channels = some [] →
        Slice.len (ReplaceSubscriptionModelFieldsWithDTO conv s p).Channels = 0) := by
  obtain ⟨pid, pname, pch, pcat, plab, pdesc, prec, plim, pint, padm⟩ := p
  refine ⟨?_, ?_, ?_⟩ <;> intro h <;> simp only at h <;> subst h <;>
    cases pdesc <;> cases prec <;> cases plim <;> cases pint <;> cases padm <;>
    first
      | (cases pch <;> cases pcat <;> simp [ReplaceSubscriptionModelFieldsWithDTO])
      | (cases pch <;> cases plab <;> simp [ReplaceSubscriptionModelFieldsWithDTO])
      | (cases pcat <;> cases plab <;>
          simp [ReplaceSubscriptionModelFieldsWithDTO, hconv])

/-- The witness of `ReplaceSubscriptionModelFieldsWithDTO_empty_clears`: the sample
model under the sample clearing patch, models and DTOs sharing the address type. -/
theorem ReplaceSubscriptionModelFieldsWithDTO_empty_clears_witness :
    Slice.len ((fun ds : Slice String => ds) (some [])) = 0
    ∧ (ReplaceSubscriptionModelFieldsWithDTO (fun ds => ds) exampleSubscription
        exampleClearingPatch).Labels = some []
    ∧ (ReplaceSubscriptionModelFieldsWithDTO (fun ds => ds) exampleSubscription
        exampleClearingPatch).Categories = some []
    ∧ Slice.len (ReplaceSubscriptionModelFieldsWithDTO (fun ds => ds) exampleSubscription
        exampleClearingPatch).Channels = 0 :=
  have h := ReplaceSubscriptionModelFieldsWithDTO_empty_clears
    (fun ds : Slice String => ds) rfl exampleSubscription exampleClearingPatch
  ⟨rfl, h.1 rfl, h.2.1 rfl, h.2.2 rfl⟩

end requests

namespace utils

open errors

/-- Reading back the key just set gives the value set. -/
theorem Header.Get_Set_self (h : Header) (key value : String) :
    Header.Get (Header.Set h key value) key = value := by
  simp [Header.Get, Header.Set, List.lookup]

/-- Setting another key does not change what a key reads as. -/
theorem Header.Get_Set_other (h : Header) (key other value : String) (hne : other ≠ key) :
    Header.Get (Header.Set h other value) key = Header.Get h key := by
  have hb : (key == other) = false := by
    simp only [beq_eq_false_iff_ne]; exact fun e => hne e.symm
  have hl : ∀ l : Header,
      List.lookup key (l.filter (fun e => decide (e.1 ≠ other))) = List.lookup key l := by
    intro l
    induction l with
    | nil => rfl
    | cons e l ih =>
      obtain ⟨k, v⟩ := e
      by_cases hk : k = other
      · subst hk
        rw [List.filter_cons_of_neg (by simp), List.lookup, hb]
        exact ih
      · rw [List.filter_cons_of_pos (by simpa using hk)]
        by_cases hkk : key = k
        · subst hkk
          simp [List.lookup]
        · have hb2 : (key == k) = false := by simpa using hkk
          simp only [List.lookup, hb2]
          exact ih
  simp only [Header.Get, Header.Set, List.lookup, hb, hl]

/-- A string of length zero is the empty string. -/
theorem length_eq_zero_iff (s : String) : s.length = 0 ↔ s = "" := by
  constructor
  · intro h
    obtain ⟨l⟩ := s
    have : l = [] := List.length_eq_zero.mp h
    subst this
    rfl
  · intro h
    subst h
    rfl

/-- C4 fails as stated: status 208 lies in 200..299 and `sendRequest` returns an
error for it, and status 101 lies outside 200..299 and `sendRequest` returns the
body with no error. -/
theorem sendRequest_not_by_2xx :
    ((200 : Int) ≤ 208 ∧ (208 : Int) ≤ 299
      ∧ (sendRequest (respondWith 208 []) decodeZero exampleRequest).2 ≠ Err.nil)
    ∧ (¬ ((200 : Int) ≤ 101 ∧ (101 : Int) ≤ 299)
      ∧ sendRequest (respondWith 101 [1, 2]) decodeZero exampleRequest
          = (some [1, 2], Err.nil)) := by
  refine ⟨⟨by decide, by decide, ?_⟩, by decide, ?_⟩
  · simp [sendRequest, makeRequest, getBody, respondWith, decodeZero, StatusMultiStatus,
      StatusBadRequest, NewCommonEdgeX]
  · simp [sendRequest, makeRequest, getBody, respondWith, StatusMultiStatus]

/-- C4, amended: for every response that is received and whose body is read,
`sendRequest` returns the body with no error when the status code is at most 207,
and nil bytes with an error when the status code is above 207. -/
theorem sendRequest_classifies_by_207 (Do : Request → Option Response × Err)
    (Unmarshal : Bytes → Except Err common.BaseResponse) (req : Request)
    (resp : Response) (body : Bytes)
    (hsent : Do req = (some resp, Err.nil)) (hread : resp.ReadAll = (body, Err.nil)) :
    (resp.StatusCode ≤ 207 → sendRequest Do Unmarshal req = (body, Err.nil))
    ∧ (207 < resp.StatusCode →
        (sendRequest Do Unmarshal req).1 = none
        ∧ (sendRequest Do Unmarshal req).2 ≠ Err.nil) := by
  constructor
  · intro h
    simp [sendRequest, makeRequest, getBody, hsent, hread, StatusMultiStatus, h]
  · intro h
    have h' : ¬ resp.StatusCode ≤ 207 := not_le.mpr h
    cases hu : Unmarshal body with
    | error e =>
      simp [sendRequest, makeRequest, getBody, hsent, hread, StatusMultiStatus, h', hu,
        NewCommonEdgeXWrapper]
    | ok res =>
      by_cases h400 : resp.StatusCode = 400 <;>
        simp [sendRequest, makeRequest, getBody, hsent, hread, StatusMultiStatus, h', hu,
          h400, StatusBadRequest, NewCommonEdgeX]

/-- The witness of `sendRequest_classifies_by_207`: a readable response with
status 208. -/
theorem sendRequest_classifies_by_207_witness :
    ((208 : Int) ≤ 207 →
        sendRequest (respondWith 208 [7]) decodeZero exampleRequest = (some [7], Err.nil))
    ∧ ((207 : Int) < 208 →
        (sendRequest (respondWith 208 [7]) decodeZero exampleRequest).1 = none
        ∧ (sendRequest (respondWith 208 [7]) decodeZero exampleRequest).2 ≠ Err.nil) :=
  sendRequest_classifies_by_207 (respondWith 208 [7]) decodeZero exampleRequest
    { StatusCode := 208, ReadAll := (some [7], Err.nil) } (some [7]) rfl rfl

/-- C5: `sendRequest` returns the body or an error, never both. Either the error is
nil and the bytes are the whole body read from the response, or the error is
non-nil and the bytes are nil; and the error is nil exactly when the request was
sent and answered, the body was read, and the status code is at most 207. -/
theorem sendRequest_body_or_error (Do : Request → Option Response × Err)
    (Unmarshal : Bytes → Except Err common.BaseResponse) (req : Request) :
    (((sendRequest Do Unmarshal req).2 = Err.nil
        ∧ ∃ resp, (Do req).1 = some resp
            ∧ (sendRequest Do Unmarshal req).1 = resp.ReadAll.1)
      ∨ ((sendRequest Do Unmarshal req).2 ≠ Err.nil
        ∧ (sendRequest Do Unmarshal req).1 = none))
    ∧ ((sendRequest Do Unmarshal req).2 = Err.nil ↔
        ∃ resp, Do req = (some resp, Err.nil) ∧ resp.ReadAll.2 = Err.nil
          ∧ resp.StatusCode ≤ 207) := by
  rcases hd : Do req with ⟨resp, e⟩
  by_cases he : e = Err.nil
  swap
  · simp [sendRequest, makeRequest, hd, he, NewCommonEdgeX, NewCommonEdgeXWrapper]
  subst he
  cases resp with
  | none => simp [sendRequest, makeRequest, hd, NewCommonEdgeX]
  | some resp =>
    rcases hr : resp.ReadAll with ⟨b, e2⟩
    by_cases he2 : e2 = Err.nil
    swap
    · simp [sendRequest, makeRequest, getBody, hd, hr, he2, NewCommonEdgeX,
        NewCommonEdgeXWrapper]
    subst he2
    by_cases hs : resp.StatusCode ≤ 207
    · simp [sendRequest, makeRequest, getBody, hd, hr, hs, StatusMultiStatus]
    · cases hu : Unmarshal b with
      | error e =>
        simp [sendRequest, makeRequest, getBody, hd, hr, hs, hu, StatusMultiStatus,
          NewCommonEdgeXWrapper]
      | ok res =>
        by_cases h400 : resp.StatusCode = 400 <;>
          simp [sendRequest, makeRequest, getBody, hd, hr, hs, hu, h400, StatusMultiStatus,
            StatusBadRequest, NewCommonEdgeX]

/-- C6: the error taxonomy of `sendRequest`. For a response with status code above
207 whose body decodes as a `BaseResponse`, the result is nil bytes and the
error `NewCommonEdgeX(kind, msg, nil)`, of kind `KindContractInvalid` when the
status code is 400 and of kind `KindServerError` for every other status code. -/
theorem sendRequest_error_taxonomy (Do : Request → Option Response × Err)
    (Unmarshal : Bytes → Except Err common.BaseResponse) (req : Request)
    (resp : Response) (body : Bytes) (res : common.BaseResponse)
    (hsent : Do req = (some resp, Err.nil)) (hread : resp.ReadAll = (body, Err.nil))
    (hstatus : 207 < resp.StatusCode) (hdec : Unmarshal body = Except.ok res) :
    sendRequest Do Unmarshal req =
      (none, NewCommonEdgeX
        (if resp.StatusCode = 400 then ErrKind.KindContractInvalid
          else ErrKind.KindServerError)
        (failureMessage res) Err.nil) := by
  have h' : ¬ resp.StatusCode ≤ 207 := not_le.mpr hstatus
  by_cases h400 : resp.StatusCode = 400 <;>
    simp [sendRequest, makeRequest, getBody, hsent, hread, h', hdec, h400,
      StatusMultiStatus, StatusBadRequest, NewCommonEdgeX]

/-- The witness of `sendRequest_error_taxonomy`: a readable response with status
400 and a decodable body. -/
theorem sendRequest_error_taxonomy_witness :
    sendRequest (respondWith 400 []) decodeZero exampleRequest =
      (none, NewCommonEdgeX
        (if (400 : Int) = 400 then ErrKind.KindContractInvalid
          else ErrKind.KindServerError)
        (failureMessage { ApiVersion := "", RequestId := "", Message := "", StatusCode := 0 })
        Err.nil) :=
  sendRequest_error_taxonomy (respondWith 400 []) decodeZero exampleRequest
    { StatusCode := 400, ReadAll := (some [], Err.nil) } (some [])
    { ApiVersion := "", RequestId := "", Message := "", StatusCode := 0 }
    rfl rfl (by decide) rfl

/-- A context in which no pair has the key gives the nil interface. -/
theorem Context.Value_of_absent (ctx : Context) (key : GoValue)
    (h : ∀ kv ∈ ctx, kv.1 ≠ key) : Context.Value ctx key = GoValue.nil := by
  induction ctx with
  | nil => rfl
  | cons kv parent ih =>
    obtain ⟨k, v⟩ := kv
    have hk : k ≠ key := h (k, v) (List.mem_cons_self _ _)
    simp only [Context.Value, hk, if_false]
    exact ih (fun kv hkv => h kv (List.mem_cons_of_mem _ hkv))

/-- When the context holds a string under the key, `FromContext` returns it. -/
theorem FromContext_value_aux (ctx : Context) (key s : String)
    (h : Context.Value ctx (GoValue.str key) = GoValue.str s) : FromContext ctx key = s := by
  simp [FromContext, h]

/-- C7: `FromContext` returns the string stored under the key, and the empty string
when the key is not found or the value stored under it is not a string. -/
theorem FromContext_value (ctx : Context) (key : String) :
    (∀ s, Context.Value ctx (GoValue.str key) = GoValue.str s → FromContext ctx key = s)
    ∧ ((∀ s, Context.Value ctx (GoValue.str key) ≠ GoValue.str s) →
        FromContext ctx key = "")
    ∧ ((∀ kv ∈ ctx, kv.1 ≠ GoValue.str key) → FromContext ctx key = "")
    ∧ (∀ s parent, FromContext ((GoValue.str key, GoValue.str s) :: parent) key = s) := by
  refine ⟨?_, ?_, ?_, ?_⟩
  · intro s h
    simp [FromContext, h]
  · intro h
    unfold FromContext
    split
    · next hdr heq => exact absurd heq (h hdr)
    · rfl
  · intro h
    simp [FromContext, Context.Value_of_absent ctx _ h]
  · intro s parent
    simp [FromContext, Context.Value]

/-- The correlation header of a request built by `createRequest` is the
correlation ID. -/
theorem createRequest_correlation {Values : Type} (c : clients.Constants)
    (newUUID : String) (Parse : String → Except Err URL) (UrlString : URL → String)
    (Encode : Values → String) (NewRequest : String → String → Bytes → Except Err Request)
    (ctx : Context) (httpMethod baseUrl requestPath : String)
    (requestParams : Option Values) (req : Request)
    (h : (createRequest c newUUID Parse UrlString Encode NewRequest ctx httpMethod baseUrl
      requestPath requestParams).1 = some req) :
    Header.Get req.Header c.CorrelationHeader = correlatedId c newUUID ctx := by
  unfold createRequest at h
  cases hp : Parse baseUrl with
  | error e => simp [hp] at h
  | ok u =>
    simp only [hp] at h
    split at h
    · simp at h
    · simp only [Option.some.injEq] at h
      subst h
      exact Header.Get_Set_self _ _ _

/-- The headers of a request built by `createRequestWithRawData`: the correlation
header is the correlation ID, and the content-type header, when its name is not
the correlation header's, is the context's content type or else the JSON one. -/
theorem createRequestWithRawData_headers {Data : Type} (c : clients.Constants)
    (newUUID : String) (Marshal : Data → Except Err (List UInt8))
    (NewRequest : String → String → Bytes → Except Err Request)
    (ctx : Context) (httpMethod url : String) (data : Data) (req : Request)
    (h : (createRequestWithRawData c newUUID Marshal NewRequest ctx httpMethod url data).1
      = some req) :
    Header.Get req.Header c.CorrelationHeader = correlatedId c newUUID ctx
    ∧ (c.ContentType ≠ c.CorrelationHeader →
        Header.Get req.Header c.ContentType
          = (if FromContext ctx c.ContentType = "" then c.ContentTypeJSON
              else FromContext ctx c.ContentType)) := by
  unfold createRequestWithRawData at h
  cases hm : Marshal data with
  | error e => simp [hm] at h
  | ok bytes =>
    simp only [hm] at h
    split at h
    · simp at h
    · simp only [Option.some.injEq] at h
      subst h
      refine ⟨Header.Get_Set_self _ _ _, fun hne => ?_⟩
      simp only []
      rw [Header.Get_Set_other _ _ _ _ (fun e => hne e.symm), Header.Get_Set_self]

/-- When the base URL parses and the request can be made, `createRequest` returns
a request and no error. -/
theorem createRequest_returns {Values : Type} (c : clients.Constants)
    (newUUID : String) (Parse : String → Except Err URL) (UrlString : URL → String)
    (Encode : Values → String) (NewRequest : String → String → Bytes → Except Err Request)
    (ctx : Context) (httpMethod baseUrl requestPath : String)
    (requestParams : Option Values) (u : URL) (hparse : Parse baseUrl = Except.ok u)
    (hnew : ∀ target, ∃ built, NewRequest httpMethod target none = Except.ok built) :
    ∃ req, createRequest c newUUID Parse UrlString Encode NewRequest ctx httpMethod baseUrl
      requestPath requestParams = (some req, Err.nil) := by
  unfold createRequest
  simp only [hparse]
  split
  · next err herr =>
    obtain ⟨built, hb⟩ := hnew _
    rw [hb] at herr
    cases herr
  · exact ⟨_, rfl⟩

/-- When the data encodes and the request can be made, `createRequestWithRawData`
returns a request and no error. -/
theorem createRequestWithRawData_returns {Data : Type} (c : clients.Constants)
    (newUUID : String) (Marshal : Data → Except Err (List UInt8))
    (NewRequest : String → String → Bytes → Except Err Request)
    (ctx : Context) (httpMethod url : String) (data : Data) (bytes : List UInt8)
    (built : Request) (hm : Marshal data = Except.ok bytes)
    (hnew : NewRequest httpMethod url (some bytes) = Except.ok built) :
    ∃ req, createRequestWithRawData c newUUID Marshal NewRequest ctx httpMethod url data
      = (some req, Err.nil) := by
  unfold createRequestWithRawData
  simp only [hm, hnew]
  exact ⟨_, rfl⟩

/-- C8: `correlatedId` returns the context's correlation ID unchanged when the
context holds a non-empty one and the newly created ID otherwise; the result is
never empty (a new UUID string is not empty). `createRequest` and
`createRequestWithRawData` return a request whenever the library calls they make
succeed, and every request they return carries the correlation ID, so a non-empty
string, in its correlation header. -/
theorem correlatedId_nonempty (c : clients.Constants) (newUUID : String)
    (hnew : newUUID ≠ "") (ctx : Context) :
    (∀ s, Context.Value ctx (GoValue.str c.CorrelationHeader) = GoValue.str s → s ≠ "" →
        correlatedId c newUUID ctx = s)
    ∧ ((∀ s, Context.Value ctx (GoValue.str c.CorrelationHeader) = GoValue.str s → s = "") →
        correlatedId c newUUID ctx = newUUID)
    ∧ correlatedId c newUUID ctx ≠ ""
    ∧ (∀ (Values : Type) (Parse : String → Except Err URL) (UrlString : URL → String)
        (Encode : Values → String)
        (NewRequest : String → String → Bytes → Except Err Request)
        (httpMethod baseUrl requestPath : String) (requestParams : Option Values),
        ((∃ u, Parse baseUrl = Except.ok u) →
          (∀ target, ∃ built, NewRequest httpMethod target none = Except.ok built) →
          ∃ req, createRequest c newUUID Parse UrlString Encode NewRequest ctx httpMethod
            baseUrl requestPath requestParams = (some req, Err.nil))
        ∧ ∀ req, (createRequest c newUUID Parse UrlString Encode NewRequest ctx httpMethod
            baseUrl requestPath requestParams).1 = some req →
          Header.Get req.Header c.CorrelationHeader = correlatedId c newUUID ctx
          ∧ Header.Get req.Header c.CorrelationHeader ≠ "")
    ∧ (∀ (Data : Type) (Marshal : Data → Except Err (List UInt8))
        (NewRequest : String → String → Bytes → Except Err Request)
        (httpMethod url : String) (data : Data),
        (∀ bytes built, Marshal data = Except.ok bytes →
          NewRequest httpMethod url (some bytes) = Except.ok built →
          ∃ req, createRequestWithRawData c newUUID Marshal NewRequest ctx httpMethod url
            data = (some req, Err.nil))
        ∧ ∀ req, (createRequestWithRawData c newUUID Marshal NewRequest ctx httpMethod url
            data).1 = some req →
          Header.Get req.Header c.CorrelationHeader = correlatedId c newUUID ctx
          ∧ Header.Get req.Header c.CorrelationHeader ≠ "") := by
  have hne : correlatedId c newUUID ctx ≠ "" := by
    unfold correlatedId
    by_cases h0 : (FromContext ctx c.CorrelationHeader).length = 0
    · simpa [h0] using hnew
    · simp only [h0, if_false]
      exact fun e => h0 ((length_eq_zero_iff _).mpr e)
  refine ⟨?_, ?_, hne, ?_, ?_⟩
  · intro s hs hs0
    have hf : FromContext ctx c.CorrelationHeader = s := (FromContext_value_aux ctx _ s hs)
    have hl : ¬ s.length = 0 := fun e => hs0 ((length_eq_zero_iff s).mp e)
    simp [correlatedId, hf, hl]
  · intro h
    have hf : FromContext ctx c.CorrelationHeader = "" := by
      unfold FromContext
      split
      · next hdr heq => exact h hdr heq
      · rfl
    simp [correlatedId, hf]
  · intro Values Parse UrlString Encode NewRequest m b p params
    refine ⟨?_, ?_⟩
    · rintro ⟨u, hu⟩ hall
      exact createRequest_returns c newUUID Parse UrlString Encode NewRequest ctx m b p
        params u hu hall
    · intro req h
      have hc := createRequest_correlation c newUUID Parse UrlString Encode NewRequest ctx
        m b p params req h
      exact ⟨hc, by rw [hc]; exact hne⟩
  · intro Data Marshal NewRequest m u data
    refine ⟨?_, ?_⟩
    · intro bytes built hm hb
      exact createRequestWithRawData_returns c newUUID Marshal NewRequest ctx m u data bytes
        built hm hb
    · intro req h
      have hc := (createRequestWithRawData_headers c newUUID Marshal NewRequest ctx m u data
        req h).1
      exact ⟨hc, by rw [hc]; exact hne⟩

/-- The witness of `correlatedId_nonempty`: the sample constants, a UUID string and
a context holding a correlation ID. -/
theorem correlatedId_nonempty_witness :
    "7a1707f0-166f-4c4b-bc9d-1d54c74e0137" ≠ ""
    ∧ correlatedId exampleConstants "7a1707f0-166f-4c4b-bc9d-1d54c74e0137"
        [(GoValue.str "X-Correlation-ID", GoValue.str "abc")] = "abc"
    ∧ correlatedId exampleConstants "7a1707f0-166f-4c4b-bc9d-1d54c74e0137"
        [(GoValue.str "X-Correlation-ID", GoValue.str "abc")] ≠ "" :=
  have h := correlatedId_nonempty exampleConstants "7a1707f0-166f-4c4b-bc9d-1d54c74e0137"
    (by decide) [(GoValue.str "X-Correlation-ID", GoValue.str "abc")]
  ⟨by decide, h.1 "abc" rfl (by decide), h.2.2.1⟩

/-- C9: `createRequestWithRawData` sets the content-type header (a header name
other than the correlation header's) to the context's content-type value when
that value is a non-empty string and to the JSON content type otherwise: it returns
such a request whenever the data encodes and the request can be made, and every
request it returns is such. When the data cannot be JSON-encoded it returns no
request and an error of kind `KindContractInvalid`. -/
theorem createRequestWithRawData_content_type {Data : Type} (c : clients.Constants)
    (hnames : c.ContentType ≠ c.CorrelationHeader)
    (newUUID : String) (Marshal : Data → Except Err (List UInt8))
    (NewRequest : String → String → Bytes → Except Err Request)
    (ctx : Context) (httpMethod url : String) (data : Data) :
    (∀ bytes built, Marshal data = Except.ok bytes →
        NewRequest httpMethod url (some bytes) = Except.ok built →
        ∃ req, createRequestWithRawData c newUUID Marshal NewRequest ctx httpMethod url data
            = (some req, Err.nil)
          ∧ Header.Get req.Header c.ContentType
            = (match Context.Value ctx (GoValue.str c.ContentType) with
                | GoValue.str s => if s = "" then c.ContentTypeJSON else s
                | _ => c.ContentTypeJSON))
    ∧ (∀ req, (createRequestWithRawData c newUUID Marshal NewRequest ctx httpMethod url data).1
        = some req →
        Header.Get req.Header c.ContentType
          = (match Context.Value ctx (GoValue.str c.ContentType) with
              | GoValue.str s => if s = "" then c.ContentTypeJSON else s
              | _ => c.ContentTypeJSON))
    ∧ (∀ err, Marshal data = Except.error err →
        createRequestWithRawData c newUUID Marshal NewRequest ctx httpMethod url data
          = (none, NewCommonEdgeX ErrKind.KindContractInvalid
              "failed to encode input data to JSON" err)) := by
  have hall : ∀ req,
      (createRequestWithRawData c newUUID Marshal NewRequest ctx httpMethod url data).1
        = some req →
      Header.Get req.Header c.ContentType
        = (match Context.Value ctx (GoValue.str c.ContentType) with
            | GoValue.str s => if s = "" then c.ContentTypeJSON else s
            | _ => c.ContentTypeJSON) := by
    intro req h
    rw [(createRequestWithRawData_headers c newUUID Marshal NewRequest ctx httpMethod url
      data req h).2 hnames]
    unfold FromContext
    cases Context.Value ctx (GoValue.str c.ContentType) with
    | str v => by_cases hv : v = "" <;> simp [hv]
    | nil => simp
    | named t v => simp
    | int n => simp
  refine ⟨?_, hall, ?_⟩
  · intro bytes built hm hb
    obtain ⟨req, hreq⟩ := createRequestWithRawData_returns c newUUID Marshal NewRequest ctx
      httpMethod url data bytes built hm hb
    exact ⟨req, hreq, hall req (by rw [hreq])⟩
  · intro err herr
    simp [createRequestWithRawData, herr]

/-- The witness of `createRequestWithRawData_content_type`: the sample constants,
whose two header names differ, and a context asking for CBOR: the request returned
has the CBOR content type. -/
theorem createRequestWithRawData_content_type_witness :
    exampleConstants.ContentType ≠ exampleConstants.CorrelationHeader
    ∧ ∃ req, createRequestWithRawData exampleConstants "7a1707f0"
          (fun (_ : Unit) => Except.ok [123, 125]) plainNewRequest
          [(GoValue.str "Content-Type", GoValue.str "application/cbor")]
          "POST" "http://localhost/api/v2/event" () = (some req, Err.nil)
        ∧ Header.Get req.Header exampleConstants.ContentType = "application/cbor" :=
  ⟨by decide,
    (createRequestWithRawData_content_type exampleConstants (by decide) "7a1707f0"
      (fun (_ : Unit) => Except.ok [123, 125]) plainNewRequest
      [(GoValue.str "Content-Type", GoValue.str "application/cbor")]
      "POST" "http://localhost/api/v2/event" ()).1 [123, 125]
      { Method := "POST", URL := "http://localhost/api/v2/event", Body := some [123, 125],
        Header := [] } rfl rfl⟩

end utils

namespace requests

open errors

/-- When the normalizing loop returns no error, every reading carries the
spelling the normalizer returned for it and is otherwise untouched. -/
theorem normalizeReadings_ok (N : String → Except Err String) (rs : List dtos.BaseReading)
    (h : (normalizeReadings N rs).2 = Err.nil) :
    List.Forall₂
      (fun r' r => N r.ValueType = Except.ok r'.ValueType
        ∧ r' = { r with ValueType := r'.ValueType })
      (normalizeReadings N rs).1 rs := by
  induction rs with
  | nil => exact List.Forall₂.nil
  | cons r rest ih =>
    unfold normalizeReadings at h ⊢
    cases hn : N r.ValueType with
    | error e => simp [hn, NewCommonEdgeXWrapper] at h
    | ok v =>
      simp only [hn] at h ⊢
      exact List.Forall₂.cons ⟨hn, rfl⟩ (ih h)

/-- Readings that differ only in letter case normalize to the same readings, for a
normalizer that does not look at letter case. -/
theorem normalizeReadings_congr (N : String → Except Err String) (lower : String → String)
    (hcase : ∀ x y, lower x = lower y → N x = N y)
    (rs₁ rs₂ : List dtos.BaseReading) (hrel : List.Forall₂ (sameUpToCase lower) rs₁ rs₂)
    (h : (normalizeReadings N rs₁).2 = Err.nil) :
    normalizeReadings N rs₁ = normalizeReadings N rs₂ := by
  induction hrel with
  | nil => rfl
  | @cons r₁ r₂ l₁ l₂ hr _ ih =>
    obtain ⟨hsame, hlow⟩ := hr
    have hN : N r₁.ValueType = N r₂.ValueType := hcase _ _ hlow
    unfold normalizeReadings at h ⊢
    rw [← hN]
    cases hn : N r₁.ValueType with
    | error e => simp [hn, NewCommonEdgeXWrapper] at h
    | ok v =>
      simp only [hn] at h ⊢
      rw [ih h]
      have hv : ({ r₁ with ValueType := v } : dtos.BaseReading) = { r₂ with ValueType := v } := by
        cases r₁; cases r₂
        simp only [dtos.BaseReading.mk.injEq] at hsame ⊢
        tauto
      rw [hv]

/-- C10: `AddEventRequest.Unmarshal` normalizes the readings' value types. After
every call that returns no error, with any decoder (JSON or CBOR), the request is
the decoded one with each reading's ValueType replaced by the spelling
`NormalizeValueType` returns for it; so, for a normalizer that does not look at
letter case, two inputs whose decoded requests differ only in the letter case of
value types unmarshal to the same request. -/
theorem AddEventRequest.Unmarshal_normalizes (deps : EventDeps) (lower : String → String)
    (hcase : ∀ x y, lower x = lower y →
      deps.NormalizeValueType x = deps.NormalizeValueType y) :
    (∀ (f : Bytes → Except Err AddEventRequest) (a : AddEventRequest) (b : Bytes),
      (AddEventRequest.Unmarshal deps a b f).2 = Err.nil →
      ∃ d, f b = Except.ok d
        ∧ (AddEventRequest.Unmarshal deps a b f).1.BaseRequest = d.BaseRequest
        ∧ { (AddEventRequest.Unmarshal deps a b f).1.Event with Readings := none }
            = { d.Event with Readings := none }
        ∧ (AddEventRequest.Unmarshal deps a b f).1.Event.Readings.isSome
            = d.Event.Readings.isSome
        ∧ List.Forall₂
            (fun r' r => deps.NormalizeValueType r.ValueType = Except.ok r'.ValueType
              ∧ r' = { r with ValueType := r'.ValueType })
            ((AddEventRequest.Unmarshal deps a b f).1.Event.Readings.getD [])
            (d.Event.Readings.getD []))
    ∧ (∀ (f₁ f₂ : Bytes → Except Err AddEventRequest) (a₁ a₂ : AddEventRequest)
        (b₁ b₂ : Bytes) (d₁ d₂ : AddEventRequest),
      f₁ b₁ = Except.ok d₁ → f₂ b₂ = Except.ok d₂ → differOnlyInCase lower d₁ d₂ →
      (AddEventRequest.Unmarshal deps a₁ b₁ f₁).2 = Err.nil →
      (AddEventRequest.Unmarshal deps a₂ b₂ f₂).2 = Err.nil →
      (AddEventRequest.Unmarshal deps a₁ b₁ f₁).1
        = (AddEventRequest.Unmarshal deps a₂ b₂ f₂).1) := by
  constructor
  · intro f a b h
    unfold AddEventRequest.Unmarshal at h ⊢
    cases hf : f b with
    | error e => simp [hf, NewCommonEdgeX] at h
    | ok d =>
      simp only [hf] at h ⊢
      by_cases hv : AddEventRequest.Validate deps d = Err.nil
      swap
      · simp [hv] at h
      simp only [hv, ne_eq, not_true_eq_false, if_false] at h ⊢
      refine ⟨d, rfl, ?_⟩
      cases hr : d.Event.Readings with
      | none =>
        simp only [hr]
        refine ⟨trivial, trivial, trivial, ?_⟩
        simp
      | some rs =>
        simp only [hr] at h ⊢
        refine ⟨trivial, trivial, rfl, ?_⟩
        simpa using normalizeReadings_ok deps.NormalizeValueType rs h
  · intro f₁ f₂ a₁ a₂ b₁ b₂ d₁ d₂ hf₁ hf₂ hrel h₁ h₂
    obtain ⟨hbase, hev, hsome, hreads⟩ := hrel
    unfold AddEventRequest.Unmarshal at h₁ h₂ ⊢
    simp only [hf₁] at h₁ ⊢
    simp only [hf₂] at h₂ ⊢
    by_cases hv₁ : AddEventRequest.Validate deps d₁ = Err.nil
    swap
    · simp [hv₁] at h₁
    by_cases hv₂ : AddEventRequest.Validate deps d₂ = Err.nil
    swap
    · simp [hv₂] at h₂
    simp only [hv₁, ne_eq, not_true_eq_false, if_false] at h₁ ⊢
    simp only [hv₂, ne_eq, not_true_eq_false, if_false] at h₂ ⊢
    obtain ⟨base₁, ev₁⟩ := d₁
    obtain ⟨base₂, ev₂⟩ := d₂
    obtain ⟨id₁, dn₁, pn₁, sn₁, o₁, rs₁, t₁⟩ := ev₁
    obtain ⟨id₂, dn₂, pn₂, sn₂, o₂, rs₂, t₂⟩ := ev₂
    simp only at hbase hev hsome hreads h₁ h₂ ⊢
    simp only [dtos.Event.mk.injEq] at hev
    obtain ⟨e1, e2, e3, e4, e5, -, e7⟩ := hev
    subst hbase e1 e2 e3 e4 e5 e7
    cases rs₁ with
    | none =>
      cases rs₂ with
      | none => rfl
      | some l₂ => simp at hsome
    | some l₁ =>
      cases rs₂ with
      | none => simp at hsome
      | some l₂ =>
        simp only [Option.getD_some] at hreads
        simp only at h₁ ⊢
        rw [normalizeReadings_congr deps.NormalizeValueType lower hcase l₁ l₂ hreads h₁]

/-- The witness of `AddEventRequest.Unmarshal_normalizes`: with the sample
normalizer, the inputs decoding to the spellings `uint8` and `UINT8` unmarshal to
the same request. -/
theorem AddEventRequest.Unmarshal_normalizes_witness :
    (∀ x y, exampleLower x = exampleLower y →
      exampleEventDeps.NormalizeValueType x = exampleEventDeps.NormalizeValueType y)
    ∧ (AddEventRequest.Unmarshal exampleEventDeps (exampleAddEventRequest "") (some [1])
          exampleDecode).1
        = (AddEventRequest.Unmarshal exampleEventDeps (exampleAddEventRequest "") (some [2])
          exampleDecode).1 :=
  ⟨fun x y h => by simp only [exampleEventDeps, h],
    (AddEventRequest.Unmarshal_normalizes exampleEventDeps exampleLower
      (fun x y h => by simp only [exampleEventDeps, h])).2
      exampleDecode exampleDecode (exampleAddEventRequest "") (exampleAddEventRequest "")
      (some [1]) (some [2]) (exampleAddEventRequest "uint8") (exampleAddEventRequest "UINT8")
      rfl rfl
      ⟨rfl, rfl, rfl, List.Forall₂.cons ⟨rfl, by decide⟩ List.Forall₂.nil⟩
      (by decide) (by decide)⟩

end requests

namespace json

open errors

/-- A field whose key is absent gets no value from the object. -/
theorem member_of_absent (fold : String → String) (ms : Members) (tag : String)
    (h : absent fold ms tag) : member fold ms tag = none := by
  have hnil : ms.filter (fun m => decide (fold m.1 = fold tag)) = [] := by
    rw [List.filter_eq_nil_iff]
    intro m hm
    simpa using h m hm
  simp [member, hnil]

/-- A step of a decoder that succeeds: both halves succeed. -/
theorem bind_ok {α β : Type} (x : Except Err α) (f : α → Except Err β) (p : β)
    (h : x >>= f = Except.ok p) : ∃ a, x = Except.ok a ∧ f a = Except.ok p := by
  cases x with
  | error e => simp [bind, Except.bind] at h
  | ok a => exact ⟨a, rfl, h⟩

/-- A pointer field decodes to nil when its key is absent. -/
theorem intoStringPtr_absent (fold : String → String) (ms : Members) (tag : String)
    (v : Option String) (hv : intoStringPtr (member fold ms tag) = Except.ok v)
    (h : absent fold ms tag) : v = none := by
  rw [member_of_absent fold ms tag h] at hv
  simpa [intoStringPtr] using hv.symm

/-- An integer pointer field decodes to nil when its key is absent. -/
theorem intoIntPtr_absent (fold : String → String) (ms : Members) (tag : String)
    (v : Option Int) (hv : intoIntPtr (member fold ms tag) = Except.ok v)
    (h : absent fold ms tag) : v = none := by
  rw [member_of_absent fold ms tag h] at hv
  simpa [intoIntPtr] using hv.symm

/-- A slice field decodes to the nil slice when its key is absent. -/
theorem intoSlice_absent {α : Type} (item : Value → Except Err α) (fold : String → String)
    (ms : Members) (tag : String) (v : Slice α)
    (hv : intoSlice item (member fold ms tag) = Except.ok v)
    (h : absent fold ms tag) : v = none := by
  rw [member_of_absent fold ms tag h] at hv
  simpa [intoSlice] using hv.symm

/-- A slice field given as `[]` decodes to the non-nil empty slice. -/
theorem intoSlice_empty {α : Type} (item : Value → Except Err α) (fold : String → String)
    (ms : Members) (tag : String) (v : Slice α)
    (hv : intoSlice item (member fold ms tag) = Except.ok v)
    (h : member fold ms tag = some (Value.array [])) : v = some [] := by
  rw [h] at hv
  have hnil : intoSlice item (some (Value.array [])) = Except.ok (some []) := rfl
  rw [hnil] at hv
  injection hv with h'
  exact h'.symm

end json

namespace requests

open errors

/-- When the decoder succeeds, `UpdateSubscriptionRequest.UnmarshalJSON` leaves the
decoded request in the receiver, whatever validation says. -/
theorem UpdateSubscriptionRequest_UnmarshalJSON_stores {DA : Type}
    (deps : SubscriptionDeps DA)
    (jsonUnmarshal : Bytes → Except Err (UpdateSubscriptionRequest DA))
    (r d : UpdateSubscriptionRequest DA) (b : Bytes) (h : jsonUnmarshal b = Except.ok d) :
    (UpdateSubscriptionRequest.UnmarshalJSON deps jsonUnmarshal r b).1 = d := by
  unfold UpdateSubscriptionRequest.UnmarshalJSON
  simp only [h]
  split <;> rfl

/-- When the decoder succeeds, `UpdateDeviceServiceRequest.UnmarshalJSON` leaves the
decoded request in the receiver, whatever validation says. -/
theorem UpdateDeviceServiceRequest_UnmarshalJSON_stores
    (validate : UpdateDeviceServiceRequest → Err)
    (jsonUnmarshal : Bytes → Except Err UpdateDeviceServiceRequest)
    (r d : UpdateDeviceServiceRequest) (b : Bytes) (h : jsonUnmarshal b = Except.ok d) :
    (UpdateDeviceServiceRequest.UnmarshalJSON validate jsonUnmarshal r b).1 = d := by
  unfold UpdateDeviceServiceRequest.UnmarshalJSON
  simp only [h]
  split <;> rfl

/-- The patch decoded from an object: nil where the key is absent, the non-nil
empty slice where a collection is given as `[]`. -/
theorem decodeUpdateSubscription_fields {DA : Type} (fold : String → String)
    (address : json.Value → Except Err DA) (sm : json.Members)
    (p : dtos.UpdateSubscription DA)
    (h : decodeUpdateSubscription fold address sm = Except.ok p) :
    ((json.absent fold sm "id" → p.Id = none)
      ∧ (json.absent fold sm "name" → p.Name = none)
      ∧ (json.absent fold sm "channels" → p.Channels = none)
      ∧ (json.absent fold sm "categories" → p.Categories = none)
      ∧ (json.absent fold sm "labels" → p.Labels = none)
      ∧ (json.absent fold sm "description" → p.Description = none)
      ∧ (json.absent fold sm "receiver" → p.Receiver = none)
      ∧ (json.absent fold sm "resendLimit" → p.ResendLimit = none)
      ∧ (json.absent fold sm "resendInterval" → p.ResendInterval = none)
      ∧ (json.absent fold sm "adminState" → p.AdminState = none))
    ∧ ((json.member fold sm "channels" = some (json.Value.array []) → p.Channels = some [])
      ∧ (json.member fold sm "categories" = some (json.Value.array []) →
          p.Categories = some [])
      ∧ (json.member fold sm "labels" = some (json.Value.array []) → p.Labels = some [])) := by
  unfold decodeUpdateSubscription at h
  obtain ⟨id, hid, h⟩ := json.bind_ok _ _ _ h
  obtain ⟨name, hname, h⟩ := json.bind_ok _ _ _ h
  obtain ⟨channels, hchannels, h⟩ := json.bind_ok _ _ _ h
  obtain ⟨categories, hcategories, h⟩ := json.bind_ok _ _ _ h
  obtain ⟨labels, hlabels, h⟩ := json.bind_ok _ _ _ h
  obtain ⟨description, hdescription, h⟩ := json.bind_ok _ _ _ h
  obtain ⟨receiver, hreceiver, h⟩ := json.bind_ok _ _ _ h
  obtain ⟨resendLimit, hresendLimit, h⟩ := json.bind_ok _ _ _ h
  obtain ⟨resendInterval, hresendInterval, h⟩ := json.bind_ok _ _ _ h
  obtain ⟨adminState, hadminState, h⟩ := json.bind_ok _ _ _ h
  have hp : p =
      { Id := id, Name := name, Channels := channels, Categories := categories,
        Labels := labels, Description := description, Receiver := receiver,
        ResendLimit := resendLimit, ResendInterval := resendInterval,
        AdminState := adminState } := by
    injection h with h'
    exact h'.symm
  subst hp
  refine ⟨⟨?_, ?_, ?_, ?_, ?_, ?_, ?_, ?_, ?_, ?_⟩, ?_, ?_, ?_⟩
  · exact json.intoStringPtr_absent fold sm _ _ hid
  · exact json.intoStringPtr_absent fold sm _ _ hname
  · exact json.intoSlice_absent _ fold sm _ _ hchannels
  · exact json.intoSlice_absent _ fold sm _ _ hcategories
  · exact json.intoSlice_absent _ fold sm _ _ hlabels
  · exact json.intoStringPtr_absent fold sm _ _ hdescription
  · exact json.intoStringPtr_absent fold sm _ _ hreceiver
  · exact json.intoIntPtr_absent fold sm _ _ hresendLimit
  · exact json.intoStringPtr_absent fold sm _ _ hresendInterval
  · exact json.intoStringPtr_absent fold sm _ _ hadminState
  · exact json.intoSlice_empty _ fold sm _ _ hchannels
  · exact json.intoSlice_empty _ fold sm _ _ hcategories
  · exact json.intoSlice_empty _ fold sm _ _ hlabels

/-- The device-service patch decoded from an object: nil where the key is absent,
the non-nil empty slice where the labels are given as `[]`. -/
theorem decodeUpdateDeviceService_fields (fold : String → String) (sm : json.Members)
    (p : dtos.UpdateDeviceService)
    (h : decodeUpdateDeviceService fold sm = Except.ok p) :
    (json.absent fold sm "baseAddress" → p.BaseAddress = none)
    ∧ (json.absent fold sm "adminState" → p.AdminState = none)
    ∧ (json.absent fold sm "labels" → p.Labels = none)
    ∧ (json.member fold sm "labels" = some (json.Value.array []) → p.Labels = some []) := by
  unfold decodeUpdateDeviceService at h
  obtain ⟨id, hid, h⟩ := json.bind_ok _ _ _ h
  obtain ⟨name, hname, h⟩ := json.bind_ok _ _ _ h
  obtain ⟨baseAddress, hbaseAddress, h⟩ := json.bind_ok _ _ _ h
  obtain ⟨adminState, hadminState, h⟩ := json.bind_ok _ _ _ h
  obtain ⟨labels, hlabels, h⟩ := json.bind_ok _ _ _ h
  have hp : p =
      { Id := id, Name := name, BaseAddress := baseAddress,
        AdminState := adminState, Labels := labels } := by
    injection h with h'
    exact h'.symm
  subst hp
  exact ⟨json.intoStringPtr_absent fold sm _ _ hbaseAddress,
    json.intoStringPtr_absent fold sm _ _ hadminState,
    json.intoSlice_absent _ fold sm _ _ hlabels,
    json.intoSlice_empty _ fold sm _ _ hlabels⟩

end requests

namespace requests

open errors

/-- C3: unmarshalling an update request tells an absent field from an explicitly
empty one. For a JSON document that is an object and decodes, the patch left in
the receiver by `UpdateSubscriptionRequest.UnmarshalJSON` has the nil pointer or
nil slice in every field whose key is absent from the `subscription` object, and
the non-nil empty slice in every collection field given there as `[]`; the same
holds for `UpdateDeviceServiceRequest.UnmarshalJSON` and the `service` object, on
BaseAddress, AdminState and Labels. -/
theorem UnmarshalJSON_absent_or_empty {DA : Type} (deps : SubscriptionDeps DA)
    (validate : UpdateDeviceServiceRequest → Err) (fold : String → String)
    (parse : Bytes → Except Err json.Value) (address : json.Value → Except Err DA)
    (b : Bytes) (ms sm : json.Members)
    (hparse : parse b = Except.ok (json.Value.object ms)) :
    (json.member fold ms "subscription" = some (json.Value.object sm) →
      ∀ (r d : UpdateSubscriptionRequest DA) (p : dtos.UpdateSubscription DA),
        json.Unmarshal parse (zeroUpdateSubscriptionRequest DA)
          (decodeUpdateSubscriptionRequest fold address) b = Except.ok d →
        (UpdateSubscriptionRequest.UnmarshalJSON deps
          (json.Unmarshal parse (zeroUpdateSubscriptionRequest DA)
            (decodeUpdateSubscriptionRequest fold address)) r b).1.Subscription = p →
        ((json.absent fold sm "id" → p.Id = none)
          ∧ (json.absent fold sm "name" → p.Name = none)
          ∧ (json.absent fold sm "channels" → p.Channels = none)
          ∧ (json.absent fold sm "categories" → p.Categories = none)
          ∧ (json.absent fold sm "labels" → p.Labels = none)
          ∧ (json.absent fold sm "description" → p.Description = none)
          ∧ (json.absent fold sm "receiver" → p.Receiver = none)
          ∧ (json.absent fold sm "resendLimit" → p.ResendLimit = none)
          ∧ (json.absent fold sm "resendInterval" → p.ResendInterval = none)
          ∧ (json.absent fold sm "adminState" → p.AdminState = none))
        ∧ ((json.member fold sm "channels" = some (json.Value.array []) →
              p.Channels = some [])
          ∧ (json.member fold sm "categories" = some (json.Value.array []) →
              p.Categories = some [])
          ∧ (json.member fold sm "labels" = some (json.Value.array []) →
              p.Labels = some [])))
    ∧ (json.member fold ms "service" = some (json.Value.object sm) →
      ∀ (r d : UpdateDeviceServiceRequest) (p : dtos.UpdateDeviceService),
        json.Unmarshal parse zeroUpdateDeviceServiceRequest
          (decodeUpdateDeviceServiceRequest fold) b = Except.ok d →
        (UpdateDeviceServiceRequest.UnmarshalJSON validate
          (json.Unmarshal parse zeroUpdateDeviceServiceRequest
            (decodeUpdateDeviceServiceRequest fold)) r b).1.Service = p →
        (json.absent fold sm "baseAddress" → p.BaseAddress = none)
        ∧ (json.absent fold sm "adminState" → p.AdminState = none)
        ∧ (json.absent fold sm "labels" → p.Labels = none)
        ∧ (json.member fold sm "labels" = some (json.Value.array []) →
            p.Labels = some [])) := by
  constructor
  · intro hsub r d p hdec hp
    rw [UpdateSubscriptionRequest_UnmarshalJSON_stores deps _ r d b hdec] at hp
    subst hp
    have hd : decodeUpdateSubscriptionRequest fold address ms = Except.ok d := by
      simpa [json.Unmarshal, hparse, json.intoStruct] using hdec
    unfold decodeUpdateSubscriptionRequest at hd
    obtain ⟨requestId, -, hd⟩ := json.bind_ok _ _ _ hd
    obtain ⟨subscription, hs, hd⟩ := json.bind_ok _ _ _ hd
    have hds : d.Subscription = subscription := by
      injection hd with h'
      rw [← h']
    rw [hsub] at hs
    rw [hds]
    exact decodeUpdateSubscription_fields fold address sm subscription hs
  · intro hsub r d p hdec hp
    rw [UpdateDeviceServiceRequest_UnmarshalJSON_stores validate _ r d b hdec] at hp
    subst hp
    have hd : decodeUpdateDeviceServiceRequest fold ms = Except.ok d := by
      simpa [json.Unmarshal, hparse, json.intoStruct] using hdec
    unfold decodeUpdateDeviceServiceRequest at hd
    obtain ⟨requestId, -, hd⟩ := json.bind_ok _ _ _ hd
    obtain ⟨service, hs, hd⟩ := json.bind_ok _ _ _ hd
    have hds : d.Service = service := by
      injection hd with h'
      rw [← h']
    rw [hsub] at hs
    rw [hds]
    exact decodeUpdateDeviceService_fields fold sm service hs

/-- The witness of `UnmarshalJSON_absent_or_empty`: the document of
`TestUpdateDeviceServiceRequest_UnmarshalJSON_EmptySlice`, whose labels are `[]`
and which has no `baseAddress`, decodes to non-nil labels and a nil BaseAddress. -/
theorem UnmarshalJSON_absent_or_empty_witness :
    (UpdateDeviceServiceRequest.UnmarshalJSON (fun _ => Err.nil)
        (json.Unmarshal (fun _ => Except.ok (json.Value.object emptySliceDocument))
          zeroUpdateDeviceServiceRequest (decodeUpdateDeviceServiceRequest id))
        zeroUpdateDeviceServiceRequest (some [])).1.Service.Labels = some []
    ∧ (UpdateDeviceServiceRequest.UnmarshalJSON (fun _ => Err.nil)
        (json.Unmarshal (fun _ => Except.ok (json.Value.object emptySliceDocument))
          zeroUpdateDeviceServiceRequest (decodeUpdateDeviceServiceRequest id))
        zeroUpdateDeviceServiceRequest (some [])).1.Service.BaseAddress = none :=
  have h := (UnmarshalJSON_absent_or_empty exampleSubscriptionDeps (fun _ => Err.nil) id
    (fun _ => Except.ok (json.Value.object emptySliceDocument))
    (fun _ => Except.error (Err.foreign "no channel")) (some []) emptySliceDocument
    [("name", json.Value.string "TestDevice"), ("labels", json.Value.array [])] rfl).2 rfl
    zeroUpdateDeviceServiceRequest
    { BaseRequest := { RequestId := "7a1707f0-166f-4c4b-bc9d-1d54c74e0137" },
      Service := { Id := none, Name := some "TestDevice", BaseAddress := none,
                   AdminState := none, Labels := some [] } }
    _ rfl rfl
  ⟨h.2.2.2 rfl, h.1 (by simp [json.absent])⟩

end requests

namespace requests

open errors

/-- C11: unmarshalling rejects undecodable input. For every byte input the
decoder rejects, `AddEventRequest.Unmarshal` (so `UnmarshalJSON` and
`UnmarshalCBOR`), `AddSubscriptionRequest.UnmarshalJSON` and
`UpdateSubscriptionRequest.UnmarshalJSON` return a non-nil error made by
`NewCommonEdgeX` with kind `KindContractInvalid`, wrapping the decoder's error,
and leave the receiver as it was. -/
theorem Unmarshal_rejects_undecodable {DA : Type} (deps : EventDeps)
    (sdeps : SubscriptionDeps DA) (validateAdd : AddSubscriptionRequest DA → Err)
    (f : Bytes → Except Err AddEventRequest)
    (fa : Bytes → Except Err (AddSubscriptionRequest DA))
    (fu : Bytes → Except Err (UpdateSubscriptionRequest DA))
    (a : AddEventRequest) (ra : AddSubscriptionRequest DA)
    (ru : UpdateSubscriptionRequest DA) (b : Bytes) :
    (∀ err, f b = Except.error err →
        AddEventRequest.Unmarshal deps a b f
          = (a, NewCommonEdgeX ErrKind.KindContractInvalid
              "Failed to unmarshal the byte array." err)
        ∧ AddEventRequest.UnmarshalJSON deps f a b
          = (a, NewCommonEdgeX ErrKind.KindContractInvalid
              "Failed to unmarshal the byte array." err)
        ∧ AddEventRequest.UnmarshalCBOR deps f a b
          = (a, NewCommonEdgeX ErrKind.KindContractInvalid
              "Failed to unmarshal the byte array." err)
        ∧ (AddEventRequest.Unmarshal deps a b f).2 ≠ Err.nil)
    ∧ (∀ err, fa b = Except.error err →
        AddSubscriptionRequest.UnmarshalJSON sdeps validateAdd fa ra b
          = (ra, NewCommonEdgeX ErrKind.KindContractInvalid
              "Failed to unmarshal request body as JSON." err)
        ∧ (AddSubscriptionRequest.UnmarshalJSON sdeps validateAdd fa ra b).2 ≠ Err.nil)
    ∧ (∀ err, fu b = Except.error err →
        UpdateSubscriptionRequest.UnmarshalJSON sdeps fu ru b
          = (ru, NewCommonEdgeX ErrKind.KindContractInvalid
              "Failed to unmarshal request body as JSON." err)
        ∧ (UpdateSubscriptionRequest.UnmarshalJSON sdeps fu ru b).2 ≠ Err.nil) := by
  refine ⟨?_, ?_, ?_⟩
  · intro err h
    simp [AddEventRequest.Unmarshal, AddEventRequest.UnmarshalJSON,
      AddEventRequest.UnmarshalCBOR, h, NewCommonEdgeX]
  · intro err h
    simp [AddSubscriptionRequest.UnmarshalJSON, h, NewCommonEdgeX]
  · intro err h
    simp [UpdateSubscriptionRequest.UnmarshalJSON, h, NewCommonEdgeX]

end requests

namespace requests

open errors

/-- C15: `UpdateSubscriptionRequest.Validate` enforces that categories and labels
are not both empty. For a request that passes struct and channel validation, the
result is the `KindContractInvalid` error "categories and labels can not be both
empty" exactly when Categories and Labels are both non-nil and both of length
zero, and no error otherwise: a nil or non-empty one of the two is not rejected. -/
theorem UpdateSubscriptionRequest_Validate_both_empty {DA : Type}
    (deps : SubscriptionDeps DA) (request : UpdateSubscriptionRequest DA)
    (hstruct : deps.Validate request = Err.nil)
    (hchannels : validateChannels deps (request.Subscription.Channels.getD []) = Err.nil) :
    ((request.Subscription.Categories ≠ none ∧ request.Subscription.Labels ≠ none
        ∧ Slice.len request.Subscription.Categories = 0
        ∧ Slice.len request.Subscription.Labels = 0) →
      UpdateSubscriptionRequest.Validate deps request
        = NewCommonEdgeX ErrKind.KindContractInvalid
            "categories and labels can not be both empty" Err.nil)
    ∧ (¬ (request.Subscription.Categories ≠ none ∧ request.Subscription.Labels ≠ none
        ∧ Slice.len request.Subscription.Categories = 0
        ∧ Slice.len request.Subscription.Labels = 0) →
      UpdateSubscriptionRequest.Validate deps request = Err.nil)
    ∧ (UpdateSubscriptionRequest.Validate deps request ≠ Err.nil ↔
        (request.Subscription.Categories ≠ none ∧ request.Subscription.Labels ≠ none
          ∧ Slice.len request.Subscription.Categories = 0
          ∧ Slice.len request.Subscription.Labels = 0)) := by
  obtain ⟨base, sub⟩ := request
  obtain ⟨pid, pname, pch, pcat, plab, pdesc, prec, plim, pint, padm⟩ := sub
  simp only at hstruct hchannels ⊢
  cases pcat with
  | none =>
    simp [UpdateSubscriptionRequest.Validate, hstruct, hchannels]
  | some cats =>
    cases plab with
    | none =>
      simp [UpdateSubscriptionRequest.Validate, hstruct, hchannels]
    | some labs =>
      by_cases hc : cats.length = 0 <;> by_cases hl : labs.length = 0 <;>
        simp [UpdateSubscriptionRequest.Validate, hstruct, hchannels, Slice.len, hc, hl,
          NewCommonEdgeX]

/-- The witness of `UpdateSubscriptionRequest_Validate_both_empty`: the sample
request with both collections empty is rejected. -/
theorem UpdateSubscriptionRequest_Validate_both_empty_witness :
    UpdateSubscriptionRequest.Validate exampleSubscriptionDeps exampleBothEmptyRequest
      = NewCommonEdgeX ErrKind.KindContractInvalid
          "categories and labels can not be both empty" Err.nil :=
  (UpdateSubscriptionRequest_Validate_both_empty exampleSubscriptionDeps
    exampleBothEmptyRequest rfl rfl).1 (by decide)

end requests

namespace requests

open errors

/-- The function `contains` decides membership. -/
theorem contains_iff (l : List String) (str : String) : contains l str = true ↔ str ∈ l := by
  induction l with
  | nil => simp [contains]
  | cons v rest ih =>
    by_cases h : v = str
    · simp [contains, h]
    · have h' : ¬ str = v := fun e => h e.symm
      simp [contains, h, h', ih]

/-- A type is supported exactly when it is `EMAIL` or `REST`. -/
theorem supported_iff {DA : Type} (deps : SubscriptionDeps DA) (t : String) :
    contains (supportedChannelTypes deps) t = true ↔ t = deps.EMAIL ∨ t = deps.REST := by
  simp [contains_iff, supportedChannelTypes]

/-- The channel loop returns no error exactly when every channel passes its own
validation and has a supported type. -/
theorem validateChannels_eq_nil_iff {DA : Type} (deps : SubscriptionDeps DA) (cs : List DA) :
    validateChannels deps cs = Err.nil ↔
      ∀ c ∈ cs, deps.AddressValidate c = Err.nil
        ∧ (deps.AddressType c = deps.EMAIL ∨ deps.AddressType c = deps.REST) := by
  induction cs with
  | nil => simp [validateChannels]
  | cons c rest ih =>
    unfold validateChannels
    by_cases hv : deps.AddressValidate c = Err.nil
    · by_cases ht : contains (supportedChannelTypes deps) (deps.AddressType c) = true
      · have ht' := (supported_iff deps _).mp ht
        simp [hv, ht, ih, ht']
      · have ht' : ¬ (deps.AddressType c = deps.EMAIL ∨ deps.AddressType c = deps.REST) :=
          fun e => ht ((supported_iff deps _).mpr e)
        simp [hv, ht, ht', NewCommonEdgeX]
    · simp [hv, NewCommonEdgeXWrapper]

/-- The channel loop is decided by the first channel that fails its own validation
or has an unsupported type: the channels before it do not count. -/
theorem validateChannels_first {DA : Type} (deps : SubscriptionDeps DA)
    (pre : List DA) (c : DA) (post : List DA)
    (hpre : ∀ x ∈ pre, deps.AddressValidate x = Err.nil
      ∧ (deps.AddressType x = deps.EMAIL ∨ deps.AddressType x = deps.REST)) :
    validateChannels deps (pre ++ c :: post) = validateChannels deps (c :: post) := by
  induction pre with
  | nil => rfl
  | cons x rest ih =>
    have hx := hpre x (List.mem_cons_self _ _)
    have ht : contains (supportedChannelTypes deps) (deps.AddressType x) = true :=
      (supported_iff deps _).mpr hx.2
    rw [List.cons_append, validateChannels]
    simp only [hx.1, ht, ne_eq, not_true_eq_false, if_false, Bool.not_true]
    exact ih (fun y hy => hpre y (List.mem_cons_of_mem _ hy))

/-- C16: subscription channels are restricted to the supported types.
`AddSubscriptionRequest.Validate` and `UpdateSubscriptionRequest.Validate` return
no error only if every channel's type is `EMAIL` or `REST`, so a request holding a
channel of another type is rejected; and the channels are checked in list order:
when struct validation passes and the first channel that fails its own validation
or has an unsupported type passes its own validation, the result is the
`KindContractInvalid` error for the channel type. -/
theorem Validate_supported_channel_types {DA : Type} (deps : SubscriptionDeps DA)
    (validateAdd : AddSubscriptionRequest DA → Err)
    (add : AddSubscriptionRequest DA) (upd : UpdateSubscriptionRequest DA) :
    ((AddSubscriptionRequest.Validate deps validateAdd add = Err.nil →
        ∀ c ∈ add.Subscription.Channels.getD [],
          deps.AddressType c = deps.EMAIL ∨ deps.AddressType c = deps.REST)
      ∧ (UpdateSubscriptionRequest.Validate deps upd = Err.nil →
        ∀ c ∈ upd.Subscription.Channels.getD [],
          deps.AddressType c = deps.EMAIL ∨ deps.AddressType c = deps.REST))
    ∧ ((∀ c ∈ add.Subscription.Channels.getD [],
          ¬ (deps.AddressType c = deps.EMAIL ∨ deps.AddressType c = deps.REST) →
          AddSubscriptionRequest.Validate deps validateAdd add ≠ Err.nil)
      ∧ (∀ c ∈ upd.Subscription.Channels.getD [],
          ¬ (deps.AddressType c = deps.EMAIL ∨ deps.AddressType c = deps.REST) →
          UpdateSubscriptionRequest.Validate deps upd ≠ Err.nil))
    ∧ (∀ (pre post : List DA) (c : DA),
        (∀ x ∈ pre, deps.AddressValidate x = Err.nil
          ∧ (deps.AddressType x = deps.EMAIL ∨ deps.AddressType x = deps.REST)) →
        deps.AddressValidate c = Err.nil →
        ¬ (deps.AddressType c = deps.EMAIL ∨ deps.AddressType c = deps.REST) →
        (validateAdd add = Err.nil → add.Subscription.Channels.getD [] = pre ++ c :: post →
          AddSubscriptionRequest.Validate deps validateAdd add
            = NewCommonEdgeX ErrKind.KindContractInvalid
                "MQTT is not valid type for Channel" Err.nil)
        ∧ (deps.Validate upd = Err.nil →
          upd.Subscription.Channels.getD [] = pre ++ c :: post →
          UpdateSubscriptionRequest.Validate deps upd
            = NewCommonEdgeX ErrKind.KindContractInvalid
                "MQTT is not valid type for Channel" Err.nil)) := by
  have hadd : AddSubscriptionRequest.Validate deps validateAdd add = Err.nil →
      ∀ c ∈ add.Subscription.Channels.getD [],
        deps.AddressType c = deps.EMAIL ∨ deps.AddressType c = deps.REST := by
    intro h c hc
    unfold AddSubscriptionRequest.Validate at h
    by_cases hs : validateAdd add = Err.nil
    · simp only [hs, ne_eq, not_true_eq_false, if_false] at h
      exact ((validateChannels_eq_nil_iff deps _).mp h c hc).2
    · simp [hs, NewCommonEdgeXWrapper] at h
  have hupd : UpdateSubscriptionRequest.Validate deps upd = Err.nil →
      ∀ c ∈ upd.Subscription.Channels.getD [],
        deps.AddressType c = deps.EMAIL ∨ deps.AddressType c = deps.REST := by
    intro h c hc
    unfold UpdateSubscriptionRequest.Validate at h
    by_cases hs : deps.Validate upd = Err.nil
    · simp only [hs, ne_eq, not_true_eq_false, if_false] at h
      by_cases hch : validateChannels deps (upd.Subscription.Channels.getD []) = Err.nil
      · exact ((validateChannels_eq_nil_iff deps _).mp hch c hc).2
      · simp only [hch, ne_eq, not_false_eq_true, if_true] at h
    · simp [hs, NewCommonEdgeXWrapper] at h
  have hfirst : ∀ (pre post : List DA) (c : DA),
      (∀ x ∈ pre, deps.AddressValidate x = Err.nil
        ∧ (deps.AddressType x = deps.EMAIL ∨ deps.AddressType x = deps.REST)) →
      deps.AddressValidate c = Err.nil →
      ¬ (deps.AddressType c = deps.EMAIL ∨ deps.AddressType c = deps.REST) →
      validateChannels deps (pre ++ c :: post)
        = NewCommonEdgeX ErrKind.KindContractInvalid
            "MQTT is not valid type for Channel" Err.nil := by
    intro pre post c hpre hv ht
    rw [validateChannels_first deps pre c post hpre, validateChannels]
    have ht' : contains (supportedChannelTypes deps) (deps.AddressType c) = false := by
      cases hcon : contains (supportedChannelTypes deps) (deps.AddressType c) with
      | false => rfl
      | true => exact absurd ((supported_iff deps _).mp hcon) ht
    simp [hv, ht']
  refine ⟨⟨hadd, hupd⟩, ⟨?_, ?_⟩, ?_⟩
  · intro c hc ht h
    exact ht (hadd h c hc)
  · intro c hc ht h
    exact ht (hupd h c hc)
  · intro pre post c hpre hv ht
    refine ⟨?_, ?_⟩
    · intro hs hcs
      unfold AddSubscriptionRequest.Validate
      simp only [hs, ne_eq, not_true_eq_false, if_false, hcs]
      exact hfirst pre post c hpre hv ht
    · intro hs hcs
      unfold UpdateSubscriptionRequest.Validate
      have hne : validateChannels deps (pre ++ c :: post) ≠ Err.nil := by
        rw [hfirst pre post c hpre hv ht]
        simp [NewCommonEdgeX]
      simp only [hs, ne_eq, not_true_eq_false, if_false, hcs, hne, not_false_eq_true,
        if_true]
      exact hfirst pre post c hpre hv ht

end requests

namespace requests

open errors

/-- The reading loop returns no error exactly when every reading passes. -/
theorem validateReadings_eq_nil_iff (RV : dtos.BaseReading → Err)
    (rs : List dtos.BaseReading) :
    validateReadings RV rs = Err.nil ↔ ∀ r ∈ rs, RV r = Err.nil := by
  induction rs with
  | nil => simp [validateReadings]
  | cons r rest ih =>
    unfold validateReadings
    by_cases h : RV r = Err.nil
    · simp [h, ih]
    · simp [h]

/-- The reading loop returns the error of the first reading that fails. -/
theorem validateReadings_first (RV : dtos.BaseReading → Err)
    (pre : List dtos.BaseReading) (r : dtos.BaseReading) (post : List dtos.BaseReading)
    (hpre : ∀ x ∈ pre, RV x = Err.nil) (hr : RV r ≠ Err.nil) :
    validateReadings RV (pre ++ r :: post) = RV r := by
  induction pre with
  | nil => simp [validateReadings, hr]
  | cons x rest ih =>
    have hx := hpre x (List.mem_cons_self _ _)
    rw [List.cons_append, validateReadings]
    simp only [hx, ne_eq, not_true_eq_false, if_false]
    exact ih (fun y hy => hpre y (List.mem_cons_of_mem _ hy))

/-- C14: `AddEventRequest.Validate` also validates the nested readings. It returns
no error exactly when the struct-level validation passes and every reading's own
`Validate` passes; otherwise it returns the struct-level error if there is one,
else the error of the first failing reading in list order. With the reading
validation as modelled, a request that holds a binary reading with an empty binary
value or an empty media type, or a simple reading with an empty value, is
rejected. -/
theorem AddEventRequest_Validate_readings (deps : EventDeps) (a : AddEventRequest) :
    (AddEventRequest.Validate deps a = Err.nil ↔
        deps.Validate a = Err.nil
          ∧ ∀ r ∈ a.Event.Readings.getD [], deps.ReadingValidate r = Err.nil)
    ∧ (deps.Validate a ≠ Err.nil → AddEventRequest.Validate deps a = deps.Validate a)
    ∧ (deps.Validate a = Err.nil →
        ∀ (pre post : List dtos.BaseReading) (r : dtos.BaseReading),
          a.Event.Readings.getD [] = pre ++ r :: post →
          (∀ x ∈ pre, deps.ReadingValidate x = Err.nil) →
          deps.ReadingValidate r ≠ Err.nil →
          AddEventRequest.Validate deps a = deps.ReadingValidate r)
    ∧ (∀ binaryType, deps.ReadingValidate = dtos.BaseReading.Validate binaryType →
        ∀ r ∈ a.Event.Readings.getD [],
          ((r.ValueType = binaryType
              ∧ (Slice.len r.BinaryReading.BinaryValue = 0 ∨ r.BinaryReading.MediaType = ""))
            ∨ (r.ValueType ≠ binaryType ∧ r.SimpleReading.Value = "")) →
          AddEventRequest.Validate deps a ≠ Err.nil) := by
  have hiff : AddEventRequest.Validate deps a = Err.nil ↔
      deps.Validate a = Err.nil
        ∧ ∀ r ∈ a.Event.Readings.getD [], deps.ReadingValidate r = Err.nil := by
    unfold AddEventRequest.Validate
    by_cases hs : deps.Validate a = Err.nil
    · simp [hs, validateReadings_eq_nil_iff]
    · simp [hs]
  refine ⟨hiff, ?_, ?_, ?_⟩
  · intro hs
    simp [AddEventRequest.Validate, hs]
  · intro hs pre post r hrs hpre hr
    unfold AddEventRequest.Validate
    simp only [hs, ne_eq, not_true_eq_false, if_false, hrs]
    exact validateReadings_first deps.ReadingValidate pre r post hpre hr
  · intro binaryType hRV r hr hbad h
    have hok := (hiff.mp h).2 r hr
    rw [hRV] at hok
    unfold dtos.BaseReading.Validate at hok
    rcases hbad with ⟨hb, hempty | hmedia⟩ | ⟨hs, hval⟩
    · simp [hb, hempty] at hok
    · by_cases hlen : Slice.len r.BinaryReading.BinaryValue = 0
      · simp [hb, hlen] at hok
      · simp [hb, hlen, hmedia] at hok
    · simp [hs, hval] at hok

end requests

namespace requests

open errors

/-- Readings whose value types are already canonical are left as they are by the
normalizing loop, which returns no error. -/
theorem normalizeReadings_of_canonical (N : String → Except Err String)
    (rs : List dtos.BaseReading) (h : ∀ r ∈ rs, N r.ValueType = Except.ok r.ValueType) :
    normalizeReadings N rs = (rs, Err.nil) := by
  induction rs with
  | nil => rfl
  | cons r rest ih =>
    have hr := h r (List.mem_cons_self _ _)
    have hrest := ih (fun x hx => h x (List.mem_cons_of_mem _ hx))
    unfold normalizeReadings
    simp only [hr, hrest]

/-- A decoded request that is valid and whose value types are canonical is what
`Unmarshal` returns, with no error. -/
theorem Unmarshal_of_canonical (deps : EventDeps) (a d : AddEventRequest) (b : Bytes)
    (f : Bytes → Except Err AddEventRequest) (hf : f b = Except.ok d)
    (hvalid : AddEventRequest.Validate deps d = Err.nil)
    (hcanon : ∀ r ∈ d.Event.Readings.getD [],
      deps.NormalizeValueType r.ValueType = Except.ok r.ValueType) :
    AddEventRequest.Unmarshal deps a b f = (d, Err.nil) := by
  unfold AddEventRequest.Unmarshal
  simp only [hf, hvalid, ne_eq, not_true_eq_false, if_false]
  obtain ⟨base, ev⟩ := d
  obtain ⟨id, dn, pn, sn, o, rs, t⟩ := ev
  cases rs with
  | none => rfl
  | some l =>
    have hl := normalizeReadings_of_canonical deps.NormalizeValueType l
      (by simpa using hcanon)
    simp only [hl]

/-- When `Unmarshal` returns no error, the decoder succeeded and `Validate`
returned no error on the decoded request. -/
theorem Unmarshal_decoded_valid (deps : EventDeps) (a : AddEventRequest) (b : Bytes)
    (f : Bytes → Except Err AddEventRequest)
    (h : (AddEventRequest.Unmarshal deps a b f).2 = Err.nil) :
    ∃ d, f b = Except.ok d ∧ AddEventRequest.Validate deps d = Err.nil := by
  unfold AddEventRequest.Unmarshal at h
  cases hf : f b with
  | error e => simp [hf, NewCommonEdgeX] at h
  | ok d =>
    refine ⟨d, rfl, ?_⟩
    by_contra hv
    simp [hf, hv] at h

/-- C13 fails as stated for events: with the reading validation as modelled,
`Unmarshal` returns no error on an input whose reading is spelled `binary` and
carries a value but no binary value, and `Validate` rejects the request it
returns, in which the value type has become `Binary`. -/
theorem Unmarshal_result_not_validated :
    (AddEventRequest.Unmarshal binaryEventDeps (exampleAddEventRequest "") (some [1])
        decodeLowerBinary).2 = Err.nil
    ∧ AddEventRequest.Validate binaryEventDeps
        (AddEventRequest.Unmarshal binaryEventDeps (exampleAddEventRequest "") (some [1])
          decodeLowerBinary).1 ≠ Err.nil := by
  constructor <;> decide

/-- C13, amended: a subscription request obtained from a successful
`UnmarshalJSON` is valid; for events, a successful `Unmarshal` means that the
decoder succeeded and `Validate` returned no error on the decoded request, before
normalization, and the request returned is that request, and valid, when its
readings' value types were already canonical. -/
theorem Unmarshal_validated {DA : Type} (deps : EventDeps) (sdeps : SubscriptionDeps DA)
    (validateAdd : AddSubscriptionRequest DA → Err)
    (f : Bytes → Except Err AddEventRequest)
    (fa : Bytes → Except Err (AddSubscriptionRequest DA))
    (fu : Bytes → Except Err (UpdateSubscriptionRequest DA))
    (a : AddEventRequest) (ra : AddSubscriptionRequest DA)
    (ru : UpdateSubscriptionRequest DA) (b : Bytes) :
    ((AddSubscriptionRequest.UnmarshalJSON sdeps validateAdd fa ra b).2 = Err.nil →
        AddSubscriptionRequest.Validate sdeps validateAdd
          (AddSubscriptionRequest.UnmarshalJSON sdeps validateAdd fa ra b).1 = Err.nil)
    ∧ ((UpdateSubscriptionRequest.UnmarshalJSON sdeps fu ru b).2 = Err.nil →
        UpdateSubscriptionRequest.Validate sdeps
          (UpdateSubscriptionRequest.UnmarshalJSON sdeps fu ru b).1 = Err.nil)
    ∧ ((AddEventRequest.Unmarshal deps a b f).2 = Err.nil →
        ∃ d, f b = Except.ok d ∧ AddEventRequest.Validate deps d = Err.nil
          ∧ ((∀ r ∈ d.Event.Readings.getD [],
                deps.NormalizeValueType r.ValueType = Except.ok r.ValueType) →
              (AddEventRequest.Unmarshal deps a b f).1 = d
              ∧ AddEventRequest.Validate deps (AddEventRequest.Unmarshal deps a b f).1
                  = Err.nil)) := by
  refine ⟨?_, ?_, ?_⟩
  · intro h
    unfold AddSubscriptionRequest.UnmarshalJSON at h ⊢
    cases hf : fa b with
    | error e => simp [hf, NewCommonEdgeX] at h
    | ok d =>
      simp only [hf] at h ⊢
      by_cases hv : AddSubscriptionRequest.Validate sdeps validateAdd d = Err.nil
      · simp [hv]
      · simp [hv, NewCommonEdgeXWrapper] at h
  · intro h
    unfold UpdateSubscriptionRequest.UnmarshalJSON at h ⊢
    cases hf : fu b with
    | error e => simp [hf, NewCommonEdgeX] at h
    | ok d =>
      simp only [hf] at h ⊢
      by_cases hv : UpdateSubscriptionRequest.Validate sdeps d = Err.nil
      · simp [hv]
      · simp [hv, NewCommonEdgeXWrapper] at h
  · intro h
    obtain ⟨d, hf, hv⟩ := Unmarshal_decoded_valid deps a b f h
    refine ⟨d, hf, hv, ?_⟩
    intro hcanon
    rw [Unmarshal_of_canonical deps a d b f hf hv hcanon]
    exact ⟨rfl, hv⟩

end requests

namespace requests

open errors

/-- When `Unmarshal` yields a request without error, that request has the envelope
and the event fields, the readings apart, that the decoder read. -/
theorem Unmarshal_keeps_other_fields (deps : EventDeps) (a d x : AddEventRequest)
    (b : Bytes) (f : Bytes → Except Err AddEventRequest) (hf : f b = Except.ok d)
    (h : AddEventRequest.Unmarshal deps a b f = (x, Err.nil)) :
    x.BaseRequest = d.BaseRequest
      ∧ { x.Event with Readings := none } = { d.Event with Readings := none } := by
  unfold AddEventRequest.Unmarshal at h
  simp only [hf] at h
  by_cases hv : AddEventRequest.Validate deps d = Err.nil
  · simp only [hv, ne_eq, not_true_eq_false, if_false] at h
    cases hr : d.Event.Readings with
    | none =>
      simp only [hr, Prod.mk.injEq, and_true] at h
      subst h
      exact ⟨rfl, rfl⟩
    | some rs =>
      simp only [hr, Prod.mk.injEq] at h
      rw [← h.1]
      exact ⟨rfl, rfl⟩
  · simp only [hv, ne_eq, not_false_eq_true, if_true, Prod.mk.injEq] at h
    exact h.2.elim

/-- When the decoder reads the request `x` from the bytes, `UnmarshalJSON` yields
`x` and no error exactly when `x` passes validation and its readings' value types
are canonical. -/
theorem UnmarshalJSON_of_read (deps : EventDeps)
    (jsonUnmarshal : Bytes → Except Err AddEventRequest) (x a : AddEventRequest)
    (b : Bytes) (hcodec : jsonUnmarshal b = Except.ok x) :
    (AddEventRequest.Validate deps x = Err.nil
        ∧ ∀ r ∈ x.Event.Readings.getD [],
            deps.NormalizeValueType r.ValueType = Except.ok r.ValueType) ↔
      AddEventRequest.UnmarshalJSON deps jsonUnmarshal a b = (x, Err.nil) := by
  constructor
  · rintro ⟨hv, hcanon⟩
    exact Unmarshal_of_canonical deps a x b jsonUnmarshal hcodec hv hcanon
  · intro h
    have h2 : (AddEventRequest.Unmarshal deps a b jsonUnmarshal).2 = Err.nil := by
      have := congrArg Prod.snd h
      simpa [AddEventRequest.UnmarshalJSON] using this
    have h1 : (AddEventRequest.Unmarshal deps a b jsonUnmarshal).1 = x := by
      have := congrArg Prod.fst h
      simpa [AddEventRequest.UnmarshalJSON] using this
    obtain ⟨d, hd, hv⟩ := Unmarshal_decoded_valid deps a b jsonUnmarshal h2
    have hdx : d = x := by
      rw [hcodec] at hd
      injection hd with hd'
      exact hd'.symm
    subst hdx
    refine ⟨hv, ?_⟩
    unfold AddEventRequest.Unmarshal at h1 h2
    simp only [hcodec, hv, ne_eq, not_true_eq_false, if_false] at h1 h2
    cases hr : d.Event.Readings with
    | none => simp
    | some rs =>
      simp only [hr] at h1 h2
      have hok := normalizeReadings_ok deps.NormalizeValueType rs h2
      have hsame : (normalizeReadings deps.NormalizeValueType rs).1 = rs := by
        have hE := congrArg (fun q : AddEventRequest => q.Event.Readings) h1
        simp only [hr, Option.some.injEq] at hE
        exact hE
      rw [hsame] at hok
      intro r hmem
      have hmem' : r ∈ rs := by simpa using hmem
      have := (List.forall₂_same.mp hok) r hmem'
      exact this.1

/-- A request is read back as it was exactly when its tags are read back as they
were. -/
theorem readBack_eq_of_tags (x : AddEventRequest)
    (h : (readBack x).Event.Tags = x.Event.Tags) : readBack x = x := by
  unfold readBack at h ⊢
  cases ht : x.Event.Tags with
  | none => rfl
  | some t =>
    by_cases hc : t.keys.card = 0
    · simp [ht, hc] at h
    · simp [hc]

/-- The sample codec reads back from every encoding it gives what `readBack`
describes. -/
theorem sampleUnmarshal_sampleMarshal (y : AddEventRequest) (e : List UInt8)
    (h : sampleMarshal y = Except.ok e) :
    sampleUnmarshal (some e) = Except.ok (readBack y) := by
  unfold sampleMarshal at h
  by_cases hy : readBack y = exampleAddEventRequest "Uint8"
  · rw [if_pos hy] at h
    injection h with he
    subst he
    rw [hy]
    rfl
  · rw [if_neg hy] at h
    exact Except.noConfusion h

/-- C12 fails as stated: the sample request with canonical value types and a
non-nil empty map of tags passes validation and has an encoding, and
`UnmarshalJSON` on the encoding, which a codec with `omitempty` tags reads back
with nil tags, returns no error and a request that is not the one encoded. -/
theorem UnmarshalJSON_loses_empty_tags :
    AddEventRequest.Validate exampleEventDeps emptyTagsRequest = Err.nil
    ∧ (∀ r ∈ emptyTagsRequest.Event.Readings.getD [],
        exampleEventDeps.NormalizeValueType r.ValueType = Except.ok r.ValueType)
    ∧ sampleMarshal emptyTagsRequest = Except.ok [123, 125]
    ∧ sampleUnmarshal (some [123, 125]) = Except.ok (readBack emptyTagsRequest)
    ∧ (AddEventRequest.UnmarshalJSON exampleEventDeps sampleUnmarshal
        (exampleAddEventRequest "") (some [123, 125])).2 = Err.nil
    ∧ (AddEventRequest.UnmarshalJSON exampleEventDeps sampleUnmarshal
        (exampleAddEventRequest "") (some [123, 125])).1 ≠ emptyTagsRequest := by
  refine ⟨by decide, ?_, rfl, rfl, by decide, ?_⟩
  · intro r hr
    simp only [emptyTagsRequest, exampleAddEventRequest, Option.getD_some,
      List.mem_singleton] at hr
    subst hr
    rfl
  · intro h
    have ht := congrArg (fun q : AddEventRequest => q.Event.Tags.isSome) h
    revert ht
    decide

/-- C12, amended: decode undoes encode for the valid requests that the JSON codec
reads back. For every request `x` with an encoding `enc`: when the decoder reads
from `enc` what an encoding that leaves out empty tags holds (`readBack x`),
`AddEventRequest.UnmarshalJSON` on `enc` yields `x` and no error exactly when `x`
passes validation, its readings' value types are canonical and its tags are nil
or have an entry; when the decoder reads `x` itself back, exactly when `x` passes
validation and its readings' value types are canonical; when the decoder fails
on `enc`, or reads back a request that differs from `x` in the envelope or in an
event field other than the readings, `UnmarshalJSON` does not yield `x`. The
`UnmarshalJSON` of the two device-service requests yields `y` and no error
exactly when the decoder reads `y` back and `y` passes validation. -/
theorem UnmarshalJSON_undoes_encode_when_read_back (deps : EventDeps)
    (jsonMarshal : AddEventRequest → Except Err (List UInt8))
    (jsonUnmarshal : Bytes → Except Err AddEventRequest) (x a : AddEventRequest)
    (enc : List UInt8) (henc : jsonMarshal x = Except.ok enc) :
    (jsonUnmarshal (some enc) = Except.ok (readBack x) →
      (AddEventRequest.UnmarshalJSON deps jsonUnmarshal a (some enc) = (x, Err.nil) ↔
        AddEventRequest.Validate deps x = Err.nil
          ∧ (∀ r ∈ x.Event.Readings.getD [],
              deps.NormalizeValueType r.ValueType = Except.ok r.ValueType)
          ∧ ∀ tags, x.Event.Tags = some tags → tags.keys.card ≠ 0))
    ∧ (jsonUnmarshal (some enc) = Except.ok x →
      ((AddEventRequest.Validate deps x = Err.nil
          ∧ ∀ r ∈ x.Event.Readings.getD [],
              deps.NormalizeValueType r.ValueType = Except.ok r.ValueType) ↔
        AddEventRequest.UnmarshalJSON deps jsonUnmarshal a (some enc) = (x, Err.nil)))
    ∧ (∀ d, jsonUnmarshal (some enc) = Except.ok d →
        (d.BaseRequest ≠ x.BaseRequest
          ∨ { d.Event with Readings := none } ≠ { x.Event with Readings := none }) →
        AddEventRequest.UnmarshalJSON deps jsonUnmarshal a (some enc) ≠ (x, Err.nil))
    ∧ (∀ err, jsonUnmarshal (some enc) = Except.error err →
        AddEventRequest.UnmarshalJSON deps jsonUnmarshal a (some enc) ≠ (x, Err.nil))
    ∧ (∀ (validate : AddDeviceServiceRequest → Err)
        (marshal : AddDeviceServiceRequest → Except Err (List UInt8))
        (decode : Bytes → Except Err AddDeviceServiceRequest)
        (y r : AddDeviceServiceRequest) (e : List UInt8), marshal y = Except.ok e →
        (AddDeviceServiceRequest.UnmarshalJSON validate decode r (some e) = (y, Err.nil) ↔
          decode (some e) = Except.ok y ∧ validate y = Err.nil))
    ∧ (∀ (validate : UpdateDeviceServiceRequest → Err)
        (marshal : UpdateDeviceServiceRequest → Except Err (List UInt8))
        (decode : Bytes → Except Err UpdateDeviceServiceRequest)
        (y r : UpdateDeviceServiceRequest) (e : List UInt8), marshal y = Except.ok e →
        (UpdateDeviceServiceRequest.UnmarshalJSON validate decode r (some e) = (y, Err.nil) ↔
          decode (some e) = Except.ok y ∧ validate y = Err.nil)) := by
  have _ := henc
  refine ⟨?_, ?_, ?_, ?_, ?_, ?_⟩
  · intro hback
    constructor
    · intro h
      have hk := Unmarshal_keeps_other_fields deps a (readBack x) x (some enc)
        jsonUnmarshal hback (by simpa [AddEventRequest.UnmarshalJSON] using h)
      have htags : (readBack x).Event.Tags = x.Event.Tags :=
        (congrArg (fun e : dtos.Event => e.Tags) hk.2).symm
      have hrb := readBack_eq_of_tags x htags
      rw [hrb] at hback
      have hvc := (UnmarshalJSON_of_read deps jsonUnmarshal x a (some enc) hback).mpr h
      refine ⟨hvc.1, hvc.2, ?_⟩
      intro tags ht hc
      have hnone : (readBack x).Event.Tags = none := by
        unfold readBack
        simp [ht, hc]
      rw [hrb, ht] at hnone
      exact Option.noConfusion hnone
    · rintro ⟨hv, hcanon, htags⟩
      have hrb : readBack x = x := by
        unfold readBack
        cases ht : x.Event.Tags with
        | none => rfl
        | some t => simp [htags t ht]
      rw [hrb] at hback
      exact (UnmarshalJSON_of_read deps jsonUnmarshal x a (some enc) hback).mp ⟨hv, hcanon⟩
  · intro hcodec
    exact UnmarshalJSON_of_read deps jsonUnmarshal x a (some enc) hcodec
  · intro d hd hdiff h
    have hk := Unmarshal_keeps_other_fields deps a d x (some enc) jsonUnmarshal hd
      (by simpa [AddEventRequest.UnmarshalJSON] using h)
    rcases hdiff with hb | he
    · exact hb hk.1.symm
    · exact he hk.2.symm
  · intro err herr h
    have h2 := congrArg Prod.snd h
    simp [AddEventRequest.UnmarshalJSON, AddEventRequest.Unmarshal, herr,
      NewCommonEdgeX] at h2
  · intro validate marshal decode y r e _
    unfold AddDeviceServiceRequest.UnmarshalJSON
    cases hd : decode (some e) with
    | error err => simp [NewCommonEdgeX]
    | ok d =>
      by_cases hv : validate d = Err.nil
      · simp only [hv, ne_eq, not_true_eq_false, if_false, Prod.mk.injEq, and_true,
          Except.ok.injEq]
        constructor
        · intro h
          exact ⟨h, by rw [← h]; exact hv⟩
        · intro h
          exact h.1
      · simp only [hv, ne_eq, not_false_eq_true, if_true, Prod.mk.injEq, Except.ok.injEq]
        constructor
        · intro h
          exact absurd h.2 (by simp [NewCommonEdgeXWrapper])
        · intro h
          exact absurd (h.1 ▸ h.2) hv
  · intro validate marshal decode y r e _
    unfold UpdateDeviceServiceRequest.UnmarshalJSON
    cases hd : decode (some e) with
    | error err => simp [NewCommonEdgeX]
    | ok d =>
      by_cases hv : validate d = Err.nil
      · simp only [hv, ne_eq, not_true_eq_false, if_false, Prod.mk.injEq, and_true,
          Except.ok.injEq]
        constructor
        · intro h
          exact ⟨h, by rw [← h]; exact hv⟩
        · intro h
          exact h.1
      · simp only [hv, ne_eq, not_false_eq_true, if_true, Prod.mk.injEq, Except.ok.injEq]
        constructor
        · intro h
          exact absurd h.2 (by simp [NewCommonEdgeXWrapper])
        · intro h
          exact absurd (h.1 ▸ h.2) hv

/-- The witness of `UnmarshalJSON_undoes_encode_when_read_back`: the sample request
with the canonical spelling `Uint8` and nil tags is what the sample codec reads
back from its encoding and what `UnmarshalJSON` yields. -/
theorem UnmarshalJSON_undoes_encode_when_read_back_witness :
    sampleMarshal (exampleAddEventRequest "Uint8") = Except.ok [123, 125]
    ∧ AddEventRequest.UnmarshalJSON exampleEventDeps sampleUnmarshal
        (exampleAddEventRequest "") (some [123, 125])
      = (exampleAddEventRequest "Uint8", Err.nil) :=
  ⟨rfl,
    ((UnmarshalJSON_undoes_encode_when_read_back exampleEventDeps sampleMarshal
      sampleUnmarshal (exampleAddEventRequest "Uint8") (exampleAddEventRequest "")
      [123, 125] rfl).1 rfl).mpr
      ⟨by decide, by
        intro r hr
        simp only [exampleAddEventRequest, Option.getD_some, List.mem_singleton] at hr
        subst hr
        rfl, by
        intro tags ht
        exact Option.noConfusion ht⟩⟩

end requests

namespace requests

open errors

/-- What the copying loop has stored after visiting the keys `s` of `src`: the
value of `src` under a visited key, the old value under any other key. -/
theorem lookup_foldl_putTag (src : Finmap (fun _ : String => String))
    (s : Multiset String) (hs : ∀ k ∈ s, k ∈ src)
    (tags : Finmap (fun _ : String => String)) (k : String) :
    (Multiset.foldl (putTag src) tags s).lookup k
      = if k ∈ s then src.lookup k else tags.lookup k := by
  induction s using Multiset.induction_on generalizing tags with
  | empty => simp
  | cons a s ih =>
    rw [Multiset.foldl_cons, ih (fun x hx => hs x (Multiset.mem_cons_of_mem hx))]
    have ha : a ∈ src := hs a (Multiset.mem_cons_self a s)
    obtain ⟨v, hv⟩ := Option.isSome_iff_exists.mp (Finmap.lookup_isSome.mpr ha)
    by_cases hks : k ∈ s
    · simp [hks]
    · by_cases hka : k = a
      · subst hka
        simp [hks, putTag, hv, Finmap.lookup_insert]
      · simp [hks, hka, putTag, hv, Finmap.lookup_insert_of_ne _ hka]

/-- The copying loop rebuilds the map it ranges over. -/
theorem copyTags_eq (src : Finmap (fun _ : String => String)) : copyTags src = src := by
  apply Finmap.ext_lookup
  intro k
  unfold copyTags
  rw [lookup_foldl_putTag src src.keys.val (fun x hx => Finmap.mem_keys.mp hx) ∅ k]
  by_cases hk : k ∈ src
  · have : k ∈ src.keys.val := Finmap.mem_keys.mpr hk
    simp [this]
  · have hn : ¬ k ∈ src.keys.val := fun h => hk (Finmap.mem_keys.mp h)
    simp [hn, Finmap.lookup_eq_none.mpr hk]

/-- C17: `AddEventReqToEventModel` transforms the request into the Event model
faithfully. Id, DeviceName, ProfileName, SourceName and Origin are the DTO's; the
readings are a non-nil slice of the same length whose i-th element is
`ToReadingModel` of the i-th DTO reading; and the tags are a non-nil map holding
exactly the DTO's key/value pairs, the empty map when the DTO has no tags. -/
theorem AddEventReqToEventModel_faithful {MR : Type}
    (ToReadingModel : dtos.BaseReading → MR) (req : AddEventRequest) :
    ((AddEventReqToEventModel ToReadingModel req).Id = req.Event.Id
      ∧ (AddEventReqToEventModel ToReadingModel req).DeviceName = req.Event.DeviceName
      ∧ (AddEventReqToEventModel ToReadingModel req).ProfileName = req.Event.ProfileName
      ∧ (AddEventReqToEventModel ToReadingModel req).SourceName = req.Event.SourceName
      ∧ (AddEventReqToEventModel ToReadingModel req).Origin = req.Event.Origin)
    ∧ (∃ readings, (AddEventReqToEventModel ToReadingModel req).Readings = some readings
        ∧ readings.length = Slice.len req.Event.Readings
        ∧ ∀ i : Nat, readings[i]? = ((req.Event.Readings.getD [])[i]?).map ToReadingModel)
    ∧ (∃ tags, (AddEventReqToEventModel ToReadingModel req).Tags = some tags
        ∧ tags = req.Event.Tags.getD ∅
        ∧ (∀ k, tags.lookup k = (req.Event.Tags.getD ∅).lookup k)
        ∧ (req.Event.Tags = none → tags = ∅)) := by
  refine ⟨⟨rfl, rfl, rfl, rfl, rfl⟩, ⟨_, rfl, ?_, ?_⟩, ?_⟩
  · cases h : req.Event.Readings <;> simp [Slice.len]
  · intro i
    simp [List.getElem?_map]
  · have htags : (match req.Event.Tags with
        | none => (∅ : Finmap (fun _ : String => String))
        | some src => copyTags src) = req.Event.Tags.getD ∅ := by
      cases h : req.Event.Tags with
      | none => rfl
      | some src => simp [copyTags_eq]
    refine ⟨_, rfl, htags, ?_, ?_⟩
    · intro k
      rw [htags]
    · intro hnone
      rw [htags, hnone]
      rfl

end requests

namespace dtos

/-- C18, what the code does: `FromProvisionWatcherModelToDTO` copies the model's
fields one for one and leaves `Versionable.ApiVersion` empty, so the DTO does not
carry the API version constant `v2`, nor any non-empty one. -/
theorem FromProvisionWatcherModelToDTO_no_version {DAE MAE : Type}
    (conv : Slice MAE → Slice DAE) (pw : models.ProvisionWatcher MAE) :
    (FromProvisionWatcherModelToDTO conv pw).Versionable.ApiVersion = ""
    ∧ (FromProvisionWatcherModelToDTO conv pw).Versionable.ApiVersion ≠ "v2"
    ∧ (∀ apiVersion : String, apiVersion ≠ "" →
        (FromProvisionWatcherModelToDTO conv pw).Versionable.ApiVersion ≠ apiVersion)
    ∧ ((FromProvisionWatcherModelToDTO conv pw).Id = pw.Id
      ∧ (FromProvisionWatcherModelToDTO conv pw).Name = pw.Name
      ∧ (FromProvisionWatcherModelToDTO conv pw).Labels = pw.Labels
      ∧ (FromProvisionWatcherModelToDTO conv pw).Identifiers = pw.Identifiers
      ∧ (FromProvisionWatcherModelToDTO conv pw).BlockingIdentifiers
          = pw.BlockingIdentifiers
      ∧ (FromProvisionWatcherModelToDTO conv pw).ProfileName = pw.ProfileName
      ∧ (FromProvisionWatcherModelToDTO conv pw).ServiceName = pw.ServiceName
      ∧ (FromProvisionWatcherModelToDTO conv pw).AdminState = pw.AdminState
      ∧ (FromProvisionWatcherModelToDTO conv pw).AutoEvents = conv pw.AutoEvents) := by
  refine ⟨rfl, (by decide : ("" : String) ≠ "v2"), ?_,
    rfl, rfl, rfl, rfl, rfl, rfl, rfl, rfl, rfl⟩
  intro apiVersion h e
  exact h e.symm

end dtos

namespace dtos

/-- The DTO made from the sample provision watcher carries no API version. -/
theorem FromProvisionWatcherModelToDTO_example :
    (FromProvisionWatcherModelToDTO (fun (s : Slice Unit) => s)
      exampleProvisionWatcher).Versionable = { ApiVersion := "" } := rfl

end dtos

namespace operating

/-- C19: operating-state update validation. `Validate` returns no error exactly
when the operating state is `ENABLED` or `DISABLED`, and every error it returns is
an `ErrContractInvalid`; the four requests of `TestUpdateValidation` get the
verdicts the test expects. -/
theorem UpdateRequest_Validate_states (u : UpdateRequest) :
    ((UpdateRequest.Validate u).2 = V1Err.nil ↔
        u.OperatingState = "ENABLED" ∨ u.OperatingState = "DISABLED")
    ∧ ((UpdateRequest.Validate u).2 ≠ V1Err.nil →
        ∃ msg, (UpdateRequest.Validate u).2 = V1Err.ErrContractInvalid msg)
    ∧ ((UpdateRequest.Validate { OperatingState := "ENABLED" }).2 = V1Err.nil
      ∧ (UpdateRequest.Validate { OperatingState := "DISABLED" }).2 = V1Err.nil
      ∧ (UpdateRequest.Validate { OperatingState := "" }).2 ≠ V1Err.nil
      ∧ (UpdateRequest.Validate { OperatingState := "QWERTY" }).2 ≠ V1Err.nil) := by
  refine ⟨?_, ?_, by decide, by decide, by decide, by decide⟩
  · unfold UpdateRequest.Validate
    by_cases h : u.OperatingState = "ENABLED" ∨ u.OperatingState = "DISABLED"
    · simp [h]
    · simp [h]
  · intro hne
    unfold UpdateRequest.Validate at hne ⊢
    by_cases h : u.OperatingState = "ENABLED" ∨ u.OperatingState = "DISABLED"
    · simp [h] at hne
    · simp only [h, if_false]
      exact ⟨_, rfl⟩

end operating

namespace validation

/-- The validation of the target of an update DTO, rule by rule. -/
theorem validateUpdate_eq (isUUID : String → Bool) (Id Name : Option String)
    (others : Bool) :
    validateUpdate isUUID Id Name others
      = ((Id.isSome || Name.isSome)
          && (match Id with
              | none => true
              | some v => isUUID v)
          && (match Name with
              | none => true
              | some v => !blank v && unreserved v)
          && others) := by
  cases Id <;> cases Name <;> cases others <;>
    simp [validateUpdate, idRules, nameRules, Rule.passes, Bool.and_comm]

/-- C20 fails as stated: a request that gives only a Name, the non-blank name
`device/service`, and is otherwise valid does not pass validation, because the
name holds a reserved character. -/
theorem validateUpdate_nonblank_name_rejected :
    blank "device/service" = false
    ∧ validateUpdate exampleIsUUID none (some "device/service") true = false := by
  constructor <;> decide

/-- C20, amended: an update DTO must identify its target by Id or Name. For a
request that is otherwise valid, validation fails when both Id and Name are nil,
succeeds when only Id is given and is a UUID, succeeds when only Name is given and
is a non-blank name of unreserved characters, and fails when a given Id is not a
UUID or a given Name is blank or holds a reserved character. This is stated for
`UpdateProvisionWatcher`, whose tags the sources hold, and for
`UpdateDeviceService`, which the tests exercise. -/
theorem validateUpdate_target {DAE : Type} (isUUID : String → Bool)
    (w : dtos.UpdateProvisionWatcher DAE) (q : dtos.UpdateDeviceService) :
    ((w.Id = none → w.Name = none → validateUpdate isUUID w.Id w.Name true = false)
      ∧ (∀ id, w.Id = some id → w.Name = none → isUUID id = true →
          validateUpdate isUUID w.Id w.Name true = true)
      ∧ (∀ n, w.Id = none → w.Name = some n → blank n = false → unreserved n = true →
          validateUpdate isUUID w.Id w.Name true = true)
      ∧ (∀ id, w.Id = some id → isUUID id = false →
          validateUpdate isUUID w.Id w.Name true = false)
      ∧ (∀ n, w.Name = some n → (blank n = true ∨ unreserved n = false) →
          validateUpdate isUUID w.Id w.Name true = false))
    ∧ ((q.Id = none → q.Name = none → validateUpdate isUUID q.Id q.Name true = false)
      ∧ (∀ id, q.Id = some id → q.Name = none → isUUID id = true →
          validateUpdate isUUID q.Id q.Name true = true)
      ∧ (∀ n, q.Id = none → q.Name = some n → blank n = false → unreserved n = true →
          validateUpdate isUUID q.Id q.Name true = true)
      ∧ (∀ id, q.Id = some id → isUUID id = false →
          validateUpdate isUUID q.Id q.Name true = false)
      ∧ (∀ n, q.Name = some n → (blank n = true ∨ unreserved n = false) →
          validateUpdate isUUID q.Id q.Name true = false)) := by
  have key : ∀ (Id Name : Option String),
      (Id = none → Name = none → validateUpdate isUUID Id Name true = false)
      ∧ (∀ id, Id = some id → Name = none → isUUID id = true →
          validateUpdate isUUID Id Name true = true)
      ∧ (∀ n, Id = none → Name = some n → blank n = false → unreserved n = true →
          validateUpdate isUUID Id Name true = true)
      ∧ (∀ id, Id = some id → isUUID id = false →
          validateUpdate isUUID Id Name true = false)
      ∧ (∀ n, Name = some n → (blank n = true ∨ unreserved n = false) →
          validateUpdate isUUID Id Name true = false) := by
    intro Id Name
    refine ⟨?_, ?_, ?_, ?_, ?_⟩
    · intro h₁ h₂
      simp [validateUpdate_eq, h₁, h₂]
    · intro id h₁ h₂ hu
      simp [validateUpdate_eq, h₁, h₂, hu]
    · intro n h₁ h₂ hb hr
      simp [validateUpdate_eq, h₁, h₂, hb, hr]
    · intro id h₁ hu
      rw [validateUpdate_eq, h₁]
      simp [hu]
    · intro n h₂ hbad
      rw [validateUpdate_eq, h₂]
      rcases hbad with hb | hr
      · simp [hb]
      · simp [hr]
  exact ⟨key w.Id w.Name, key q.Id q.Name⟩

end validation

namespace responses

/-- C22: the response constructors build the common envelope and store the payload
untouched. For every request id, message, status code and payload, each of the
seven constructors returns a response whose `BaseResponse` is
`NewBaseResponse(requestId, message, statusCode)` and whose payload field is the
argument, the same slice for the multi variants. -/
theorem constructors_store_payload {DP DAE M : Type}
    (NewBaseResponse : String → String → Int → common.BaseResponse)
    (requestId message : String) (statusCode : Int)
    (reading : dtos.BaseReading) (readings : Slice dtos.BaseReading)
    (deviceProfile : DP) (deviceProfiles : Slice DP)
    (pw : dtos.ProvisionWatcher DAE) (pws : Slice (dtos.ProvisionWatcher DAE))
    (metrics : M) :
    ((NewReadingResponse NewBaseResponse requestId message statusCode reading).BaseResponse
        = NewBaseResponse requestId message statusCode
      ∧ (NewReadingResponse NewBaseResponse requestId message statusCode reading).Reading
        = reading)
    ∧ ((NewMultiReadingsResponse NewBaseResponse requestId message statusCode
          readings).BaseResponse = NewBaseResponse requestId message statusCode
      ∧ (NewMultiReadingsResponse NewBaseResponse requestId message statusCode
          readings).Readings = readings)
    ∧ ((NewDeviceProfileResponse NewBaseResponse requestId message statusCode
          deviceProfile).BaseResponse = NewBaseResponse requestId message statusCode
      ∧ (NewDeviceProfileResponse NewBaseResponse requestId message statusCode
          deviceProfile).Profile = deviceProfile)
    ∧ ((NewMultiDeviceProfilesResponse NewBaseResponse requestId message statusCode
          deviceProfiles).BaseResponse = NewBaseResponse requestId message statusCode
      ∧ (NewMultiDeviceProfilesResponse NewBaseResponse requestId message statusCode
          deviceProfiles).Profiles = deviceProfiles)
    ∧ ((NewProvisionWatcherResponse NewBaseResponse requestId message statusCode
          pw).BaseResponse = NewBaseResponse requestId message statusCode
      ∧ (NewProvisionWatcherResponse NewBaseResponse requestId message statusCode
          pw).ProvisionWatcher = pw)
    ∧ ((NewMultiProvisionWatchersResponse NewBaseResponse requestId message statusCode
          pws).BaseResponse = NewBaseResponse requestId message statusCode
      ∧ (NewMultiProvisionWatchersResponse NewBaseResponse requestId message statusCode
          pws).ProvisionWatchers = pws)
    ∧ ((common.NewMultiMetricsResponse NewBaseResponse requestId message statusCode
          metrics).BaseResponse = NewBaseResponse requestId message statusCode
      ∧ (common.NewMultiMetricsResponse NewBaseResponse requestId message statusCode
          metrics).Metrics = metrics) :=
  ⟨⟨rfl, rfl⟩, ⟨rfl, rfl⟩, ⟨rfl, rfl⟩, ⟨rfl, rfl⟩, ⟨rfl, rfl⟩, ⟨rfl, rfl⟩, ⟨rfl, rfl⟩⟩

end responses

namespace dtos

/-- C23: the provision watcher conversions round-trip. For auto-event conversions
of which the one to models undoes the one to DTOs, converting a model to its DTO
and back gives the model again in Id, Name, Labels, Identifiers,
BlockingIdentifiers, ProfileName, ServiceName, AdminState and AutoEvents, with
the timestamps reset to the zero value. -/
theorem ToProvisionWatcherModel_FromProvisionWatcherModelToDTO {DAE MAE : Type}
    (toModels : Slice DAE → Slice MAE) (fromModels : Slice MAE → Slice DAE)
    (hinverse : ∀ events, toModels (fromModels events) = events)
    (m : models.ProvisionWatcher MAE) :
    ToProvisionWatcherModel toModels (FromProvisionWatcherModelToDTO fromModels m)
        = { m with Timestamps := { Created := 0, Modified := 0 } }
    ∧ ((ToProvisionWatcherModel toModels (FromProvisionWatcherModelToDTO fromModels m)).Id
        = m.Id
      ∧ (ToProvisionWatcherModel toModels (FromProvisionWatcherModelToDTO fromModels m)).Name
        = m.Name
      ∧ (ToProvisionWatcherModel toModels
          (FromProvisionWatcherModelToDTO fromModels m)).Labels = m.Labels
      ∧ (ToProvisionWatcherModel toModels
          (FromProvisionWatcherModelToDTO fromModels m)).Identifiers = m.Identifiers
      ∧ (ToProvisionWatcherModel toModels
          (FromProvisionWatcherModelToDTO fromModels m)).BlockingIdentifiers
        = m.BlockingIdentifiers
      ∧ (ToProvisionWatcherModel toModels
          (FromProvisionWatcherModelToDTO fromModels m)).ProfileName = m.ProfileName
      ∧ (ToProvisionWatcherModel toModels
          (FromProvisionWatcherModelToDTO fromModels m)).ServiceName = m.ServiceName
      ∧ (ToProvisionWatcherModel toModels
          (FromProvisionWatcherModelToDTO fromModels m)).AdminState = m.AdminState
      ∧ (ToProvisionWatcherModel toModels
          (FromProvisionWatcherModelToDTO fromModels m)).AutoEvents = m.AutoEvents
      ∧ (ToProvisionWatcherModel toModels
          (FromProvisionWatcherModelToDTO fromModels m)).Timestamps
        = { Created := 0, Modified := 0 }) := by
  have hauto : toModels (fromModels m.AutoEvents) = m.AutoEvents := hinverse _
  refine ⟨?_, rfl, rfl, rfl, rfl, rfl, rfl, rfl, rfl, hauto, rfl⟩
  simp only [ToProvisionWatcherModel, FromProvisionWatcherModelToDTO, hauto]

/-- The witness of `ToProvisionWatcherModel_FromProvisionWatcherModelToDTO`: the
sample provision watcher, with auto-event conversions that change nothing. -/
theorem ToProvisionWatcherModel_FromProvisionWatcherModelToDTO_witness :
    (∀ events : Slice Unit, (fun s : Slice Unit => s) ((fun s : Slice Unit => s) events)
      = events)
    ∧ ToProvisionWatcherModel (fun s : Slice Unit => s)
        (FromProvisionWatcherModelToDTO (fun s : Slice Unit => s) exampleProvisionWatcher)
      = { exampleProvisionWatcher with Timestamps := { Created := 0, Modified := 0 } } :=
  ⟨fun _ => rfl,
    (ToProvisionWatcherModel_FromProvisionWatcherModelToDTO (fun s : Slice Unit => s)
      (fun s : Slice Unit => s) (fun _ => rfl) exampleProvisionWatcher).1⟩

end dtos

namespace requests

open errors

/-- A patch that `Validate` accepts does not give both collections empty. -/
theorem Validate_nil_not_both_empty {DA : Type} (deps : SubscriptionDeps DA)
    (request : UpdateSubscriptionRequest DA)
    (h : UpdateSubscriptionRequest.Validate deps request = Err.nil) :
    ¬ (request.Subscription.Categories.isSome = true
        ∧ request.Subscription.Labels.isSome = true
        ∧ Slice.len request.Subscription.Categories = 0
        ∧ Slice.len request.Subscription.Labels = 0) := by
  rintro ⟨h₁, h₂, h₃, h₄⟩
  unfold UpdateSubscriptionRequest.Validate at h
  by_cases hs : deps.Validate request = Err.nil
  · by_cases hc : validateChannels deps (request.Subscription.Channels.getD []) = Err.nil
    · simp [hs, hc, h₁, h₂, h₃, h₄, NewCommonEdgeX] at h
    · simp [hs, hc] at h
  · simp [hs, NewCommonEdgeXWrapper] at h

/-- C24 fails as stated: the sample model has a category and no labels, the sample
patch gives only Categories, as the empty list, and is accepted by `Validate`, and
after `ReplaceSubscriptionModelFieldsWithDTO` the model has neither a category
nor a label. -/
theorem Replace_can_empty_both :
    (0 < Slice.len exampleCategoriesOnly.Categories
      ∨ 0 < Slice.len exampleCategoriesOnly.Labels)
    ∧ UpdateSubscriptionRequest.Validate exampleSubscriptionDeps
        exampleClearCategoriesRequest = Err.nil
    ∧ ¬ (0 < Slice.len (ReplaceSubscriptionModelFieldsWithDTO noChannels
            exampleCategoriesOnly exampleClearCategoriesRequest.Subscription).Categories
        ∨ 0 < Slice.len (ReplaceSubscriptionModelFieldsWithDTO noChannels
            exampleCategoriesOnly exampleClearCategoriesRequest.Subscription).Labels) := by
  refine ⟨by decide, by decide, by decide⟩

/-- C24, amended: for every subscription model in which Categories or Labels is
non-empty and every patch accepted by `UpdateSubscriptionRequest.Validate`, after
`ReplaceSubscriptionModelFieldsWithDTO` the model still has Categories or Labels
non-empty, unless the patch gives only one of the two collections, gives it
empty, and the other collection of the model is empty; in that case both are
empty afterwards. -/
theorem Replace_keeps_categories_or_labels {DA MA : Type} (deps : SubscriptionDeps DA)
    (conv : Slice DA → Slice MA) (s : models.Subscription MA)
    (request : UpdateSubscriptionRequest DA)
    (hmodel : 0 < Slice.len s.Categories ∨ 0 < Slice.len s.Labels)
    (haccepted : UpdateSubscriptionRequest.Validate deps request = Err.nil) :
    (0 < Slice.len (ReplaceSubscriptionModelFieldsWithDTO conv s
          request.Subscription).Categories
      ∨ 0 < Slice.len (ReplaceSubscriptionModelFieldsWithDTO conv s
          request.Subscription).Labels) ↔
    ¬ ((request.Subscription.Categories.isSome = true
          ∧ Slice.len request.Subscription.Categories = 0
          ∧ request.Subscription.Labels = none ∧ Slice.len s.Labels = 0)
        ∨ (request.Subscription.Labels.isSome = true
          ∧ Slice.len request.Subscription.Labels = 0
          ∧ request.Subscription.Categories = none ∧ Slice.len s.Categories = 0)) := by
  have hnot := Validate_nil_not_both_empty deps request haccepted
  obtain ⟨base, sub⟩ := request
  obtain ⟨pid, pname, pch, pcat, plab, pdesc, prec, plim, pint, padm⟩ := sub
  have hcat : (ReplaceSubscriptionModelFieldsWithDTO conv s
      { Id := pid, Name := pname, Channels := pch, Categories := pcat, Labels := plab,
        Description := pdesc, Receiver := prec, ResendLimit := plim,
        ResendInterval := pint, AdminState := padm }).Categories
      = (if pcat.isSome then pcat else s.Categories) := by
    cases pch <;> cases pcat <;> cases plab <;> cases pdesc <;> cases prec <;>
      cases plim <;> cases pint <;> cases padm <;>
      simp [ReplaceSubscriptionModelFieldsWithDTO]
  have hlab : (ReplaceSubscriptionModelFieldsWithDTO conv s
      { Id := pid, Name := pname, Channels := pch, Categories := pcat, Labels := plab,
        Description := pdesc, Receiver := prec, ResendLimit := plim,
        ResendInterval := pint, AdminState := padm }).Labels
      = (if plab.isSome then plab else s.Labels) := by
    cases pch <;> cases pcat <;> cases plab <;> cases pdesc <;> cases prec <;>
      cases plim <;> cases pint <;> cases padm <;>
      simp [ReplaceSubscriptionModelFieldsWithDTO]
  simp only at hnot ⊢
  rw [hcat, hlab]
  have hsome : ∀ (l : List String), Slice.len (some l) = l.length := fun _ => rfl
  cases pcat with
  | none =>
    cases plab with
    | none => simpa using hmodel
    | some labs =>
      simp only [Option.isSome_none, Option.isSome_some, if_true, Bool.false_eq_true,
        if_false, hsome]
      by_cases hl : labs.length = 0
      · by_cases hc : Slice.len s.Categories = 0
        · simp [hl, hc]
        · have hc' : 0 < Slice.len s.Categories := Nat.pos_of_ne_zero hc
          simp [hl, hc, hc']
      · have hl' : 0 < labs.length := Nat.pos_of_ne_zero hl
        simp [hl, hl']
  | some cats =>
    cases plab with
    | none =>
      simp only [Option.isSome_none, Option.isSome_some, if_true, Bool.false_eq_true,
        if_false, hsome]
      by_cases hc : cats.length = 0
      · by_cases hl : Slice.len s.Labels = 0
        · simp [hl, hc]
        · have hl' : 0 < Slice.len s.Labels := Nat.pos_of_ne_zero hl
          simp [hl, hc, hl']
      · have hc' : 0 < cats.length := Nat.pos_of_ne_zero hc
        simp [hc, hc']
    | some labs =>
      simp only [Option.isSome_some, if_true, hsome] at hnot ⊢
      have hpos : 0 < cats.length ∨ 0 < labs.length := by
        by_contra hcon
        apply hnot
        refine ⟨trivial, trivial, ?_, ?_⟩ <;> omega
      simp [hpos]

/-- The witness of `Replace_keeps_categories_or_labels`: the sample model with a
category and two labels keeps its labels under the patch that clears the
categories. -/
theorem Replace_keeps_categories_or_labels_witness :
    0 < Slice.len (ReplaceSubscriptionModelFieldsWithDTO noChannels exampleSubscription
          exampleClearCategoriesRequest.Subscription).Categories
      ∨ 0 < Slice.len (ReplaceSubscriptionModelFieldsWithDTO noChannels exampleSubscription
          exampleClearCategoriesRequest.Subscription).Labels :=
  (Replace_keeps_categories_or_labels exampleSubscriptionDeps noChannels
    exampleSubscription exampleClearCategoriesRequest (by decide) (by decide)).mpr
    (by decide)

end requests

namespace utils

open errors

/-- C26: when the body of an error response is not a decodable `BaseResponse`, the
status code does not decide the error. For a response with status above 207
whose body fails decoding, `sendRequest` returns nil bytes and the wrapped
decoding error, and every other response with a status above 207 and the same
body gives the same result, be the status 400 or not. -/
theorem sendRequest_undecodable_body (Do : Request → Option Response × Err)
    (Unmarshal : Bytes → Except Err common.BaseResponse) (req : Request)
    (resp : Response) (body : Bytes) (err : Err)
    (hsent : Do req = (some resp, Err.nil)) (hread : resp.ReadAll = (body, Err.nil))
    (hstatus : 207 < resp.StatusCode) (hdec : Unmarshal body = Except.error err) :
    sendRequest Do Unmarshal req = (none, NewCommonEdgeXWrapper err)
    ∧ (∀ (Do₂ : Request → Option Response × Err) (resp₂ : Response),
        Do₂ req = (some resp₂, Err.nil) → resp₂.ReadAll = (body, Err.nil) →
        207 < resp₂.StatusCode →
        sendRequest Do₂ Unmarshal req = sendRequest Do Unmarshal req) := by
  have key : ∀ (D : Request → Option Response × Err) (r : Response),
      D req = (some r, Err.nil) → r.ReadAll = (body, Err.nil) → 207 < r.StatusCode →
      sendRequest D Unmarshal req = (none, NewCommonEdgeXWrapper err) := by
    intro D r hs hr hst
    have h' : ¬ r.StatusCode ≤ 207 := not_le.mpr hst
    simp [sendRequest, makeRequest, getBody, hs, hr, h', hdec, StatusMultiStatus]
  refine ⟨key Do resp hsent hread hstatus, ?_⟩
  intro Do₂ resp₂ hs hr hst
  rw [key Do₂ resp₂ hs hr hst, key Do resp hsent hread hstatus]

/-- The witness of `sendRequest_undecodable_body`: the empty body with status 400
gives the wrapped decoding error, and with status 405 the same. -/
theorem sendRequest_undecodable_body_witness :
    sendRequest (respondWith 400 []) decodeNothing exampleRequest
        = (none, NewCommonEdgeXWrapper (Err.foreign "unexpected end of JSON input"))
    ∧ sendRequest (respondWith 405 []) decodeNothing exampleRequest
        = sendRequest (respondWith 400 []) decodeNothing exampleRequest :=
  have h := sendRequest_undecodable_body (respondWith 400 []) decodeNothing exampleRequest
    { StatusCode := 400, ReadAll := (some [], Err.nil) } (some [])
    (Err.foreign "unexpected end of JSON input") rfl rfl (by decide) rfl
  ⟨h.1, h.2 (respondWith 405 []) { StatusCode := 405, ReadAll := (some [], Err.nil) }
    rfl rfl (by decide)⟩

/-- The request `createRequestWithRawData` returns when the data encodes and the
request can be made: the one `http.NewRequest` built, with the two headers set. -/
theorem createRequestWithRawData_built {Data : Type} (c : clients.Constants)
    (newUUID : String) (Marshal : Data → Except Err (List UInt8))
    (NewRequest : String → String → Bytes → Except Err Request)
    (ctx : Context) (httpMethod url : String) (data : Data) (bytes : List UInt8)
    (built : Request) (hm : Marshal data = Except.ok bytes)
    (hnew : NewRequest httpMethod url (some bytes) = Except.ok built) :
    ∃ header, createRequestWithRawData c newUUID Marshal NewRequest ctx httpMethod url data
      = (some { built with Header := header }, Err.nil) := by
  unfold createRequestWithRawData
  simp only [hm, hnew]
  exact ⟨_, rfl⟩

/-- C27: the body built by `createRequestWithRawData` does not depend on the
content type. For an `http.NewRequest` that keeps the body it is given and a
content-type header name other than the correlation header's: whenever the data
encodes and the request can be made, every two contexts yield requests with the
same body, the JSON encoding of the data, while the content-type header of each
follows its context; so a context asking for CBOR yields a CBOR header over the
JSON body. -/
theorem createRequestWithRawData_body_independent {Data : Type} (c : clients.Constants)
    (hnames : c.ContentType ≠ c.CorrelationHeader)
    (newUUID : String) (Marshal : Data → Except Err (List UInt8))
    (NewRequest : String → String → Bytes → Except Err Request)
    (hbody : ∀ method target body built,
      NewRequest method target body = Except.ok built → built.Body = body)
    (httpMethod url : String) (data : Data) (bytes : List UInt8) (built : Request)
    (hm : Marshal data = Except.ok bytes)
    (hnew : NewRequest httpMethod url (some bytes) = Except.ok built)
    (ctx₁ ctx₂ : Context) :
    ∃ req₁ req₂,
      createRequestWithRawData c newUUID Marshal NewRequest ctx₁ httpMethod url data
        = (some req₁, Err.nil)
      ∧ createRequestWithRawData c newUUID Marshal NewRequest ctx₂ httpMethod url data
        = (some req₂, Err.nil)
      ∧ req₁.Body = some bytes ∧ req₂.Body = some bytes ∧ req₁.Body = req₂.Body
      ∧ Header.Get req₁.Header c.ContentType
          = (if FromContext ctx₁ c.ContentType = "" then c.ContentTypeJSON
              else FromContext ctx₁ c.ContentType)
      ∧ Header.Get req₂.Header c.ContentType
          = (if FromContext ctx₂ c.ContentType = "" then c.ContentTypeJSON
              else FromContext ctx₂ c.ContentType) := by
  obtain ⟨h₁, e₁⟩ := createRequestWithRawData_built c newUUID Marshal NewRequest ctx₁
    httpMethod url data bytes built hm hnew
  obtain ⟨h₂, e₂⟩ := createRequestWithRawData_built c newUUID Marshal NewRequest ctx₂
    httpMethod url data bytes built hm hnew
  have hb : built.Body = some bytes := hbody _ _ _ _ hnew
  refine ⟨_, _, e₁, e₂, hb, hb, rfl, ?_, ?_⟩
  · exact (createRequestWithRawData_headers c newUUID Marshal NewRequest ctx₁ httpMethod
      url data _ (by rw [e₁])).2 hnames
  · exact (createRequestWithRawData_headers c newUUID Marshal NewRequest ctx₂ httpMethod
      url data _ (by rw [e₂])).2 hnames

/-- The witness of `createRequestWithRawData_body_independent`: a context asking
for JSON and one asking for CBOR yield the same body, and the second a CBOR
header. -/
theorem createRequestWithRawData_body_independent_witness :
    ∃ req₁ req₂,
      createRequestWithRawData exampleConstants "7a1707f0"
          (fun (_ : Unit) => Except.ok [123, 125]) plainNewRequest jsonContext
          "POST" "http://localhost/api/v2/event" () = (some req₁, Err.nil)
      ∧ createRequestWithRawData exampleConstants "7a1707f0"
          (fun (_ : Unit) => Except.ok [123, 125]) plainNewRequest cborContext
          "POST" "http://localhost/api/v2/event" () = (some req₂, Err.nil)
      ∧ req₁.Body = some [123, 125] ∧ req₂.Body = some [123, 125]
      ∧ req₁.Body = req₂.Body
      ∧ Header.Get req₁.Header exampleConstants.ContentType = "application/json"
      ∧ Header.Get req₂.Header exampleConstants.ContentType = "application/cbor" :=
  createRequestWithRawData_body_independent exampleConstants (by decide) "7a1707f0"
    (fun (_ : Unit) => Except.ok [123, 125]) plainNewRequest
    (by
      intro method target body built h
      simp only [plainNewRequest, Except.ok.injEq] at h
      rw [← h])
    "POST" "http://localhost/api/v2/event" () [123, 125]
    { Method := "POST", URL := "http://localhost/api/v2/event", Body := some [123, 125],
      Header := [] } rfl rfl jsonContext cborContext

end utils

namespace requests

open errors

/-- What the loop of `Encode` leaves: the CBOR content type when some reading has
the Binary value type, the encoding it started with otherwise. -/
theorem chooseEncoding_eq (binary cbor : String) (rs : List dtos.BaseReading)
    (encoding : String) :
    chooseEncoding binary cbor rs encoding
      = (if ∃ r ∈ rs, r.ValueType = binary then cbor else encoding) := by
  induction rs with
  | nil => simp [chooseEncoding]
  | cons r rest ih =>
    unfold chooseEncoding
    by_cases h : r.ValueType = binary
    · simp [h]
    · simp [h, ih]

/-- C25: `AddEventRequest.Encode` chooses the wire format from the readings and the
environment. For distinct CBOR and JSON content types: when some reading's
ValueType equals the Binary value type exactly, or the environment variable equals
the true value, it encodes with the CBOR encoder and returns the CBOR content
type; otherwise it encodes with the JSON encoder and returns the JSON content
type; an encoder's failure gives no bytes and a `KindContractInvalid` error.
So whenever bytes are returned, the content type returned with them names the
encoder that made them, and it is the CBOR one exactly in the first case. -/
theorem AddEventRequest_Encode_format (c : clients.Constants) (deps : EncodeDeps)
    (hdistinct : c.ContentTypeCBOR ≠ c.ContentTypeJSON) (env : String)
    (a : AddEventRequest) :
    (((∃ r ∈ a.Event.Readings.getD [], r.ValueType = deps.ValueTypeBinary)
        ∨ env = deps.ValueTrue) →
      AddEventRequest.Encode c deps env a
        = (match deps.cborMarshal a with
            | Except.error err =>
              (none, "", NewCommonEdgeX ErrKind.KindContractInvalid
                "failed to encode AddEventRequest to CBOR" err)
            | Except.ok encodedData => (some encodedData, c.ContentTypeCBOR, Err.nil)))
    ∧ (¬ ((∃ r ∈ a.Event.Readings.getD [], r.ValueType = deps.ValueTypeBinary)
        ∨ env = deps.ValueTrue) →
      AddEventRequest.Encode c deps env a
        = (match deps.jsonMarshal a with
            | Except.error err =>
              (none, "", NewCommonEdgeX ErrKind.KindContractInvalid
                "failed to encode AddEventRequest to JSON" err)
            | Except.ok encodedData => (some encodedData, c.ContentTypeJSON, Err.nil)))
    ∧ (∀ encodedData contentType,
        AddEventRequest.Encode c deps env a = (some encodedData, contentType, Err.nil) →
        (contentType = c.ContentTypeCBOR ∧ deps.cborMarshal a = Except.ok encodedData
            ∧ ((∃ r ∈ a.Event.Readings.getD [], r.ValueType = deps.ValueTypeBinary)
              ∨ env = deps.ValueTrue))
          ∨ (contentType = c.ContentTypeJSON ∧ deps.jsonMarshal a = Except.ok encodedData
            ∧ ¬ ((∃ r ∈ a.Event.Readings.getD [], r.ValueType = deps.ValueTypeBinary)
              ∨ env = deps.ValueTrue))) := by
  have hdistinct' : ¬ c.ContentTypeJSON = c.ContentTypeCBOR := fun e => hdistinct e.symm
  have hcbor : ((∃ r ∈ a.Event.Readings.getD [], r.ValueType = deps.ValueTypeBinary)
        ∨ env = deps.ValueTrue) →
      AddEventRequest.Encode c deps env a
        = (match deps.cborMarshal a with
            | Except.error err =>
              (none, "", NewCommonEdgeX ErrKind.KindContractInvalid
                "failed to encode AddEventRequest to CBOR" err)
            | Except.ok encodedData =>
              (some encodedData, c.ContentTypeCBOR, Err.nil)) := by
    intro h
    unfold AddEventRequest.Encode
    simp only [chooseEncoding_eq]
    by_cases henv : env = deps.ValueTrue
    · simp only [henv, if_true]
    · have hr : ∃ r ∈ a.Event.Readings.getD [], r.ValueType = deps.ValueTypeBinary := by
        rcases h with h | h
        · exact h
        · exact absurd h henv
      simp only [henv, if_false, hr, if_true]
  have hjson : ¬ ((∃ r ∈ a.Event.Readings.getD [], r.ValueType = deps.ValueTypeBinary)
        ∨ env = deps.ValueTrue) →
      AddEventRequest.Encode c deps env a
        = (match deps.jsonMarshal a with
            | Except.error err =>
              (none, "", NewCommonEdgeX ErrKind.KindContractInvalid
                "failed to encode AddEventRequest to JSON" err)
            | Except.ok encodedData =>
              (some encodedData, c.ContentTypeJSON, Err.nil)) := by
    intro h
    have henv : ¬ env = deps.ValueTrue := fun e => h (Or.inr e)
    have hr : ¬ ∃ r ∈ a.Event.Readings.getD [], r.ValueType = deps.ValueTypeBinary :=
      fun e => h (Or.inl e)
    unfold AddEventRequest.Encode
    simp only [chooseEncoding_eq, henv, if_false, hr, hdistinct', if_true]
  refine ⟨hcbor, hjson, ?_⟩
  intro encodedData contentType hres
  by_cases h : (∃ r ∈ a.Event.Readings.getD [], r.ValueType = deps.ValueTypeBinary)
      ∨ env = deps.ValueTrue
  · left
    rw [hcbor h] at hres
    cases hm : deps.cborMarshal a with
    | error e => simp [hm] at hres
    | ok bs =>
      simp only [hm, Prod.mk.injEq, Option.some.injEq, and_true] at hres
      exact ⟨hres.2.symm, by rw [hres.1], h⟩
  · right
    rw [hjson h] at hres
    cases hm : deps.jsonMarshal a with
    | error e => simp [hm] at hres
    | ok bs =>
      simp only [hm, Prod.mk.injEq, Option.some.injEq, and_true] at hres
      exact ⟨hres.2.symm, by rw [hres.1], h⟩

/-- The witness of `AddEventRequest_Encode_format`: with the sample constants, a
reading spelled `Binary` is encoded as CBOR and a reading spelled `binary` as
JSON. -/
theorem AddEventRequest_Encode_format_witness :
    AddEventRequest.Encode utils.exampleConstants exampleEncodeDeps ""
        (exampleAddEventRequest "Binary") = (some [1], "application/cbor", Err.nil)
    ∧ AddEventRequest.Encode utils.exampleConstants exampleEncodeDeps ""
        (exampleAddEventRequest "binary") = (some [2], "application/json", Err.nil) :=
  ⟨(AddEventRequest_Encode_format utils.exampleConstants exampleEncodeDeps (by decide) ""
      (exampleAddEventRequest "Binary")).1 (by decide),
    (AddEventRequest_Encode_format utils.exampleConstants exampleEncodeDeps (by decide) ""
      (exampleAddEventRequest "binary")).2.1 (by decide)⟩

end requests

namespace requests

open errors

/-- The envelope rule: with the rest of the request valid, the validation passes
exactly when the RequestId is empty or a UUID. -/
theorem validateEnvelope_eq_nil_iff (isUUID : String → Bool) (base : common.BaseRequest) :
    validateEnvelope isUUID base Err.nil = Err.nil ↔
      base.RequestId = "" ∨ isUUID base.RequestId = true := by
  unfold validateEnvelope
  by_cases h₁ : base.RequestId = ""
  · simp [h₁]
  · cases h₂ : isUUID base.RequestId <;> simp [h₁, h₂, NewCommonEdgeX]

/-- C21: request-id validation in the request envelope. With the struct-level
validation as modelled, a request that is otherwise valid passes `Validate` when
its RequestId is empty or a UUID, and every request with a non-empty RequestId
that is not a UUID is rejected: for `AddEventRequest.Validate`, which returns the
struct-level error first, and for the validation of the two device-service
requests. With the sample UUID test the request ids of the tests get the verdicts
the tests expect. -/
theorem Validate_request_id (isUUID : String → Bool) (deps : EventDeps)
    (others : AddEventRequest → Err) (a : AddEventRequest)
    (y : AddDeviceServiceRequest) (z : UpdateDeviceServiceRequest) :
    ((others a = Err.nil →
        (∀ r ∈ a.Event.Readings.getD [], deps.ReadingValidate r = Err.nil) →
        (a.BaseRequest.RequestId = "" ∨ isUUID a.BaseRequest.RequestId = true) →
        AddEventRequest.Validate
          { deps with Validate := fun x => validateEnvelope isUUID x.BaseRequest (others x) }
          a = Err.nil)
      ∧ (a.BaseRequest.RequestId ≠ "" → isUUID a.BaseRequest.RequestId = false →
        AddEventRequest.Validate
          { deps with Validate := fun x => validateEnvelope isUUID x.BaseRequest (others x) }
          a ≠ Err.nil))
    ∧ ((validateEnvelope isUUID y.BaseRequest Err.nil = Err.nil ↔
          y.BaseRequest.RequestId = "" ∨ isUUID y.BaseRequest.RequestId = true)
      ∧ (validateEnvelope isUUID z.BaseRequest Err.nil = Err.nil ↔
          z.BaseRequest.RequestId = "" ∨ isUUID z.BaseRequest.RequestId = true))
    ∧ (validateEnvelope validation.exampleIsUUID { RequestId := "" } Err.nil = Err.nil
      ∧ validateEnvelope validation.exampleIsUUID
          { RequestId := "7a1707f0-166f-4c4b-bc9d-1d54c74e0137" } Err.nil = Err.nil
      ∧ validateEnvelope validation.exampleIsUUID { RequestId := "xxy" } Err.nil ≠ Err.nil
      ∧ validateEnvelope validation.exampleIsUUID { RequestId := "jfdw324" } Err.nil
          ≠ Err.nil
      ∧ validateEnvelope validation.exampleIsUUID { RequestId := "invalidUUID" } Err.nil
          ≠ Err.nil) := by
  refine ⟨⟨?_, ?_⟩, ⟨validateEnvelope_eq_nil_iff isUUID _, validateEnvelope_eq_nil_iff isUUID _⟩,
    by decide, by decide, by decide, by decide, by decide⟩
  · intro hothers hreadings hid
    have hs : validateEnvelope isUUID a.BaseRequest (others a) = Err.nil := by
      rw [hothers]
      exact (validateEnvelope_eq_nil_iff isUUID _).mpr hid
    unfold AddEventRequest.Validate
    simp only [hs, ne_eq, not_true_eq_false, if_false]
    exact (validateReadings_eq_nil_iff _ _).mpr hreadings
  · intro hne hbad
    have hs : validateEnvelope isUUID a.BaseRequest (others a) ≠ Err.nil := by
      simp [validateEnvelope, hne, hbad, NewCommonEdgeX]
    unfold AddEventRequest.Validate
    simp only [hs, ne_eq, not_false_eq_true, if_true]

end requests

end CoreContracts
